import Mathlib

/-!
Verification development for the scl-emulator PLC memory model and SCL
interpreter.  The definitions below are shallow embeddings of the
TypeScript sources:

  * `src/plc/state/areas/bitArea.ts`, `wordArea.ts` — byte-buffer areas;
  * `src/plc/state/address.ts` — the absolute address grammar
    (the current version, which rejects `DB…` absolute addresses);
  * `src/plc/state/optimizedDb.ts` — the symbolic data-block store;
  * `src/plc/state/plcState.ts` — the typed memory facade;
  * `src/emulator/interpreter.ts` — the IR interpreter.

Modelling conventions (documented once here):

  * A JavaScript `number` is modelled as an exact rational (`ℚ`).  Every
    facade validator that demands `Number.isInteger` plus a range bound is
    modelled by `q.den = 1` plus the same bound, which is exact because
    all such ranges fit well inside the 2^53 window where doubles are
    exact.  Arithmetic inside the interpreter is modelled exactly; the
    only place binary rounding is observable in the verified claims is
    the byte encoding of REAL/LREAL, which is modelled by explicit
    IEEE-754 bit-pattern codecs (`fEnc`/`fDec`).  `NaN`/`±Infinity`
    inputs are outside the model, so `Number.isFinite` validator
    branches are never taken.
  * A JavaScript `bigint` is modelled as `Int`.
  * A JavaScript string is modelled as its list of code units
    (`List Nat`); `TextEncoder`/`TextDecoder` are the identity on this
    representation, which is exact for single-byte (ASCII) content — the
    scope within which the string claims are settled.
  * A `Uint8Array` is a `List Nat` of bytes; `Map`s are association
    lists with JavaScript `Map` semantics (first-match get,
    replace-or-append set).
  * Methods that mutate `this` are modelled by returning the updated
    structure; a thrown `RangeError` is an `Except.error` carrying the
    message, caught exactly where the source catches it.  Change
    listeners are modelled by returning the list of dispatched change
    payloads instead of invoking callbacks.
-/

attribute [local semireducible] Rat.add Rat.sub Rat.mul Rat.inv

namespace SclEmu

/-- The 14 scalar data types of the emulator (`SclDataType`/`PlcValueType`). -/
inductive SclDataType
  | BOOL | BYTE | WORD | DWORD | SINT | INT | DINT | LINT
  | REAL | LREAL | TIME | DATE | TOD | STRING
deriving DecidableEq, Repr

/-- JavaScript values that cross the facade boundary: booleans, numbers
(exact rationals), bigints, and strings (lists of code units). -/
inductive JsVal
  | vBool (b : Bool)
  | vNum (q : ℚ)
  | vBig (i : Int)
  | vStr (units : List Nat)
  | vUndef
deriving DecidableEq, Repr

/-- The public error taxonomy (`PlcErrorCode` in `types.ts`). -/
inductive PlcErrorCode
  | invalidAddress | outOfRange | alignmentError | typeMismatch
  | invalidConfig | unknownFbInstance | unknownSymbol
  | invalidSymbolPath | uninitializedArea
deriving DecidableEq, Repr

/-- A structured facade error (`PlcError`; the `details` payload is not
modelled). -/
structure PlcError where
  code : PlcErrorCode
  message : String
  address : Option String := none
deriving DecidableEq, Repr

/-- Tagged result of a facade call (`PlcResult`). -/
abbrev PlcResult (α : Type) := Except PlcError α

/-- Truncation toward zero, the semantics of `Math.trunc` and of
JavaScript's ToInteger conversion on a finite number. -/
def jsTrunc (q : ℚ) : Int := q.num.tdiv q.den

/-- JavaScript falsy-number coalescing `n || fallback` for nonnegative
integers (`0` is falsy). -/
def jsOrElse (n fallback : Nat) : Nat := if n = 0 then fallback else n

/-! ### Little-endian byte codecs

`DataView.setUintN/setIntN` with `littleEndian = true` store the value
modulo 2^(8w) in `w` little-endian bytes; the getters read them back,
the signed getters sign-extending. -/

/-- Little-endian bytes of `n`, `w` bytes wide. -/
def leBytes : Nat → Nat → List Nat
  | 0, _ => []
  | w + 1, n => (n % 256) :: leBytes w (n / 256)

/-- Value of a little-endian byte list (each entry is reduced mod 256,
matching a `Uint8Array`'s invariant). -/
def leVal : List Nat → Nat
  | [] => 0
  | b :: rest => b % 256 + 256 * leVal rest

/-- Encoding of an integer as stored by the `DataView` setters: the value
is wrapped modulo 2^(8w). -/
def encInt (w : Nat) (i : Int) : List Nat :=
  leBytes w (i.emod (2 ^ (8 * w))).toNat

/-- Sign extension performed by the signed `DataView` getters. -/
def toSigned (w : Nat) (n : Nat) : Int :=
  if n < 2 ^ (8 * w - 1) then (n : Int) else (n : Int) - 2 ^ (8 * w)

theorem leBytes_length (w n : Nat) : (leBytes w n).length = w := by
  induction w generalizing n with
  | zero => rfl
  | succ w ih => simp [leBytes, ih]

theorem leBytes_lt (w n : Nat) : ∀ b ∈ leBytes w n, b < 256 := by
  induction w generalizing n with
  | zero => intro b h; simp [leBytes] at h
  | succ w ih =>
    intro b h
    simp only [leBytes, List.mem_cons] at h
    rcases h with h | h
    · omega
    · exact ih _ _ h

theorem leVal_leBytes (w n : Nat) : leVal (leBytes w n) = n % 2 ^ (8 * w) := by
  induction w generalizing n with
  | zero => simp [leBytes, leVal, Nat.mod_one]
  | succ w ih =>
    have h8 : 8 * (w + 1) = 8 * w + 8 := by ring
    rw [leBytes, leVal, ih, h8, pow_add]
    set K := 2 ^ (8 * w) with hK
    rw [show K * 2 ^ 8 = 256 * K by ring]
    have h1 : n % (256 * K) % 256 = n % 256 :=
      Nat.mod_mod_of_dvd n ⟨K, rfl⟩
    have h2 : n % (256 * K) / 256 = n / 256 % K :=
      Nat.mod_mul_right_div_self n 256 K
    set B := n / 256 % K with hB
    set A := n % (256 * K) with hA
    omega

theorem leBytes_leVal (bs : List Nat) (hlt : ∀ b ∈ bs, b < 256) :
    leBytes bs.length (leVal bs) = bs := by
  induction bs with
  | nil => rfl
  | cons b rest ih =>
    have hb : b < 256 := hlt b (List.mem_cons_self _ _)
    have hrest : ∀ x ∈ rest, x < 256 := fun x hx => hlt x (List.mem_cons_of_mem _ hx)
    simp only [List.length_cons, leBytes, leVal]
    have hhead : (b % 256 + 256 * leVal rest) % 256 = b := by omega
    have htail : (b % 256 + 256 * leVal rest) / 256 = leVal rest := by omega
    rw [hhead, htail, ih hrest]

theorem leVal_lt (bs : List Nat) : leVal bs < 2 ^ (8 * bs.length) := by
  induction bs with
  | nil => simp [leVal]
  | cons b rest ih =>
    simp only [leVal, List.length_cons]
    have h8 : 8 * (rest.length + 1) = 8 * rest.length + 8 := by ring
    rw [h8, pow_add]
    have : (2 : Nat) ^ 8 = 256 := by norm_num
    rw [this]
    have hb : b % 256 < 256 := Nat.mod_lt _ (by norm_num)
    nlinarith [ih]

theorem leVal_encInt_of_nonneg (w : Nat) (i : Int) (h0 : 0 ≤ i)
    (hlt : i < 2 ^ (8 * w)) : (leVal (encInt w i) : Int) = i := by
  have hcast : ((2 ^ (8 * w) : Nat) : Int) = 2 ^ (8 * w) := by push_cast; ring
  have hie : i.emod (2 ^ (8 * w)) = i := Int.emod_eq_of_lt h0 hlt
  rw [encInt, leVal_leBytes, hie]
  have hlt2 : i.toNat < 2 ^ (8 * w) := by
    have h : (i.toNat : Int) < ((2 ^ (8 * w) : Nat) : Int) := by
      rw [Int.toNat_of_nonneg h0, hcast]; exact hlt
    exact_mod_cast h
  rw [Nat.mod_eq_of_lt hlt2, Int.toNat_of_nonneg h0]

theorem toSigned_encInt (w : Nat) (hw : 0 < w) (i : Int)
    (hlo : -(2 ^ (8 * w - 1)) ≤ i) (hhi : i < 2 ^ (8 * w - 1)) :
    toSigned w (leVal (encInt w i)) = i := by
  have hsplit : 8 * w = (8 * w - 1) + 1 := by omega
  have hpowI : (2 : Int) ^ (8 * w) = 2 ^ (8 * w - 1) * 2 := by
    conv_lhs => rw [hsplit]
    rw [pow_succ]
  have hM : (0 : Int) < 2 ^ (8 * w - 1) := by positivity
  have hcast : ((2 ^ (8 * w) : Nat) : Int) = 2 ^ (8 * w) := by push_cast; ring
  have hcast1 : ((2 ^ (8 * w - 1) : Nat) : Int) = 2 ^ (8 * w - 1) := by push_cast; ring
  have hx0 : 0 ≤ i.emod (2 ^ (8 * w)) := Int.emod_nonneg i (by positivity)
  have hxlt : i.emod (2 ^ (8 * w)) < 2 ^ (8 * w) := Int.emod_lt_of_pos i (by positivity)
  set x : Nat := (i.emod (2 ^ (8 * w))).toNat with hxdef
  have hxi : (x : Int) = i.emod (2 ^ (8 * w)) := Int.toNat_of_nonneg hx0
  have hxltN : x < 2 ^ (8 * w) := by
    have h : (x : Int) < ((2 ^ (8 * w) : Nat) : Int) := by
      rw [hxi, hcast]; exact hxlt
    exact_mod_cast h
  have hlv : leVal (encInt w i) = x := by
    rw [encInt, leVal_leBytes, Nat.mod_eq_of_lt hxltN]
  rw [hlv, toSigned]
  by_cases hi : 0 ≤ i
  · have hie : i.emod (2 ^ (8 * w)) = i :=
      Int.emod_eq_of_lt hi (by rw [hpowI]; omega)
    have hxeq : (x : Int) = i := by rw [hxi, hie]
    have hbr : x < 2 ^ (8 * w - 1) := by
      have h : (x : Int) < ((2 ^ (8 * w - 1) : Nat) : Int) := by
        rw [hxeq, hcast1]; exact hhi
      exact_mod_cast h
    rw [if_pos hbr, hxeq]
  · have hie : i.emod (2 ^ (8 * w)) = i + 2 ^ (8 * w) := by
      have hself : (i + 2 ^ (8 * w) * 1).emod (2 ^ (8 * w)) = i.emod (2 ^ (8 * w)) :=
        Int.add_mul_emod_self_left i (2 ^ (8 * w)) 1
      have h1 : (i + 2 ^ (8 * w)).emod (2 ^ (8 * w)) = i.emod (2 ^ (8 * w)) := by
        rw [← hself]; ring_nf
      have h2 : (i + 2 ^ (8 * w)).emod (2 ^ (8 * w)) = i + 2 ^ (8 * w) :=
        Int.emod_eq_of_lt (by rw [hpowI]; omega) (by omega)
      omega
    have hxeq : (x : Int) = i + 2 ^ (8 * w) := by rw [hxi, hie]
    have hbr : ¬ x < 2 ^ (8 * w - 1) := by
      intro hcon
      have h : (x : Int) < ((2 ^ (8 * w - 1) : Nat) : Int) := by exact_mod_cast hcon
      rw [hxeq, hcast1, hpowI] at h
      omega
    rw [if_neg hbr]
    rw [hxeq]
    ring

/-! ### IEEE-754 bit-pattern codecs

`DataView.setFloat32/64` store the IEEE-754 binary32/binary64 encoding of
the (rounded) number; the getters read it back.  `fDec` gives the exact
rational value of a finite bit pattern; `fEnc` rounds a rational to the
nearest representable pattern (ties to even), which matches the
double-to-float conversion for values that already are representable —
the only values the verified round-trip claims quantify over. -/

/-- Rounding to the nearest integer, ties to even. -/
def ratRoundNE (q : ℚ) : Int :=
  let f : Int := ⌊q⌋
  let r : ℚ := q - f
  if r < 1 / 2 then f
  else if 1 / 2 < r then f + 1
  else if f % 2 = 0 then f else f + 1

/-- Integer base-2 logarithm of a positive rational (greatest `E` with
`2^E ≤ a`), computed from the numerator/denominator logs plus a
correction step. -/
def ilog2 (a : ℚ) : Int :=
  let cand : Int := (Nat.log2 a.num.toNat : Int) - (Nat.log2 a.den : Int)
  let fix : Int → Int := fun E =>
    if (2 : ℚ) ^ (E + 1) ≤ a then E + 1
    else if a < (2 : ℚ) ^ E then E - 1 else E
  fix (fix cand)

/-- Encoding of a rational into an IEEE bit pattern with `mant` mantissa
bits and `expw` exponent bits (round to nearest, ties to even; overflow
gives the infinity pattern). -/
def fEnc (mant expw : Nat) (q : ℚ) : Nat :=
  if q = 0 then 0
  else
    let bias : Int := 2 ^ (expw - 1) - 1
    let s : Nat := if q < 0 then 1 else 0
    let a : ℚ := |q|
    let e2 : Int := ilog2 a
    let g : Int := max (e2 - mant) (1 - bias - mant)
    let m : Int := ratRoundNE (a / (2 : ℚ) ^ g)
    let m' : Int := if m ≥ 2 ^ (mant + 1) then m / 2 else m
    let g' : Int := if m ≥ 2 ^ (mant + 1) then g + 1 else g
    let e : Int := g' + mant + bias
    if m' = 0 then s <<< (mant + expw)
    else if e ≤ 0 then (s <<< (mant + expw)) + m'.toNat
    else if e ≥ 2 ^ expw - 1 then
      (s <<< (mant + expw)) + ((2 ^ expw - 1) <<< mant)
    else (s <<< (mant + expw)) + (e.toNat <<< mant) + (m' - 2 ^ mant).toNat

/-- Exact rational value of an IEEE bit pattern (patterns with an
all-ones exponent field denote NaN/Infinity and are outside the model;
`fFinite` screens them out of the REAL/LREAL domains). -/
def fDec (mant expw : Nat) (p : Nat) : ℚ :=
  let s : Nat := p >>> (mant + expw)
  let e : Nat := (p >>> mant) % 2 ^ expw
  let f : Nat := p % 2 ^ mant
  let bias : Int := 2 ^ (expw - 1) - 1
  let sign : ℚ := if s % 2 = 1 then -1 else 1
  if e = 0 then sign * (f : ℚ) * (2 : ℚ) ^ (1 - bias - mant)
  else sign * ((2 ^ mant + f : Nat) : ℚ) * (2 : ℚ) ^ ((e : Int) - bias - mant)

/-- Whether a bit pattern denotes a finite value (exponent field not
all ones). -/
def fFinite (mant expw : Nat) (p : Nat) : Bool :=
  (p >>> mant) % 2 ^ expw ≠ 2 ^ expw - 1

/-- The binary32 encoder used by `WordArea.writeFloat32`. -/
def f32Enc (q : ℚ) : Nat := fEnc 23 8 q

/-- The binary32 decoder used by `WordArea.readFloat32`. -/
def f32Dec (p : Nat) : ℚ := fDec 23 8 p

/-- The binary64 encoder used by `WordArea.writeFloat64`. -/
def f64Enc (q : ℚ) : Nat := fEnc 52 11 q

/-- The binary64 decoder used by `WordArea.readFloat64`. -/
def f64Dec (p : Nat) : ℚ := fDec 52 11 p

/-! ### Byte-buffer primitives -/

/-- Slice `len` bytes starting at `off` (`Uint8Array.slice`). -/
def listSlice (l : List Nat) (off len : Nat) : List Nat :=
  (l.drop off).take len

/-- Overwrite the bytes at `off` with `repl` (`Uint8Array.set`), assuming
the caller has checked bounds. -/
def listSet (l : List Nat) (off : Nat) (repl : List Nat) : List Nat :=
  l.take off ++ repl ++ l.drop (off + repl.length)

theorem listSet_length (l repl : List Nat) (off : Nat)
    (h : off + repl.length ≤ l.length) :
    (listSet l off repl).length = l.length := by
  simp [listSet]
  omega

theorem listSlice_listSet (l repl : List Nat) (off : Nat)
    (h : off + repl.length ≤ l.length) :
    listSlice (listSet l off repl) off repl.length = repl := by
  have hlen : (l.take off).length = off := by
    simp [List.length_take]
    omega
  simp only [listSlice, listSet, List.append_assoc]
  have hdrop := List.drop_left (l.take off) (repl ++ l.drop (off + repl.length))
  rw [hlen] at hdrop
  rw [hdrop]
  exact List.take_left repl _

theorem listSet_slice_self (l : List Nat) (off n : Nat)
    (h : off + n ≤ l.length) : listSet l off (listSlice l off n) = l := by
  have hlen : (listSlice l off n).length = n := by
    simp [listSlice]
    omega
  rw [listSet, hlen]
  simp only [listSlice]
  have hdd : l.drop (off + n) = (l.drop off).drop n := by
    rw [List.drop_drop, Nat.add_comm]
  rw [hdd, List.append_assoc, List.take_append_drop, List.take_append_drop]

theorem listSet_eq_of_slice_eq (l repl : List Nat) (off : Nat)
    (h : off + repl.length ≤ l.length)
    (heq : listSlice l off repl.length = repl) :
    listSet l off repl = l := by
  conv_lhs => rw [← heq]
  exact listSet_slice_self l off repl.length h

theorem listSlice_length (l : List Nat) (off n : Nat)
    (h : off + n ≤ l.length) : (listSlice l off n).length = n := by
  simp [listSlice]
  omega

theorem listSlice_all_lt (l : List Nat) (off n : Nat)
    (hlt : ∀ b ∈ l, b < 256) : ∀ b ∈ listSlice l off n, b < 256 := by
  intro b hb
  have hb' : b ∈ (l.drop off).take n := by simpa [listSlice] using hb
  exact hlt b (List.mem_of_mem_drop (List.mem_of_mem_take hb'))

/-! ### Typed memory areas (`bitArea.ts` / `wordArea.ts`)

Offsets and lengths come from the address parser as naturals, so the
`Number.isInteger`/nonnegativity halves of `assertRange`/`assertBitRange`
hold by construction; the bounds checks are modelled exactly.  The
`label` prefix of thrown messages is not modelled. -/

/-- A fixed-size byte buffer with bit/byte/word views (`BitArea` plus the
`WordArea` accessors; both classes share one buffer). -/
structure WordArea where
  data : List Nat
deriving DecidableEq, Repr

namespace WordArea

/-- Construction from an area config: `new Uint8Array(size)` is
zero-filled. -/
def ofSize (size : Nat) : WordArea := ⟨List.replicate size 0⟩

/-- Buffer length (`get byteLength`). -/
def byteLength (a : WordArea) : Nat := a.data.length

/-- Bounds check of `assertRange`. -/
def assertRange (a : WordArea) (byteOffset len : Nat) : Except String Unit :=
  if byteOffset + len ≤ a.data.length then .ok ()
  else
    .error ("access of " ++ toString len ++ " byte(s) at offset " ++
      toString byteOffset ++ " exceeds size " ++ toString a.data.length)

/-- Bit-offset check of `assertBitRange`. -/
def assertBitRange (a : WordArea) (byteOffset bitOffset : Nat) :
    Except String Unit :=
  if 7 < bitOffset then .error "bit offset must be between 0 and 7"
  else a.assertRange byteOffset 1

/-- Alignment check of `WordArea.assertAlignment` (it then re-checks the
range with `length = alignment`, as the source does). -/
def assertAlignment (a : WordArea) (byteOffset alignment : Nat) :
    Except String Unit :=
  if byteOffset % alignment ≠ 0 then
    .error ("offset " ++ toString byteOffset ++ " must be aligned to " ++
      toString alignment ++ " byte(s)")
  else a.assertRange byteOffset alignment

/-- Update of one bit inside a byte (`|= mask` / `&= ~mask`). -/
def setBitVal (b k : Nat) (v : Bool) : Nat :=
  if v then b ||| (1 <<< k)
  else if b.testBit k then b - (1 <<< k) else b

/-- Model of `readBit`. -/
def readBit (a : WordArea) (byteOffset bitOffset : Nat) :
    Except String Bool := do
  let _ ← a.assertBitRange byteOffset bitOffset
  .ok ((a.data.getD byteOffset 0).testBit bitOffset)

/-- Model of `writeBit`. -/
def writeBit (a : WordArea) (byteOffset bitOffset : Nat) (value : Bool) :
    Except String WordArea := do
  let _ ← a.assertBitRange byteOffset bitOffset
  .ok ⟨listSet a.data byteOffset [setBitVal (a.data.getD byteOffset 0) bitOffset value]⟩

/-- Model of `readUInt8`. -/
def readUInt8 (a : WordArea) (byteOffset : Nat) : Except String Nat := do
  let _ ← a.assertRange byteOffset 1
  .ok (a.data.getD byteOffset 0)

/-- Model of `writeUInt8` (`value & 0xff` keeps the low byte). -/
def writeUInt8 (a : WordArea) (byteOffset : Nat) (value : Int) :
    Except String WordArea := do
  let _ ← a.assertRange byteOffset 1
  .ok ⟨listSet a.data byteOffset [(value.emod 256).toNat]⟩

/-- Model of `readBytes` (`Uint8Array.slice` copy). -/
def readBytes (a : WordArea) (byteOffset len : Nat) :
    Except String (List Nat) := do
  let _ ← a.assertRange byteOffset len
  .ok (listSlice a.data byteOffset len)

/-- Model of `writeBytes`. -/
def writeBytes (a : WordArea) (byteOffset : Nat) (source : List Nat) :
    Except String WordArea := do
  let _ ← a.assertRange byteOffset source.length
  .ok ⟨listSet a.data byteOffset source⟩

/-- Model of `snapshot`. -/
def snapshot (a : WordArea) : List Nat := a.data

/-- Model of `readInt8` (`(x << 24) >> 24` sign-extends the byte). -/
def readInt8 (a : WordArea) (byteOffset : Nat) : Except String Int := do
  let b ← a.readUInt8 byteOffset
  .ok (toSigned 1 b)

/-- Model of `writeInt8` (stores `value & 0xff`). -/
def writeInt8 (a : WordArea) (byteOffset : Nat) (value : Int) :
    Except String WordArea :=
  a.writeUInt8 byteOffset value

/-- Model of `readUInt16` (little-endian `getUint16` after the alignment
check). -/
def readUInt16 (a : WordArea) (byteOffset : Nat) : Except String Nat := do
  let _ ← a.assertAlignment byteOffset 2
  .ok (leVal (listSlice a.data byteOffset 2))

/-- Model of `writeUInt16` (`setUint16` wraps modulo 2^16). -/
def writeUInt16 (a : WordArea) (byteOffset : Nat) (value : Int) :
    Except String WordArea := do
  let _ ← a.assertAlignment byteOffset 2
  .ok ⟨listSet a.data byteOffset (encInt 2 value)⟩

/-- Model of `readInt16`. -/
def readInt16 (a : WordArea) (byteOffset : Nat) : Except String Int := do
  let _ ← a.assertAlignment byteOffset 2
  .ok (toSigned 2 (leVal (listSlice a.data byteOffset 2)))

/-- Model of `writeInt16` (`setInt16` wraps modulo 2^16). -/
def writeInt16 (a : WordArea) (byteOffset : Nat) (value : Int) :
    Except String WordArea :=
  a.writeUInt16 byteOffset value

/-- Model of `readUInt32`. -/
def readUInt32 (a : WordArea) (byteOffset : Nat) : Except String Nat := do
  let _ ← a.assertAlignment byteOffset 4
  .ok (leVal (listSlice a.data byteOffset 4))

/-- Model of `writeUInt32` (`value >>> 0` then `setUint32`, i.e. wrap
modulo 2^32). -/
def writeUInt32 (a : WordArea) (byteOffset : Nat) (value : Int) :
    Except String WordArea := do
  let _ ← a.assertAlignment byteOffset 4
  .ok ⟨listSet a.data byteOffset (encInt 4 value)⟩

/-- Model of `readInt32`. -/
def readInt32 (a : WordArea) (byteOffset : Nat) : Except String Int := do
  let _ ← a.assertAlignment byteOffset 4
  .ok (toSigned 4 (leVal (listSlice a.data byteOffset 4)))

/-- Model of `writeInt32` (`value | 0` then `setInt32`, i.e. wrap modulo
2^32). -/
def writeInt32 (a : WordArea) (byteOffset : Nat) (value : Int) :
    Except String WordArea :=
  a.writeUInt32 byteOffset value

/-- Model of `readBigInt64`. -/
def readBigInt64 (a : WordArea) (byteOffset : Nat) : Except String Int := do
  let _ ← a.assertAlignment byteOffset 8
  .ok (toSigned 8 (leVal (listSlice a.data byteOffset 8)))

/-- Model of `writeBigInt64` (`setBigInt64` wraps modulo 2^64). -/
def writeBigInt64 (a : WordArea) (byteOffset : Nat) (value : Int) :
    Except String WordArea := do
  let _ ← a.assertAlignment byteOffset 8
  .ok ⟨listSet a.data byteOffset (encInt 8 value)⟩

/-- Model of `readFloat32`. -/
def readFloat32 (a : WordArea) (byteOffset : Nat) : Except String ℚ := do
  let _ ← a.assertAlignment byteOffset 4
  .ok (f32Dec (leVal (listSlice a.data byteOffset 4)))

/-- Model of `writeFloat32` (stores the binary32 pattern of the value). -/
def writeFloat32 (a : WordArea) (byteOffset : Nat) (value : ℚ) :
    Except String WordArea := do
  let _ ← a.assertAlignment byteOffset 4
  .ok ⟨listSet a.data byteOffset (leBytes 4 (f32Enc value))⟩

/-- Model of `readFloat64`. -/
def readFloat64 (a : WordArea) (byteOffset : Nat) : Except String ℚ := do
  let _ ← a.assertAlignment byteOffset 8
  .ok (f64Dec (leVal (listSlice a.data byteOffset 8)))

/-- Model of `writeFloat64` (stores the binary64 pattern of the value). -/
def writeFloat64 (a : WordArea) (byteOffset : Nat) (value : ℚ) :
    Except String WordArea := do
  let _ ← a.assertAlignment byteOffset 8
  .ok ⟨listSet a.data byteOffset (leBytes 8 (f64Enc value))⟩

end WordArea

/-! ### Address parsing (`address.ts`, current version: absolute `DB…`
addresses are rejected and symbolic FB paths are handled elsewhere)

The regular expressions are modelled as explicit character scans over the
trimmed address; `takeWhile isDigitChar` matches the greedy `\d+`. -/

/-- Memory area kinds `I`/`Q`/`M`. -/
inductive AreaKind | I | Q | M
deriving DecidableEq, Repr

/-- Region descriptor (`PlcRegionDescriptor`): an absolute area or a DB
instance path. -/
inductive PlcRegionDescriptor
  | area (kind : AreaKind)
  | db (instancePath : String)
deriving DecidableEq, Repr

/-- Address notation (`PlcAddressNotation`). -/
inductive PlcAddressNotation | BIT | BYTE | WORD | DWORD
deriving DecidableEq, Repr

/-- Parsed address descriptor (`ParsedAddress`). -/
structure ParsedAddress where
  region : PlcRegionDescriptor
  byteOffset : Nat
  bitOffset : Option Nat := none
  notation_ : PlcAddressNotation
deriving DecidableEq, Repr

/-- Helper mirroring `createError` in `types.ts`. -/
def createError (code : PlcErrorCode) (message : String)
    (address : Option String := none) : PlcError :=
  { code := code, message := message, address := address }

/-- Whitespace for `String.prototype.trim` (the ASCII subset). -/
def isWsChar (c : Char) : Bool :=
  c = ' ' || c = '\t' || c = '\n' || c = '\r'

/-- Model of `trim`. -/
def jsTrim (cs : List Char) : List Char :=
  ((cs.dropWhile isWsChar).reverse.dropWhile isWsChar).reverse

/-- Decimal digit test. -/
def isDigitChar (c : Char) : Bool := '0' ≤ c && c ≤ '9'

/-- Value of a decimal digit. -/
def digitVal (c : Char) : Nat := c.toNat - '0'.toNat

/-- Model of `Number.parseInt` on a (nonempty, all-digit) capture. -/
def digitsToNat (ds : List Char) : Nat :=
  ds.foldl (fun acc c => acc * 10 + digitVal c) 0

/-- ASCII upper-casing (`toUpperCase` on the address alphabet). -/
def upperChar (c : Char) : Char :=
  if 'a' ≤ c && c ≤ 'z' then Char.ofNat (c.toNat - 32) else c

/-- Case-insensitive match of a `[IQM]` area letter. -/
def areaCharKind (c : Char) : Option AreaKind :=
  if upperChar c = 'I' then some .I
  else if upperChar c = 'Q' then some .Q
  else if upperChar c = 'M' then some .M
  else none

/-- Case-insensitive match of a `[BWD]` size specifier. -/
def sizeSpecOf (c : Char) : Option Char :=
  if upperChar c = 'B' then some 'B'
  else if upperChar c = 'W' then some 'W'
  else if upperChar c = 'D' then some 'D'
  else none

/-- Test for `/^DB/i` on the trimmed characters. -/
def startsDB : List Char → Bool
  | c1 :: c2 :: _ => upperChar c1 = 'D' && upperChar c2 = 'B'
  | _ => false

/-- Match of `BIT_PATTERN = /^([IQM])(\d+)\.(\d)$/i`. -/
def bitMatch (cs : List Char) : Option (AreaKind × List Char × Char) :=
  match cs with
  | [] => none
  | c :: rest =>
    match areaCharKind c with
    | none => none
    | some k =>
      let ds := rest.takeWhile isDigitChar
      match rest.dropWhile isDigitChar with
      | ['.', b] => if ds ≠ [] && isDigitChar b then some (k, ds, b) else none
      | _ => none

/-- Match of `BYTE_PATTERN = /^([IQM])(B|W|D)?(\d+)$/i`. -/
def byteMatch (cs : List Char) : Option (AreaKind × Option Char × List Char) :=
  match cs with
  | [] => none
  | c :: rest =>
    match areaCharKind c with
    | none => none
    | some k =>
      match rest with
      | [] => none
      | c2 :: rest2 =>
        match sizeSpecOf c2 with
        | some sz =>
          if rest2 ≠ [] && rest2.all isDigitChar then some (k, some sz, rest2)
          else none
        | none =>
          if rest.all isDigitChar then some (k, none, rest) else none

/-- Width implied by a notation (`notationSizes`). -/
def notationSizes : PlcAddressNotation → Nat
  | .BIT => 0
  | .BYTE => 1
  | .WORD => 2
  | .DWORD => 4

/-- Model of `parseCore`. -/
def parseCore (address : String) : PlcResult ParsedAddress :=
  let trimmed := jsTrim address.data
  if trimmed = [] then
    .error (createError .invalidAddress "Address must be non-empty" address)
  else if startsDB trimmed then
    .error (createError .invalidAddress
      "Absolute DB addresses are not supported. Use the symbolic FB instance path (e.g., OrderManager.orderCounter)."
      address)
  else
    match bitMatch trimmed with
    | some (k, ds, b) =>
      let byteOffset := digitsToNat ds
      let bitOffset := digitVal b
      if 7 < bitOffset then
        .error (createError .invalidAddress "Bit offset must be between 0 and 7" address)
      else
        .ok { region := .area k, byteOffset := byteOffset,
              bitOffset := some bitOffset, notation_ := .BIT }
    | none =>
      match byteMatch trimmed with
      | some (k, szOpt, ds) =>
        let byteOffset := digitsToNat ds
        let nota : PlcAddressNotation :=
          match szOpt with
          | some 'W' => .WORD
          | some 'D' => .DWORD
          | _ => .BYTE
        .ok { region := .area k, byteOffset := byteOffset, notation_ := nota }
      | none =>
        .error (createError .invalidAddress "Unsupported address format" address)

/-- Model of `parseBitAddress`. -/
def parseBitAddress (address : String) : PlcResult ParsedAddress :=
  match parseCore address with
  | .error e => .error e
  | .ok parsed =>
    if parsed.notation_ ≠ .BIT || parsed.bitOffset = none then
      .error (createError .typeMismatch
        "Expected a bit address (e.g., I0.0 or DB1.DBX0.1)" address)
    else .ok parsed

/-- Options of `parseByteAddress`. -/
structure ByteAddressParseOptions where
  byteLength : Nat
  alignment : Option Nat := none

/-- Model of `parseByteAddress`. -/
def parseByteAddress (address : String) (options : ByteAddressParseOptions) :
    PlcResult ParsedAddress :=
  match parseCore address with
  | .error e => .error e
  | .ok descriptor =>
    let step1 : PlcResult ParsedAddress :=
      if descriptor.notation_ = .BIT then
        -- `descriptor.bitOffset && descriptor.bitOffset !== 0` (0 is falsy)
        if descriptor.bitOffset.getD 0 ≠ 0 then
          .error (createError .alignmentError
            "Multi-byte access requires bit offset 0" address)
        else .ok { descriptor with bitOffset := some 0 }
      else
        let expectedSize := notationSizes descriptor.notation_
        if expectedSize ≠ 0 && expectedSize ≠ options.byteLength then
          .error (createError .typeMismatch
            ("Address token implies " ++ toString expectedSize ++
             " byte(s) but " ++ toString options.byteLength ++ " required")
            address)
        else .ok descriptor
    match step1 with
    | .error e => .error e
    | .ok d =>
      -- `if (alignment && byteOffset % alignment !== 0)`
      match options.alignment with
      | some al =>
        if al ≠ 0 && d.byteOffset % al ≠ 0 then
          .error (createError .alignmentError
            ("Address must be aligned to " ++ toString al ++ " byte(s)")
            address)
        else .ok d
      | none => .ok d

/-- Model of `inspectAddress`. -/
def inspectAddress (address : String) : PlcResult ParsedAddress :=
  parseCore address

/-- Match of `ABSOLUTE_AREA_PATTERN = /^(?:[IQM](?:[BWD])?\d+(?:\.\d)?)$/i`
applied to the upper-cased trimmed address. -/
def absAreaPattern (cs : List Char) : Bool :=
  match cs with
  | [] => false
  | c :: rest =>
    (areaCharKind c).isSome &&
    (let rest2 : List Char :=
      match rest with
      | c2 :: r2 => if (sizeSpecOf c2).isSome then r2 else rest
      | [] => rest
    let ds := rest2.takeWhile isDigitChar
    ds ≠ [] &&
    (match rest2.dropWhile isDigitChar with
     | [] => true
     | ['.', b] => isDigitChar b
     | _ => false))

/-- Model of `PlcStateImpl.shouldAttemptSymbolFallback`. -/
def shouldAttemptSymbolFallback (address : String) (error : PlcError) : Bool :=
  if error.code ≠ .invalidAddress then false
  else
    let trimmed := jsTrim address.data
    if trimmed = [] then false
    else
      let upper := trimmed.map upperChar
      if startsDB upper then false
      else if absAreaPattern upper then false
      else true

/-! ### Optimized data-block symbol store (`optimizedDb.ts`)

JavaScript `Map`s become association lists (first-match `get`,
replace-first-or-append `set`); `this.values.get` of an absent key is
`undefined`, modelled by `JsVal.vUndef` via `lookupJs`. -/

/-- First-match lookup (`Map.get`). -/
def aGet {α : Type} (m : List (String × α)) (k : String) : Option α :=
  (m.find? (fun p => p.1 = k)).map (fun p => p.2)

/-- Replace-or-append update (`Map.set`). -/
def aSet {α : Type} (m : List (String × α)) (k : String) (v : α) :
    List (String × α) :=
  match m with
  | [] => [(k, v)]
  | (k0, v0) :: rest =>
    if k0 = k then (k, v) :: rest else (k0, v0) :: aSet rest k v

/-- Key-membership test (`Map.has`). -/
def aHas {α : Type} (m : List (String × α)) (k : String) : Bool :=
  (aGet m k).isSome

/-- Symbol descriptor (`SymbolDescriptor`). -/
structure SymbolDescriptor where
  canonicalPath : String
  normalizedPath : String
  declarationPath : String
  fieldName : String
  dataType : SclDataType
  stringLength : Option Nat
  defaultValue : JsVal
  fbInstancePath : String
  fbType : String
deriving DecidableEq, Repr

/-- FB instance registry entry (`InstanceRegistryEntry`). -/
structure InstanceRegistryEntry where
  canonicalPath : String
  normalizedPath : String
  typeName : String
deriving DecidableEq, Repr

/-- Array registry entry (`ArrayInfo`; the declared length is kept as the
raw config number so the non-negative check stays observable). -/
structure ArrayInfo where
  canonicalPath : String
  normalizedPath : String
  length : Int
deriving DecidableEq, Repr

/-- Field definitions of an FB type schema
(`OptimizedDbFieldDefinition`). -/
inductive FieldDef
  | scalar (name : String) (dataType : SclDataType)
      (defaultValue : Option JsVal) (stringLength : Option Int)
  | struct (name : String) (fields : List FieldDef)
  | arr (name : String) (length : Int) (element : FieldDef)
  | fb (name : String) (typeName : String)

/-- Registered type info (`TypeInfo`). -/
structure TypeInfo where
  name : String
  definition : List FieldDef

/-- The optimized DB store state (`OptimizedDbStore` fields). -/
structure OptimizedDbStore where
  descriptors : List (String × SymbolDescriptor) := []
  values : List (String × JsVal) := []
  instances : List (String × InstanceRegistryEntry) := []
  arrays : List (String × ArrayInfo) := []
  typeDefinitions : List (String × TypeInfo) := []

/-- ASCII lower-casing (`toLowerCase` on the identifier alphabet). -/
def lowerChar (c : Char) : Char :=
  if 'A' ≤ c && c ≤ 'Z' then Char.ofNat (c.toNat + 32) else c

/-- ASCII `toLowerCase` on strings. -/
def lowerStr (sg : String) : String := String.mk (sg.data.map lowerChar)

/-- Main loop of `tokenizePath`. -/
def tokenizeLoop (path : String) :
    List Char → List Char → Nat → List String → PlcResult (List String)
  | [], current, depth, tokens =>
    if depth ≠ 0 then
      .error (createError .invalidSymbolPath "Mismatched brackets in symbol path" path)
    else if current = [] then
      .error (createError .invalidSymbolPath "Symbol path cannot end with a delimiter" path)
    else .ok (tokens ++ [String.mk current])
  | c :: cs, current, depth, tokens =>
    if c = '.' && depth = 0 then
      if current = [] then
        .error (createError .invalidSymbolPath
          "Symbol path cannot contain empty segments" path)
      else tokenizeLoop path cs [] depth (tokens ++ [String.mk current])
    else if c = '[' then tokenizeLoop path cs (current ++ [c]) (depth + 1) tokens
    else if c = ']' then
      if depth = 0 then
        .error (createError .invalidSymbolPath "Mismatched brackets in symbol path" path)
      else tokenizeLoop path cs (current ++ [c]) (depth - 1) tokens
    else tokenizeLoop path cs (current ++ [c]) depth tokens

/-- Model of `tokenizePath` (whitespace and `#` are stripped first). -/
def tokenizePath (path : String) : PlcResult (List String) :=
  let trimmed := jsTrim path.data
  if trimmed = [] then
    .error (createError .invalidSymbolPath "Symbol path must be non-empty" path)
  else
    let sanitized := (trimmed.filter (fun c => !(isWsChar c))).filter (fun c => c ≠ '#')
    tokenizeLoop path sanitized [] 0 []

/-- Model of `normalizeSegment` (`/^([^[]*)(.*)$/`: lower-case the part
before the first bracket, keep the rest). -/
def normalizeSegment (segment : String) : String :=
  let cs := segment.data
  String.mk ((cs.takeWhile (fun c => c ≠ '[')).map lowerChar ++
    cs.dropWhile (fun c => c ≠ '['))

/-- Model of `normalizeTokens`. -/
def normalizeTokens (tokens : List String) : String :=
  String.intercalate "." (tokens.map normalizeSegment)

/-- `String.prototype.split(".")` over the code units (every dot splits,
empty segments kept). -/
def splitDotAux : List Char → List Char → List String
  | [], current => [String.mk current]
  | c :: cs, current =>
    if c = '.' then String.mk current :: splitDotAux cs []
    else splitDotAux cs (current ++ [c])

/-- `path.split(".")`. -/
def jsSplitDot (sg : String) : List String := splitDotAux sg.data []

/-- Model of `normalizeCanonicalPath`. -/
def normalizeCanonicalPath (path : String) : String :=
  String.intercalate "."
    (((jsSplitDot path).filter (fun t => t ≠ "")).map normalizeSegment)

/-- Model of `normalizeLookupKey`. -/
def normalizeLookupKey (path : String) : String :=
  match tokenizePath path with
  | .error _ => ""
  | .ok tokens => normalizeTokens tokens

/-- Model of `extractArrayBase` (`/^([^[]+)/`). -/
def extractArrayBase (segment : String) : Option String :=
  let head := segment.data.takeWhile (fun c => c ≠ '[')
  if head = [] then none else some (String.mk head)

/-- Does a character list consist of bracket groups only, i.e. match
`(?:\[.*\])*$`?  (Zero groups, or one opening bracket with a closing
bracket at the very end — `.*` may span inner brackets.) -/
def bracketGroupsOnly (cs : List Char) : Bool :=
  match cs with
  | [] => true
  | c :: rest => c = '[' && rest ≠ [] && rest.getLast? = some ']'

/-- Model of `extractArrayIndex` (`/\[(\d+)\](?:\[.*\])*$/`, leftmost
match). -/
def extractArrayIndexCore : List Char → Option Nat
  | [] => none
  | c :: rest =>
    (if c = '[' then
      let ds := rest.takeWhile isDigitChar
      match rest.dropWhile isDigitChar with
      | ']' :: tail =>
        if ds ≠ [] && bracketGroupsOnly tail then some (digitsToNat ds) else none
      | _ => none
    else none).orElse (fun _ => extractArrayIndexCore rest)

/-- Wrapper of `extractArrayIndex`. -/
def extractArrayIndex (segment : String) : Option Nat :=
  extractArrayIndexCore segment.data

/-- Model of `extractFieldName`. -/
def extractFieldName (path : String) : String :=
  (jsSplitDot path).getLastD path

/-- Model of `valueEquals` (`Object.is`; structurally decidable in the
model, where `-0`/`NaN` do not occur). -/
def valueEquals (a b : JsVal) : Bool := a = b

/-- Model of `coerceInteger`. -/
def coerceInteger (value : JsVal) (min max : Int) (address : String)
    (type_ : String) : PlcResult JsVal :=
  match value with
  | .vNum q =>
    let truncated := jsTrunc q
    if truncated < min || max < truncated then
      .error (createError .outOfRange
        (type_ ++ " value " ++ toString truncated ++ " falls outside range [" ++
         toString min ++ ", " ++ toString max ++ "]") address)
    else .ok (.vNum (truncated : ℚ))
  | _ =>
    .error (createError .typeMismatch
      (type_ ++ " values must be finite numbers") address)

/-- Model of `coerceBigInt`. -/
def coerceBigInt (value : JsVal) (address : String) : PlcResult JsVal :=
  match value with
  | .vBig i => .ok (.vBig i)
  | .vNum q =>
    if q.den = 1 then .ok (.vBig q.num)
    else .error (createError .typeMismatch
      "LINT values must be bigint or integer number" address)
  | _ =>
    .error (createError .typeMismatch
      "LINT values must be bigint or integer number" address)

/-- Model of `coerceScalarValue`. -/
def coerceScalarValue (type_ : SclDataType) (value : JsVal)
    (stringLength : Option Nat) (address : String) : PlcResult JsVal :=
  match type_ with
  | .BOOL =>
    match value with
    | .vBool b => .ok (.vBool b)
    | _ => .error (createError .typeMismatch "BOOL values must be boolean" address)
  | .BYTE => coerceInteger value 0 0xff address "BYTE"
  | .WORD => coerceInteger value 0 0xffff address "WORD"
  | .DWORD => coerceInteger value 0 0xffffffff address "DWORD"
  | .SINT => coerceInteger value (-128) 127 address "SINT"
  | .INT => coerceInteger value (-32768) 32767 address "INT"
  | .DINT => coerceInteger value (-2147483648) 2147483647 address "DINT"
  | .LINT => coerceBigInt value address
  | .REAL =>
    match value with
    | .vNum q => .ok (.vNum q)
    | _ => .error (createError .typeMismatch "REAL values must be finite numbers" address)
  | .LREAL =>
    match value with
    | .vNum q => .ok (.vNum q)
    | _ => .error (createError .typeMismatch "LREAL values must be finite numbers" address)
  | .TIME => coerceInteger value 0 0xffffffff address "TIME"
  | .TOD => coerceInteger value 0 0xffffffff address "TOD"
  | .DATE => coerceInteger value 0 0xffff address "DATE"
  | .STRING =>
    match value with
    | .vStr units =>
      match stringLength with
      | none =>
        .error (createError .invalidConfig
          "STRING symbol is missing declared stringLength" address)
      | some len =>
        if len < units.length then
          .error (createError .outOfRange
            ("STRING value exceeds declared length " ++ toString len) address)
        else .ok (.vStr units)
    | _ => .error (createError .typeMismatch "STRING values must be strings" address)

namespace OptimizedDbStore

/-- Lookup in `values` including the `undefined` of a missing key. -/
def lookupJs (store : OptimizedDbStore) (key : String) : JsVal :=
  (aGet store.values key).getD (JsVal.vUndef)

/-- Walk of `describeMissingSymbol`: track the deepest known instance
and the innermost known array context along the token prefix. -/
def describeMissingSymbol (store : OptimizedDbStore) (path : String)
    (tokens : List String) : PlcError :=
    let walk := tokens.foldl
      (fun (acc : String × Option InstanceRegistryEntry × Option (ArrayInfo × Option Nat)) token =>
        let (currentNormalized, deepestInstance, arrayCtx) := acc
        let normalizedSegment := normalizeSegment token
        let currentNormalized' :=
          if currentNormalized = "" then normalizedSegment
          else currentNormalized ++ "." ++ normalizedSegment
        let deepestInstance' :=
          match aGet store.instances currentNormalized' with
          | some inst => some inst
          | none => deepestInstance
        let arrayCtx' :=
          match extractArrayBase normalizedSegment with
          | some base =>
            let arrayNormalized :=
              String.mk (currentNormalized'.data.take
                (currentNormalized'.length - (normalizedSegment.length - base.length)))
            match aGet store.arrays arrayNormalized with
            | some arrayInfo => some (arrayInfo, extractArrayIndex normalizedSegment)
            | none => arrayCtx
          | none => arrayCtx
        (currentNormalized', deepestInstance', arrayCtx'))
      ("", none, none)
    match walk.2.1 with
    | none =>
      createError .unknownFbInstance
        ("FB instance \"" ++ tokens.headD "" ++ "\" is not registered") path
    | some deepestInstance =>
      match walk.2.2 with
      | some (arrayContext, some arrayIndex) =>
        if arrayContext.length ≤ (arrayIndex : Int) then
          createError .unknownSymbol
            ("Array index " ++ toString arrayIndex ++
             " is outside declared range for \"" ++ arrayContext.canonicalPath ++ "\"")
            path
        else
          createError .unknownSymbol
            ("Symbol \"" ++ path ++ "\" does not exist on FB instance " ++
             deepestInstance.canonicalPath ++ " (" ++ deepestInstance.typeName ++ ")")
            path
      | _ =>
        createError .unknownSymbol
          ("Symbol \"" ++ path ++ "\" does not exist on FB instance " ++
           deepestInstance.canonicalPath ++ " (" ++ deepestInstance.typeName ++ ")")
          path

/-- Model of `resolveDescriptor`. -/
def resolveDescriptor (store : OptimizedDbStore) (path : String) :
    PlcResult SymbolDescriptor :=
  match tokenizePath path with
  | .error e => .error e
  | .ok tokens =>
    if tokens = [] then
      .error (createError .invalidSymbolPath
        "Symbol path must include at least one segment" path)
    else
      let normalizedKey := normalizeTokens tokens
      match aGet store.descriptors normalizedKey with
      | some descriptor => .ok descriptor
      | none => .error (store.describeMissingSymbol path tokens)

/-- Model of `describe`. -/
def describe (store : OptimizedDbStore) (path : String)
    (expectedType : SclDataType) : PlcResult SymbolDescriptor :=
  match store.resolveDescriptor path with
  | .error e => .error e
  | .ok descriptor =>
    if descriptor.dataType ≠ expectedType then
      .error (createError .typeMismatch
        ("Symbol \"" ++ descriptor.declarationPath ++ "\" is declared as scalar type")
        path)
    else .ok descriptor

/-- Result of a store read (`SymbolReadResult`; a missing slot reads as
`undefined`, which the model folds into `lookupJs`). -/
structure SymbolReadResult where
  descriptor : SymbolDescriptor
  value : JsVal
deriving DecidableEq, Repr

/-- Result of a store write (`SymbolWriteResult`). -/
structure SymbolWriteResult where
  descriptor : SymbolDescriptor
  previous : JsVal
  current : JsVal
  changed : Bool
deriving DecidableEq, Repr

/-- Model of `read`. -/
def read (store : OptimizedDbStore) (path : String)
    (expectedType : SclDataType) : PlcResult SymbolReadResult :=
  match store.describe path expectedType with
  | .error e => .error e
  | .ok descriptor =>
    .ok { descriptor := descriptor, value := store.lookupJs descriptor.normalizedPath }

/-- Model of `write`; the updated store is carried in the success value
(the source mutates `this.values` in place). -/
def write (store : OptimizedDbStore) (path : String)
    (expectedType : SclDataType) (rawValue : JsVal) :
    PlcResult (SymbolWriteResult × OptimizedDbStore) :=
  match store.describe path expectedType with
  | .error e => .error e
  | .ok descriptor =>
    match coerceScalarValue descriptor.dataType rawValue descriptor.stringLength path with
    | .error e => .error e
    | .ok current =>
      let previous := store.lookupJs descriptor.normalizedPath
      let changed := !(valueEquals previous current)
      let store' :=
        if changed then
          { store with values := aSet store.values descriptor.normalizedPath current }
        else store
      .ok ({ descriptor := descriptor, previous := previous, current := current,
             changed := changed }, store')

/-- Model of `snapshot`. -/
def snapshot (store : OptimizedDbStore) : List (String × JsVal) :=
  store.descriptors.map (fun p =>
    (p.2.canonicalPath, store.lookupJs p.2.normalizedPath))

end OptimizedDbStore

/-! ### Memory facade (`plcState.ts`)

Change listeners are modelled by the list of dispatched change payloads
(`dispatchChange` sends the same payload to every state listener and to
the region's area listeners; one model event stands for that one
dispatch).  The unused branch of `writeWith` for mutators that return a
`PlcResult` (no caller uses it) is not modelled. -/

/-- Byte-level diff entry (`PlcDiffEntry`). -/
structure PlcDiffEntry where
  offset : Nat
  previous : Nat
  current : Nat
deriving DecidableEq, Repr

/-- Symbol-level diff entry (`PlcSymbolDiffEntry`). -/
structure PlcSymbolDiffEntry where
  path : String
  previous : JsVal
  current : JsVal
deriving DecidableEq, Repr

/-- A dispatched change payload (`PlcStateChange`). -/
inductive PlcStateChange
  | areaChange (region : PlcRegionDescriptor) (diff : List PlcDiffEntry)
  | dbChange (region : PlcRegionDescriptor) (diff : List PlcSymbolDiffEntry)
deriving DecidableEq, Repr

/-- Model of `computeDiffEntries`. -/
def computeDiffEntries (baseOffset : Nat) (before after : List Nat) :
    List PlcDiffEntry :=
  (List.range (max before.length after.length)).filterMap (fun index =>
    let previous := before.getD index 0
    let current := after.getD index 0
    if previous ≠ current then
      some { offset := baseOffset + index, previous := previous, current := current }
    else none)

/-- The facade state (`PlcStateImpl` fields; listener sets are not state,
see the events convention above). -/
structure PlcStateImpl where
  inputs : Option WordArea := none
  outputs : Option WordArea := none
  flags : Option WordArea := none
  optimizedDb : OptimizedDbStore := {}

/-- Combined result of a facade write: the tagged result, the state after
the call, and the dispatched change payloads. -/
structure WriteOutcome where
  result : PlcResult Unit
  state : PlcStateImpl
  events : List PlcStateChange

namespace PlcStateImpl

/-- Model of `resolveArea`. -/
def resolveArea (s : PlcStateImpl) (region : PlcRegionDescriptor) :
    PlcResult WordArea :=
  match region with
  | .db _ =>
    .error (createError .invalidAddress
      "Symbolic DB addresses must be accessed via FB instance paths")
  | .area .I =>
    match s.inputs with
    | some a => .ok a
    | none => .error (createError .uninitializedArea "Input area (I) is not configured")
  | .area .Q =>
    match s.outputs with
    | some a => .ok a
    | none => .error (createError .uninitializedArea "Output area (Q) is not configured")
  | .area .M =>
    match s.flags with
    | some a => .ok a
    | none => .error (createError .uninitializedArea "Flag area (M) is not configured")

/-- In-place mutation of the resolved area object, modelled as a field
update of the owning state. -/
def updateArea (s : PlcStateImpl) (region : PlcRegionDescriptor)
    (a : WordArea) : PlcStateImpl :=
  match region with
  | .area .I => { s with inputs := some a }
  | .area .Q => { s with outputs := some a }
  | .area .M => { s with flags := some a }
  | .db _ => s

/-- Model of `readSymbol`. -/
def readSymbol (s : PlcStateImpl) (address : String) (dataType : SclDataType) :
    PlcResult JsVal :=
  match s.optimizedDb.read address dataType with
  | .error e => .error e
  | .ok r => .ok r.value

/-- Model of `dispatchSymbolChange` (the payload that `writeSymbol`
dispatches for a changed symbol). -/
def dispatchSymbolChange (write : OptimizedDbStore.SymbolWriteResult) :
    PlcStateChange :=
  .dbChange (.db write.descriptor.fbInstancePath)
    [{ path := write.descriptor.canonicalPath,
       previous := write.previous, current := write.current }]

/-- Model of `writeSymbol`. -/
def writeSymbol (s : PlcStateImpl) (address : String)
    (dataType : SclDataType) (rawValue : JsVal) : WriteOutcome :=
  match s.optimizedDb.write address dataType rawValue with
  | .error e => ⟨.error e, s, []⟩
  | .ok (r, db') =>
    let s' := { s with optimizedDb := db' }
    if r.changed then ⟨.ok (), s', [dispatchSymbolChange r]⟩
    else ⟨.ok (), s', []⟩

/-- Model of `readWith`. -/
def readWith (s : PlcStateImpl) (address : String)
    (parser : PlcResult ParsedAddress)
    (reader : WordArea → ParsedAddress → Except String JsVal)
    (symbolType : Option SclDataType) : PlcResult JsVal :=
  match parser with
  | .error e =>
    match symbolType with
    | some t =>
      if shouldAttemptSymbolFallback address e then s.readSymbol address t
      else .error e
    | none => .error e
  | .ok descriptor =>
    match s.resolveArea descriptor.region with
    | .error e => .error e
    | .ok area =>
      match reader area descriptor with
      | .ok v => .ok v
      | .error msg => .error (createError .outOfRange msg address)

/-- Model of `writeWith`. -/
def writeWith (s : PlcStateImpl) (address : String)
    (parser : PlcResult ParsedAddress) (byteLength : Nat)
    (mutator : WordArea → ParsedAddress → Except String WordArea)
    (notify : Bool) (symbolType : Option SclDataType) (rawValue : JsVal) :
    WriteOutcome :=
  match parser with
  | .error e =>
    match symbolType with
    | some t =>
      if shouldAttemptSymbolFallback address e then s.writeSymbol address t rawValue
      else ⟨.error e, s, []⟩
    | none => ⟨.error e, s, []⟩
  | .ok descriptor =>
    match s.resolveArea descriptor.region with
    | .error e => ⟨.error e, s, []⟩
    | .ok area =>
      match area.readBytes descriptor.byteOffset byteLength with
      | .error msg => ⟨.error (createError .outOfRange msg address), s, []⟩
      | .ok before =>
        match mutator area descriptor with
        | .error msg => ⟨.error (createError .outOfRange msg address), s, []⟩
        | .ok area' =>
          let s' := s.updateArea descriptor.region area'
          match area'.readBytes descriptor.byteOffset byteLength with
          | .error msg => ⟨.error (createError .outOfRange msg address), s', []⟩
          | .ok after =>
            let diff := computeDiffEntries descriptor.byteOffset before after
            if notify && diff ≠ [] then
              ⟨.ok (), s', [.areaChange descriptor.region diff]⟩
            else ⟨.ok (), s', []⟩

/-- Model of `writeNumeric`. -/
def writeNumeric (s : PlcStateImpl) (address : String) (byteLength : Nat)
    (alignment : Option Nat)
    (mutator : WordArea → ParsedAddress → Except String WordArea)
    (symbolType : SclDataType) (rawValue : JsVal) : WriteOutcome :=
  s.writeWith address
    (parseByteAddress address { byteLength := byteLength, alignment := alignment })
    byteLength mutator true (some symbolType) rawValue

/-- Validator test `Number.isInteger(value) && lo <= value <= hi`. -/
def checkIntRange (value : JsVal) (lo hi : Int) : Option Int :=
  match value with
  | .vNum q => if q.den = 1 && lo ≤ q.num && q.num ≤ hi then some q.num else none
  | _ => none

/-- Failure outcome without state change or events. -/
def failOutcome (s : PlcStateImpl) (e : PlcError) : WriteOutcome :=
  ⟨.error e, s, []⟩

/-- Model of `readBool`. -/
def readBool (s : PlcStateImpl) (address : String) : PlcResult JsVal :=
  s.readWith address (parseBitAddress address)
    (fun area descriptor =>
      (area.readBit descriptor.byteOffset (descriptor.bitOffset.getD 0)).map .vBool)
    (some .BOOL)

/-- Model of `writeBoolInternal`. -/
def writeBoolInternal (s : PlcStateImpl) (address : String) (value : Bool)
    (notify : Bool) : WriteOutcome :=
  s.writeWith address (parseBitAddress address) 1
    (fun area descriptor =>
      area.writeBit descriptor.byteOffset (descriptor.bitOffset.getD 0) value)
    notify (some .BOOL) (.vBool value)

/-- Model of `writeBool`. -/
def writeBool (s : PlcStateImpl) (address : String) (value : JsVal) :
    WriteOutcome :=
  match value with
  | .vBool b => s.writeBoolInternal address b true
  | _ =>
    s.failOutcome (createError .typeMismatch "BOOL write requires a boolean value" address)

/-- Model of `readByte`. -/
def readByte (s : PlcStateImpl) (address : String) : PlcResult JsVal :=
  s.readWith address (parseByteAddress address { byteLength := 1 })
    (fun area descriptor =>
      (area.readUInt8 descriptor.byteOffset).map (fun n => .vNum (n : ℚ)))
    (some .BYTE)

/-- Model of `writeByte`. -/
def writeByte (s : PlcStateImpl) (address : String) (value : JsVal) :
    WriteOutcome :=
  match checkIntRange value 0 0xff with
  | none =>
    s.failOutcome (createError .typeMismatch
      "BYTE values must be integers between 0 and 255" address)
  | some n =>
    s.writeNumeric address 1 none
      (fun area descriptor => area.writeUInt8 descriptor.byteOffset n) .BYTE value

/-- Model of `readSInt`. -/
def readSInt (s : PlcStateImpl) (address : String) : PlcResult JsVal :=
  s.readWith address (parseByteAddress address { byteLength := 1 })
    (fun area descriptor =>
      (area.readInt8 descriptor.byteOffset).map (fun i => .vNum (i : ℚ)))
    (some .SINT)

/-- Model of `writeSInt`. -/
def writeSInt (s : PlcStateImpl) (address : String) (value : JsVal) :
    WriteOutcome :=
  match checkIntRange value (-128) 127 with
  | none =>
    s.failOutcome (createError .typeMismatch
      "SINT values must be integers between -128 and 127" address)
  | some n =>
    s.writeNumeric address 1 none
      (fun area descriptor => area.writeInt8 descriptor.byteOffset n) .SINT value

/-- Model of `readWord`. -/
def readWord (s : PlcStateImpl) (address : String) : PlcResult JsVal :=
  s.readWith address (parseByteAddress address { byteLength := 2, alignment := some 2 })
    (fun area descriptor =>
      (area.readUInt16 descriptor.byteOffset).map (fun n => .vNum (n : ℚ)))
    (some .WORD)

/-- Model of `writeWord`. -/
def writeWord (s : PlcStateImpl) (address : String) (value : JsVal) :
    WriteOutcome :=
  match checkIntRange value 0 0xffff with
  | none =>
    s.failOutcome (createError .typeMismatch
      "WORD values must be integers between 0 and 65535" address)
  | some n =>
    s.writeNumeric address 2 (some 2)
      (fun area descriptor => area.writeUInt16 descriptor.byteOffset n) .WORD value

/-- Model of `readInt`. -/
def readInt (s : PlcStateImpl) (address : String) : PlcResult JsVal :=
  s.readWith address (parseByteAddress address { byteLength := 2, alignment := some 2 })
    (fun area descriptor =>
      (area.readInt16 descriptor.byteOffset).map (fun i => .vNum (i : ℚ)))
    (some .INT)

/-- Model of `writeInt`. -/
def writeInt (s : PlcStateImpl) (address : String) (value : JsVal) :
    WriteOutcome :=
  match checkIntRange value (-32768) 32767 with
  | none =>
    s.failOutcome (createError .typeMismatch
      "INT values must be integers between -32768 and 32767" address)
  | some n =>
    s.writeNumeric address 2 (some 2)
      (fun area descriptor => area.writeInt16 descriptor.byteOffset n) .INT value

/-- Model of `readDWord`. -/
def readDWord (s : PlcStateImpl) (address : String) : PlcResult JsVal :=
  s.readWith address (parseByteAddress address { byteLength := 4, alignment := some 4 })
    (fun area descriptor =>
      (area.readUInt32 descriptor.byteOffset).map (fun n => .vNum (n : ℚ)))
    (some .DWORD)

/-- Model of `writeDWord`. -/
def writeDWord (s : PlcStateImpl) (address : String) (value : JsVal) :
    WriteOutcome :=
  match checkIntRange value 0 0xffffffff with
  | none =>
    s.failOutcome (createError .typeMismatch
      "DWORD values must be integers between 0 and 4294967295" address)
  | some n =>
    s.writeNumeric address 4 (some 4)
      (fun area descriptor => area.writeUInt32 descriptor.byteOffset n) .DWORD value

/-- Model of `readDInt`. -/
def readDInt (s : PlcStateImpl) (address : String) : PlcResult JsVal :=
  s.readWith address (parseByteAddress address { byteLength := 4, alignment := some 4 })
    (fun area descriptor =>
      (area.readInt32 descriptor.byteOffset).map (fun i => .vNum (i : ℚ)))
    (some .DINT)

/-- Model of `writeDInt`. -/
def writeDInt (s : PlcStateImpl) (address : String) (value : JsVal) :
    WriteOutcome :=
  match checkIntRange value (-2147483648) 2147483647 with
  | none =>
    s.failOutcome (createError .typeMismatch
      "DINT values must be integers between -2147483648 and 2147483647" address)
  | some n =>
    s.writeNumeric address 4 (some 4)
      (fun area descriptor => area.writeInt32 descriptor.byteOffset n) .DINT value

/-- Model of `readLint`. -/
def readLint (s : PlcStateImpl) (address : String) : PlcResult JsVal :=
  s.readWith address (parseByteAddress address { byteLength := 8, alignment := some 8 })
    (fun area descriptor =>
      (area.readBigInt64 descriptor.byteOffset).map (fun i => .vBig i))
    (some .LINT)

/-- Model of `writeLint` (`typeof value !== "bigint"` is the only
validation). -/
def writeLint (s : PlcStateImpl) (address : String) (value : JsVal) :
    WriteOutcome :=
  match value with
  | .vBig i =>
    s.writeNumeric address 8 (some 8)
      (fun area descriptor => area.writeBigInt64 descriptor.byteOffset i) .LINT value
  | _ =>
    s.failOutcome (createError .typeMismatch
      "LINT values must be provided as bigint" address)

/-- Model of `readReal`. -/
def readReal (s : PlcStateImpl) (address : String) : PlcResult JsVal :=
  s.readWith address (parseByteAddress address { byteLength := 4, alignment := some 4 })
    (fun area descriptor =>
      (area.readFloat32 descriptor.byteOffset).map (fun q => .vNum q))
    (some .REAL)

/-- Model of `writeReal` (`typeof value === "number" && Number.isFinite`;
the model's rationals are always finite). -/
def writeReal (s : PlcStateImpl) (address : String) (value : JsVal) :
    WriteOutcome :=
  match value with
  | .vNum q =>
    s.writeNumeric address 4 (some 4)
      (fun area descriptor => area.writeFloat32 descriptor.byteOffset q) .REAL value
  | _ =>
    s.failOutcome (createError .typeMismatch "REAL values must be finite numbers" address)

/-- Model of `readLReal`. -/
def readLReal (s : PlcStateImpl) (address : String) : PlcResult JsVal :=
  s.readWith address (parseByteAddress address { byteLength := 8, alignment := some 8 })
    (fun area descriptor =>
      (area.readFloat64 descriptor.byteOffset).map (fun q => .vNum q))
    (some .LREAL)

/-- Model of `writeLReal`. -/
def writeLReal (s : PlcStateImpl) (address : String) (value : JsVal) :
    WriteOutcome :=
  match value with
  | .vNum q =>
    s.writeNumeric address 8 (some 8)
      (fun area descriptor => area.writeFloat64 descriptor.byteOffset q) .LREAL value
  | _ =>
    s.failOutcome (createError .typeMismatch "LREAL values must be finite numbers" address)

/-- Model of `readTime`. -/
def readTime (s : PlcStateImpl) (address : String) : PlcResult JsVal :=
  s.readWith address (parseByteAddress address { byteLength := 4, alignment := some 4 })
    (fun area descriptor =>
      (area.readInt32 descriptor.byteOffset).map (fun i => .vNum (i : ℚ)))
    (some .TIME)

/-- Model of `writeTime`. -/
def writeTime (s : PlcStateImpl) (address : String) (value : JsVal) :
    WriteOutcome :=
  match checkIntRange value (-2147483648) 2147483647 with
  | none =>
    s.failOutcome (createError .typeMismatch
      "TIME values must fit in a signed 32-bit integer (milliseconds)" address)
  | some n =>
    s.writeNumeric address 4 (some 4)
      (fun area descriptor => area.writeInt32 descriptor.byteOffset n) .TIME value

/-- Model of `readDate`. -/
def readDate (s : PlcStateImpl) (address : String) : PlcResult JsVal :=
  s.readWith address (parseByteAddress address { byteLength := 2, alignment := some 2 })
    (fun area descriptor =>
      (area.readUInt16 descriptor.byteOffset).map (fun n => .vNum (n : ℚ)))
    (some .DATE)

/-- Model of `writeDate`. -/
def writeDate (s : PlcStateImpl) (address : String) (value : JsVal) :
    WriteOutcome :=
  match checkIntRange value 0 65535 with
  | none =>
    s.failOutcome (createError .typeMismatch
      "DATE values must be integers between 0 and 65535" address)
  | some n =>
    s.writeNumeric address 2 (some 2)
      (fun area descriptor => area.writeUInt16 descriptor.byteOffset n) .DATE value

/-- Model of `readTod`. -/
def readTod (s : PlcStateImpl) (address : String) : PlcResult JsVal :=
  s.readWith address (parseByteAddress address { byteLength := 4, alignment := some 4 })
    (fun area descriptor =>
      (area.readUInt32 descriptor.byteOffset).map (fun n => .vNum (n : ℚ)))
    (some .TOD)

/-- Model of `writeTod`. -/
def writeTod (s : PlcStateImpl) (address : String) (value : JsVal) :
    WriteOutcome :=
  match checkIntRange value 0 0xffffffff with
  | none =>
    s.failOutcome (createError .typeMismatch
      "TOD values must be integers between 0 and 4294967295" address)
  | some n =>
    s.writeNumeric address 4 (some 4)
      (fun area descriptor => area.writeUInt32 descriptor.byteOffset n) .TOD value

end PlcStateImpl

/-! ### STRING facade (`readString` / `writeString` and helpers)

Strings are byte sequences in the model (see the header); `TextEncoder`/
`TextDecoder` are the identity, and storing into the `Uint8Array` keeps
the low byte of each unit. -/

/-- Model of `PlcStringReadOptions`. -/
structure PlcStringReadOptions where
  maxLength : Option Nat := none

/-- Model of `PlcStringWriteOptions` (`truncate` is falsy by default). -/
structure PlcStringWriteOptions where
  maxLength : Option Nat := none
  truncate : Bool := false

namespace PlcStateImpl

/-- Model of `readString`. -/
def readString (s : PlcStateImpl) (address : String)
    (options : PlcStringReadOptions := {}) : PlcResult (List Nat) :=
  match inspectAddress address with
  | .error e =>
    if shouldAttemptSymbolFallback address e then
      match s.optimizedDb.read address .STRING with
      | .error e2 => .error e2
      | .ok r =>
        let value : List Nat := match r.value with
          | .vStr units => units
          | _ => []
        match options.maxLength with
        | some m =>
          let maxLength := min (max m 0) 254
          .ok (value.take maxLength)
        | none => .ok value
    else .error e
  | .ok descriptor =>
    if descriptor.bitOffset.getD 0 ≠ 0 then
      .error (createError .alignmentError
        "STRING address must reference the first bit of a byte (bit offset 0)" address)
    else
      match s.resolveArea descriptor.region with
      | .error e => .error e
      | .ok area =>
        let offset := descriptor.byteOffset
        if area.byteLength < offset + 2 then
          .error (createError .outOfRange
            "Not enough space to read STRING metadata" address)
        else
          match area.readBytes offset 2 with
          | .error msg => .error (createError .outOfRange msg address)
          | .ok header =>
            let definedMax := header.getD 0 0
            let declaredLength := header.getD 1 0
            let allowedMax := min (options.maxLength.getD 254) 254
            let maxLength :=
              min (min (jsOrElse definedMax allowedMax) allowedMax)
                (area.byteLength - offset - 2)
            if maxLength < declaredLength then
              .error (createError .outOfRange
                "Declared STRING length exceeds configured maximum" address)
            else
              match area.readBytes (offset + 2) declaredLength with
              | .error msg => .error (createError .outOfRange msg address)
              | .ok payload => .ok payload

/-- Model of `writeStringInternal` (the `before` read cannot go out of
bounds because the payload budget is clipped to the remaining space, so
the impossible error branch simply surfaces the message). -/
def writeStringInternal (s : PlcStateImpl) (address : String)
    (descriptor : ParsedAddress) (value : List Nat)
    (options : PlcStringWriteOptions) (notify : Bool) : WriteOutcome :=
  if descriptor.bitOffset.getD 0 ≠ 0 then
    s.failOutcome (createError .alignmentError
      "STRING address must reference the first bit of a byte (bit offset 0)" address)
  else
    match s.resolveArea descriptor.region with
    | .error e => ⟨.error e, s, []⟩
    | .ok area =>
      let offset := descriptor.byteOffset
      if area.byteLength < offset + 2 then
        s.failOutcome (createError .outOfRange
          "Not enough space to write STRING metadata" address)
      else
        let available := area.byteLength - offset
        let maxAllowed := min (options.maxLength.getD 254) 254
        let payloadBudget := min (available - 2) maxAllowed
        match area.readBytes offset (2 + payloadBudget) with
        | .error msg => ⟨.error (createError .outOfRange msg address), s, []⟩
        | .ok before =>
          let declaredMax := jsOrElse (before.getD 0 0) payloadBudget
          let effectiveMax := min (jsOrElse declaredMax payloadBudget) payloadBudget
          let encoded := value
          if effectiveMax < encoded.length && !options.truncate then
            s.failOutcome (createError .outOfRange
              "STRING value exceeds available capacity" address)
          else
            let writeLength :=
              if effectiveMax < encoded.length then effectiveMax else encoded.length
            let after : List Nat :=
              effectiveMax :: writeLength ::
                ((encoded.take writeLength).map (fun u => u % 256) ++
                  List.replicate (payloadBudget - writeLength) 0)
            match area.writeBytes offset after with
            | .error msg => ⟨.error (createError .outOfRange msg address), s, []⟩
            | .ok area' =>
              let s' := s.updateArea descriptor.region area'
              let diff := computeDiffEntries offset before after
              if notify && diff ≠ [] then
                ⟨.ok (), s', [.areaChange descriptor.region diff]⟩
              else ⟨.ok (), s', []⟩

/-- Model of `writeStringSymbol`. -/
def writeStringSymbol (s : PlcStateImpl) (address : String)
    (value : List Nat) (options : PlcStringWriteOptions) : WriteOutcome :=
  match s.optimizedDb.read address .STRING with
  | .error e => ⟨.error e, s, []⟩
  | .ok metadata =>
    let descriptor := metadata.descriptor
    let declared := descriptor.stringLength.getD 254
    let optionMax := (options.maxLength.map (fun m => max m 0)).getD declared
    let allowed := min (min declared optionMax) 254
    if allowed < value.length && !options.truncate then
      s.failOutcome (createError .outOfRange
        ("STRING value exceeds allowed length " ++ toString allowed) address)
    else
      let nextValue := if allowed < value.length then value.take allowed else value
      s.writeSymbol address .STRING (.vStr nextValue)

/-- Model of `writeString`. -/
def writeString (s : PlcStateImpl) (address : String) (value : JsVal)
    (options : PlcStringWriteOptions := {}) : WriteOutcome :=
  match value with
  | .vStr units =>
    match inspectAddress address with
    | .ok descriptor => s.writeStringInternal address descriptor units options true
    | .error e =>
      if shouldAttemptSymbolFallback address e then
        s.writeStringSymbol address units options
      else ⟨.error e, s, []⟩
  | _ =>
    s.failOutcome (createError .typeMismatch "STRING writes require a string value" address)

/-- Dispatch over the 14 typed facade writes (the `PlcState` interface
surface; STRING takes no options, its callers' defaults). -/
def typedWrite (t : SclDataType) (s : PlcStateImpl) (address : String)
    (value : JsVal) : WriteOutcome :=
  match t with
  | .BOOL => s.writeBool address value
  | .BYTE => s.writeByte address value
  | .WORD => s.writeWord address value
  | .DWORD => s.writeDWord address value
  | .SINT => s.writeSInt address value
  | .INT => s.writeInt address value
  | .DINT => s.writeDInt address value
  | .LINT => s.writeLint address value
  | .REAL => s.writeReal address value
  | .LREAL => s.writeLReal address value
  | .TIME => s.writeTime address value
  | .DATE => s.writeDate address value
  | .TOD => s.writeTod address value
  | .STRING => s.writeString address value

/-- Dispatch over the 14 typed facade reads. -/
def typedRead (t : SclDataType) (s : PlcStateImpl) (address : String) :
    PlcResult JsVal :=
  match t with
  | .BOOL => s.readBool address
  | .BYTE => s.readByte address
  | .WORD => s.readWord address
  | .DWORD => s.readDWord address
  | .SINT => s.readSInt address
  | .INT => s.readInt address
  | .DINT => s.readDInt address
  | .LINT => s.readLint address
  | .REAL => s.readReal address
  | .LREAL => s.readLReal address
  | .TIME => s.readTime address
  | .DATE => s.readDate address
  | .TOD => s.readTod address
  | .STRING => (s.readString address).map (fun units => .vStr units)

end PlcStateImpl

/-! ### Symbol-store construction (`OptimizedDbStore` constructor:
`loadTypes`, `loadInstances`, `expandType`, `expandFields` and the
`register…` helpers)

Configuration failures are thrown `RangeError`s, modelled as
`Except.error` with the message; a thrown construction error aborts the
whole constructor, so a failed construction yields no store at all.  The
expansion recursion carries an explicit call-depth budget (see
`loadInstances`); the budget-exhaustion branches are unreachable because
the `typeStack` cycle guard bounds chains of type entries by the number
of registered types. -/

/-- Identifier head characters of `/^[A-Za-z_][A-Za-z0-9_]*$/`. -/
def isIdentStart (c : Char) : Bool :=
  ('A' ≤ c && c ≤ 'Z') || ('a' ≤ c && c ≤ 'z') || c = '_'

/-- Identifier tail characters. -/
def isIdentChar (c : Char) : Bool := isIdentStart c || isDigitChar c

/-- Model of `validateIdentifier`. -/
def validateIdentifier (value : String) (label : String) :
    Except String String :=
  let trimmed := jsTrim value.data
  match trimmed with
  | [] => .error (label ++ " name must be non-empty")
  | c :: rest =>
    if isIdentStart c && rest.all isIdentChar then .ok (String.mk trimmed)
    else .error (label ++ " \"" ++ value ++ "\" must match identifier pattern")

/-- Test of `/^DB\d+/i` (`assertNoNumericDbPrefix`). -/
def hasNumericDbPrefix (sg : String) : Bool :=
  match sg.data with
  | c1 :: c2 :: c3 :: _ => upperChar c1 = 'D' && upperChar c2 = 'B' && isDigitChar c3
  | _ => false

/-- Model of `assertNoNumericDbPrefix`. -/
def assertNoNumericDbPrefix (name : String) (label : String) :
    Except String Unit :=
  if hasNumericDbPrefix name then
    .error (label ++ " \"" ++ name ++ "\" cannot start with a numeric DB prefix")
  else .ok ()

/-- Model of `validateStringLength` (declared lengths are config numbers,
kept as `Int` so the `<= 0` rejection stays observable). -/
def validateStringLength (stringLength : Option Int) (path : String) :
    Except String Nat :=
  match stringLength with
  | none => .error ("STRING field at \"" ++ path ++ "\" must declare stringLength")
  | some n =>
    if n ≤ 0 || 254 < n then
      .error ("STRING field at \"" ++ path ++
        "\" must declare stringLength between 1 and 254")
    else .ok n.toNat

/-- Model of `defaultForType`. -/
def defaultForType (type_ : SclDataType) (stringLength : Option Nat) :
    Except String JsVal :=
  match type_ with
  | .BOOL => .ok (.vBool false)
  | .LINT => .ok (.vBig 0)
  | .STRING =>
    match stringLength with
    | none => .error "STRING symbols require stringLength"
    | some _ => .ok (.vStr [])
  | _ => .ok (.vNum 0)

/-- Model of `requireScalarDefault`. -/
def requireScalarDefault (type_ : SclDataType) (value : JsVal)
    (stringLength : Option Nat) (path : String) : Except String JsVal :=
  match coerceScalarValue type_ value stringLength path with
  | .error e => .error ("Invalid default value for \"" ++ path ++ "\": " ++ e.message)
  | .ok v => .ok v

namespace OptimizedDbStore

/-- Model of `resolveType`. -/
def resolveType (store : OptimizedDbStore) (typeName : String) :
    Except String TypeInfo := do
  let validatedType ← validateIdentifier typeName "FB type reference"
  let normalized := lowerStr validatedType
  match aGet store.typeDefinitions normalized with
  | some typeInfo => .ok typeInfo
  | none => .error ("Unknown FB type \"" ++ typeName ++ "\"")

/-- Registration of one scalar field (`registerScalar`, scope threading
made explicit). -/
def registerScalar (store : OptimizedDbStore) (fieldName : String)
    (dataType : SclDataType) (fieldDefault : Option JsVal)
    (fieldStringLength : Option Int) (parentPath instancePath instanceType : String)
    (scope : List String) : Except String (OptimizedDbStore × List String) := do
  let name ← validateIdentifier fieldName "field"
  let normalizedName := lowerStr name
  if scope.contains normalizedName then
    .error ("Duplicate field \"" ++ name ++ "\" under \"" ++ parentPath ++ "\"")
  else
    let scope' := scope ++ [normalizedName]
    let canonicalPath := parentPath ++ "." ++ name
    let normalizedPath := normalizeCanonicalPath canonicalPath
    if aHas store.descriptors normalizedPath then
      .error ("Duplicate symbol path \"" ++ canonicalPath ++ "\"")
    else do
      let stringLength ←
        match dataType with
        | .STRING => do
          let n ← validateStringLength fieldStringLength canonicalPath
          pure (some n)
        | _ => pure none
      let defaultValue ←
        match fieldDefault with
        | some v => requireScalarDefault dataType v stringLength canonicalPath
        | none => defaultForType dataType stringLength
      let descriptor : SymbolDescriptor :=
        { canonicalPath := canonicalPath, normalizedPath := normalizedPath,
          declarationPath := canonicalPath,
          fieldName := extractFieldName canonicalPath,
          dataType := dataType, stringLength := stringLength,
          defaultValue := defaultValue, fbInstancePath := instancePath,
          fbType := instanceType }
      .ok ({ store with
              descriptors := aSet store.descriptors normalizedPath descriptor,
              values := aSet store.values normalizedPath defaultValue }, scope')

/-- Registration of one scalar array element (`registerScalarElement`). -/
def registerScalarElement (store : OptimizedDbStore) (dataType : SclDataType)
    (elemDefault : Option JsVal) (elemStringLength : Option Int)
    (canonicalPath instancePath instanceType : String) :
    Except String OptimizedDbStore := do
  let normalizedPath := normalizeCanonicalPath canonicalPath
  if aHas store.descriptors normalizedPath then
    .error ("Duplicate symbol path \"" ++ canonicalPath ++ "\"")
  else do
    let stringLength ←
      match dataType with
      | .STRING => do
        let n ← validateStringLength elemStringLength canonicalPath
        pure (some n)
      | _ => pure none
    let defaultValue ←
      match elemDefault with
      | some v => requireScalarDefault dataType v stringLength canonicalPath
      | none => defaultForType dataType stringLength
    let descriptor : SymbolDescriptor :=
      { canonicalPath := canonicalPath, normalizedPath := normalizedPath,
        declarationPath := canonicalPath,
        fieldName := extractFieldName canonicalPath,
        dataType := dataType, stringLength := stringLength,
        defaultValue := defaultValue, fbInstancePath := instancePath,
        fbType := instanceType }
    .ok { store with
           descriptors := aSet store.descriptors normalizedPath descriptor,
           values := aSet store.values normalizedPath defaultValue }

mutual

/-- Model of `expandType` (the fuel is a call-depth budget large enough
that it never runs out, see `loadInstances`; pushing onto `typeStack` and
popping on return is the same as passing the extended stack downward). -/
def expandType (fuel : Nat) (store : OptimizedDbStore) (typeInfo : TypeInfo)
    (instancePath parentPath : String) (typeStack : List String) :
    Except String OptimizedDbStore :=
  match fuel with
  | 0 => .error "FB expansion budget exhausted"
  | fuel' + 1 =>
    let normalizedType := lowerStr typeInfo.name
    if typeStack.contains normalizedType then
      .error ("Recursive FB type reference detected at \"" ++ instancePath ++
        "\" for type \"" ++ typeInfo.name ++ "\"")
    else
      expandFieldsAux fuel' store typeInfo.definition parentPath instancePath
        typeInfo.name (typeStack ++ [normalizedType]) []
termination_by structural fuel

/-- Loop of `expandFields` over the field list (`scope` starts empty per
call, see `expandFields`). -/
def expandFieldsAux (fuel : Nat) (store : OptimizedDbStore)
    (fields : List FieldDef) (parentPath instancePath instanceType : String)
    (typeStack : List String) (scope : List String) :
    Except String OptimizedDbStore :=
  match fuel with
  | 0 => .error "FB expansion budget exhausted"
  | fuel' + 1 =>
    match fields with
    | [] => .ok store
    | field :: rest =>
      match registerField fuel' store field parentPath instancePath instanceType
          typeStack scope with
      | .error e => .error e
      | .ok (store', scope') =>
        expandFieldsAux fuel' store' rest parentPath instancePath instanceType
          typeStack scope'
termination_by structural fuel

/-- Dispatch of `expandFields` over one field (`registerScalar` /
`registerStruct` / `registerArray` / `registerNestedInstance`). -/
def registerField (fuel : Nat) (store : OptimizedDbStore) (field : FieldDef)
    (parentPath instancePath instanceType : String) (typeStack : List String)
    (scope : List String) :
    Except String (OptimizedDbStore × List String) :=
  match fuel with
  | 0 => .error "FB expansion budget exhausted"
  | fuel' + 1 =>
    match field with
    | .scalar name dataType defaultValue stringLength =>
      registerScalar store name dataType defaultValue stringLength parentPath
        instancePath instanceType scope
    | .struct name fields =>
      match validateIdentifier name "field" with
      | .error e => .error e
      | .ok name' =>
        let normalizedName := lowerStr name'
        if scope.contains normalizedName then
          .error ("Duplicate field \"" ++ name' ++ "\" under \"" ++ parentPath ++ "\"")
        else
          let canonicalPath := parentPath ++ "." ++ name'
          match expandFieldsAux fuel' store fields canonicalPath instancePath
              instanceType typeStack [] with
          | .error e => .error e
          | .ok store' => .ok (store', scope ++ [normalizedName])
    | .arr name length element =>
      match validateIdentifier name "field" with
      | .error e => .error e
      | .ok name' =>
        let normalizedName := lowerStr name'
        if scope.contains normalizedName then
          .error ("Duplicate field \"" ++ name' ++ "\" under \"" ++ parentPath ++ "\"")
        else if length < 0 then
          .error ("Array \"" ++ name' ++ "\" under \"" ++ parentPath ++
            "\" must declare a non-negative integer length")
        else
          let canonicalPath := parentPath ++ "." ++ name'
          let normalizedArrayPath := normalizeCanonicalPath canonicalPath
          if aHas store.arrays normalizedArrayPath then
            .error ("Duplicate array declaration at \"" ++ canonicalPath ++ "\"")
          else
            let arrayInfo : ArrayInfo :=
              { canonicalPath := canonicalPath,
                normalizedPath := normalizedArrayPath, length := length }
            let store1 :=
              { store with arrays := aSet store.arrays normalizedArrayPath arrayInfo }
            match arrayLoop fuel' store1 element length.toNat 0 canonicalPath
                instancePath instanceType typeStack with
            | .error e => .error e
            | .ok store' => .ok (store', scope ++ [normalizedName])
    | .fb name typeName =>
      match validateIdentifier name "field" with
      | .error e => .error e
      | .ok name' =>
        match assertNoNumericDbPrefix name' "FB instance" with
        | .error e => .error e
        | .ok _ =>
          let normalizedName := lowerStr name'
          if scope.contains normalizedName then
            .error ("Duplicate field \"" ++ name' ++ "\" under \"" ++ parentPath ++ "\"")
          else
            let childInstancePath := parentPath ++ "." ++ name'
            match store.resolveType typeName with
            | .error e => .error e
            | .ok typeInfo =>
              let normalizedPath := normalizeCanonicalPath childInstancePath
              if aHas store.instances normalizedPath then
                .error ("Duplicate FB instance \"" ++ childInstancePath ++ "\"")
              else
                let entry : InstanceRegistryEntry :=
                  { canonicalPath := childInstancePath,
                    normalizedPath := normalizedPath,
                    typeName := typeInfo.name }
                let store1 :=
                  { store with instances := aSet store.instances normalizedPath entry }
                match expandType fuel' store1 typeInfo childInstancePath
                    childInstancePath typeStack with
                | .error e => .error e
                | .ok store' => .ok (store', scope ++ [normalizedName])
termination_by structural fuel

/-- Index loop of `registerArray` (indices `idx`, `idx+1`, …; `remaining`
counts down for termination). -/
def arrayLoop (fuel : Nat) (store : OptimizedDbStore) (element : FieldDef)
    (remaining idx : Nat) (canonicalPath instancePath instanceType : String)
    (typeStack : List String) : Except String OptimizedDbStore :=
  match fuel with
  | 0 => .error "FB expansion budget exhausted"
  | fuel' + 1 =>
    match remaining with
    | 0 => .ok store
    | r + 1 =>
      let elementPath := canonicalPath ++ "[" ++ toString idx ++ "]"
      match registerElement fuel' store element elementPath instancePath
          instanceType typeStack with
      | .error e => .error e
      | .ok store' =>
        arrayLoop fuel' store' element r (idx + 1) canonicalPath instancePath
          instanceType typeStack
termination_by structural fuel

/-- Per-element dispatch inside `registerArray`. -/
def registerElement (fuel : Nat) (store : OptimizedDbStore)
    (element : FieldDef) (elementPath instancePath instanceType : String)
    (typeStack : List String) : Except String OptimizedDbStore :=
  match fuel with
  | 0 => .error "FB expansion budget exhausted"
  | fuel' + 1 =>
    match element with
    | .scalar _ dataType defaultValue stringLength =>
      registerScalarElement store dataType defaultValue stringLength elementPath
        instancePath instanceType
    | .struct _ fields =>
      expandFieldsAux fuel' store fields elementPath instancePath instanceType
        typeStack []
    | .fb _ typeName =>
      match store.resolveType typeName with
      | .error e => .error e
      | .ok typeInfo =>
        let normalizedPath := normalizeCanonicalPath elementPath
        if aHas store.instances normalizedPath then
          .error ("Duplicate FB instance \"" ++ elementPath ++ "\"")
        else
          let entry : InstanceRegistryEntry :=
            { canonicalPath := elementPath, normalizedPath := normalizedPath,
              typeName := typeInfo.name }
          let store1 :=
            { store with instances := aSet store.instances normalizedPath entry }
          expandType fuel' store1 typeInfo elementPath elementPath typeStack
    | .arr name length innerElement =>
      match registerField fuel' store (.arr name length innerElement) elementPath
          instancePath instanceType typeStack [] with
      | .error e => .error e
      | .ok (store', _) => .ok store'
termination_by structural fuel

end

end OptimizedDbStore

namespace OptimizedDbStore

/-- One FB instance binding of the configuration
(`OptimizedFbInstanceDefinition`). -/
structure OptimizedFbInstanceDefinition where
  name : String
  typeName : String

/-- The configuration the store constructor reads (`config.types` keyed
by name with `fields`, plus `config.instances`). -/
structure OptimizedDbConfiguration where
  types : List (String × List FieldDef) := []
  instances : List OptimizedFbInstanceDefinition := []

/-- Model of `loadTypes`. -/
def loadTypes (store : OptimizedDbStore)
    (types : List (String × List FieldDef)) : Except String OptimizedDbStore :=
  match types with
  | [] => .ok store
  | (name, fields) :: rest =>
    match validateIdentifier name "FB type" with
    | .error e => .error e
    | .ok validatedName =>
      let normalized := lowerStr validatedName
      if aHas store.typeDefinitions normalized then
        .error ("Duplicate FB type definition \"" ++ validatedName ++ "\"")
      else
        let info : TypeInfo := { name := validatedName, definition := fields }
        loadTypes
          { store with typeDefinitions := aSet store.typeDefinitions normalized info }
          rest

mutual

/-- Call-depth budget needed to expand one field (arrays contribute one
budget per element, covering the index loop). -/
def FieldDef.budget : FieldDef → Nat
  | .scalar _ _ _ _ => 2
  | .struct _ fields => 2 + FieldDef.budgetList fields
  | .arr _ length element => 2 + (length.toNat + 1) * (FieldDef.budget element + 2)
  | .fb _ _ => 2
termination_by structural f => f

/-- Call-depth budget needed to expand a field list. -/
def FieldDef.budgetList : List FieldDef → Nat
  | [] => 1
  | f :: rest => 1 + FieldDef.budget f + FieldDef.budgetList rest
termination_by structural l => l

end

/-- Call-depth budget of one registered type definition. -/
def typeBudget (info : TypeInfo) : Nat := 2 + FieldDef.budgetList info.definition

/-- Call-depth budget of the whole type registry. -/
def typeDefsBudget : List (String × TypeInfo) → Nat
  | [] => 1
  | (_, info) :: rest => typeBudget info + typeDefsBudget rest

/-- Model of `loadInstances`.  The expansion budget bounds the call
depth of the expansion: along any call chain the active field shrinks
except when entering a referenced FB type, and the cycle guard caps such
entries at the registered type count, so a budget of
`(count + 1) * (total registry budget + type budget)` can never run out
and the fueled expansion agrees with the source's unbounded recursion. -/
def loadInstances (store : OptimizedDbStore)
    (instances : List OptimizedFbInstanceDefinition) :
    Except String OptimizedDbStore :=
  match instances with
  | [] => .ok store
  | instance_ :: rest =>
    match validateIdentifier instance_.name "FB instance" with
    | .error e => .error e
    | .ok name =>
      match assertNoNumericDbPrefix name "FB instance" with
      | .error e => .error e
      | .ok _ =>
        match store.resolveType instance_.typeName with
        | .error e => .error e
        | .ok typeInfo =>
          let normalizedPath := normalizeCanonicalPath name
          if aHas store.instances normalizedPath then
            .error ("Duplicate FB instance \"" ++ name ++ "\"")
          else
            let entry : InstanceRegistryEntry :=
              { canonicalPath := name, normalizedPath := normalizedPath,
                typeName := typeInfo.name }
            let store1 :=
              { store with instances := aSet store.instances normalizedPath entry }
            match expandType
                ((store1.typeDefinitions.length + 1) *
                  (typeDefsBudget store1.typeDefinitions + typeBudget typeInfo))
                store1 typeInfo name name [] with
            | .error e => .error e
            | .ok store2 => loadInstances store2 rest

/-- Model of the `OptimizedDbStore` constructor. -/
def construct (config : Option OptimizedDbConfiguration) :
    Except String OptimizedDbStore :=
  match config with
  | none => .ok {}
  | some c =>
    match loadTypes {} c.types with
    | .error e => .error e
    | .ok store1 => loadInstances store1 c.instances

end OptimizedDbStore

/-! ### IR and interpreter (`emulator/ir/types.ts`, `emulator/interpreter.ts`)

The IR statement set is the one the interpreter executes (including the
`exit`/`continue` loop controls of its `executeStatement` switch).
Source ranges are carried for diagnostics only. -/

/-- Source range (`SourceRange`; `end` is a Lean keyword, stored as
`stop`). -/
structure SourceRange where
  start : Int := 0
  stop : Int := 0
deriving DecidableEq, Repr

/-- Unary IR operators. -/
inductive UnaryOperator | NOT | NEGATE
deriving DecidableEq, Repr

/-- Binary IR operators. -/
inductive BinaryOperator | ADD | SUBTRACT | MULTIPLY | DIVIDE | AND | OR | XOR
deriving DecidableEq, Repr

/-- Comparison IR operators. -/
inductive ComparisonOperator | EQ | NEQ | LT | LTE | GT | GTE
deriving DecidableEq, Repr

/-- IR expressions (`IrExpression`). -/
inductive IrExpression
  | literal (value : JsVal) (valueType : SclDataType) (range : SourceRange)
  | varRef (name : String) (range : SourceRange)
  | address (address : String) (dataTypeHint : Option SclDataType) (range : SourceRange)
  | unary (operator : UnaryOperator) (operand : IrExpression) (range : SourceRange)
  | binary (operator : BinaryOperator) (left right : IrExpression) (range : SourceRange)
  | comparison (operator : ComparisonOperator) (left right : IrExpression) (range : SourceRange)
deriving Repr

/-- Range accessor of an expression. -/
def IrExpression.range : IrExpression → SourceRange
  | .literal _ _ r => r
  | .varRef _ r => r
  | .address _ _ r => r
  | .unary _ _ r => r
  | .binary _ _ _ r => r
  | .comparison _ _ _ r => r

/-- CASE selectors (`IrCaseSelector`). -/
inductive IrCaseSelector
  | value (expression : IrExpression) (range : SourceRange)
  | range (start stop : IrExpression) (range : SourceRange)
deriving Repr

/-- Range accessor of a selector. -/
def IrCaseSelector.selRange : IrCaseSelector → SourceRange
  | .value _ r => r
  | .range _ _ r => r

/-- Assignment targets (`IrAssignable`). -/
inductive IrAssignable
  | varRef (name : String) (range : SourceRange)
  | address (address : String) (dataTypeHint : Option SclDataType) (range : SourceRange)
deriving Repr

/-- IR statements (`IrStatement`): if-branches are
`(condition?, statements)` pairs, case branches are
`(selectors, statements)` pairs. -/
inductive IrStatement
  | assignment (target : IrAssignable) (expression : IrExpression) (range : SourceRange)
  | ifS (branches : List (Option IrExpression × List IrStatement)) (range : SourceRange)
  | whileS (condition : IrExpression) (body : List IrStatement) (range : SourceRange)
  | caseS (discriminant : IrExpression)
      (cases : List (List IrCaseSelector × List IrStatement))
      (elseBranch : Option (List IrStatement)) (range : SourceRange)
  | forS (iterator : String) (iteratorRange : SourceRange)
      (initial : IrExpression) (endE : IrExpression) (step : Option IrExpression)
      (body : List IrStatement) (range : SourceRange)
  | exitS (range : SourceRange)
  | continueS (range : SourceRange)
deriving Repr

/-- Declared IR variable (`IrVariable`). -/
structure IrVariable where
  name : String
  dataType : SclDataType
  range : SourceRange := {}
  stringLength : Option Nat := none
  initializer : Option IrExpression := none
deriving Repr

/-- An IR program (`IrProgram`). -/
structure IrProgram where
  vars : List IrVariable := []
  statements : List IrStatement := []
deriving Repr

/-- Runtime failure (`SclEmulatorRuntimeError`). -/
structure RuntimeError where
  message : String
  range : SourceRange
deriving DecidableEq, Repr

/-- A binding input (`SymbolBindingInput`: a plain address string or an
overriding object). -/
inductive SymbolBindingInput
  | plain (address : String)
  | obj (address : String) (dataType : Option SclDataType) (stringLength : Option Nat)
deriving Repr

/-- Interpreter options (`ExecutionOptions`). -/
structure ExecutionOptions where
  maxLoopIterations : Option Nat := none
  trace : Bool := false
  symbols : List (String × SymbolBindingInput) := []
  addressTypes : List (String × SclDataType) := []

/-- Resolved symbol binding (`SymbolBinding`). -/
structure SymbolBinding where
  name : String
  address : String
  dataType : SclDataType
  stringLength : Option Nat
  range : SourceRange
deriving Repr

/-- A typed runtime value (`ExecutionValue`). -/
structure ExecutionValue where
  value : JsVal
  dataType : SclDataType
deriving DecidableEq, Repr

/-- Loop control outcome (`LoopControl`). -/
inductive LoopControl | normal | exit | continue_
deriving DecidableEq, Repr

/-- Effect entry of the trace (`ExecutionEffect`). -/
structure ExecutionEffect where
  address : String
  dataType : SclDataType
  value : JsVal
deriving DecidableEq, Repr

/-- Trace entry (`ExecutionTraceEntry`). -/
structure ExecutionTraceEntry where
  statementRange : SourceRange
  effects : List ExecutionEffect
deriving DecidableEq, Repr

/-- JavaScript truthiness (`Boolean(value)`). -/
def jsTruthy : JsVal → Bool
  | .vBool b => b
  | .vNum q => q ≠ 0
  | .vBig i => i ≠ 0
  | .vStr units => units ≠ []
  | .vUndef => false

/-- Model of `toBoolean`. -/
def toBoolean (value : ExecutionValue) (range : SourceRange) :
    Except RuntimeError Bool :=
  if value.dataType = .BOOL then .ok (jsTruthy value.value)
  else
    match value.value with
    | .vNum q => .ok (decide (q ≠ 0))
    | .vBig i => .ok (decide (i ≠ 0))
    | _ => .error ⟨"Expected a boolean-compatible value", range⟩

/-- Longest-valid-prefix float parsing (`Number.parseFloat`) on the
decimal/exponent forms; other inputs give no number (NaN). -/
def parseFloatUnits (units : List Nat) : Option ℚ :=
  let cs := (units.map Char.ofNat).dropWhile isWsChar
  let (sign, cs1) : ℚ × List Char :=
    match cs with
    | '-' :: rest => (-1, rest)
    | '+' :: rest => (1, rest)
    | _ => (1, cs)
  let intDigits := cs1.takeWhile isDigitChar
  let cs2 := cs1.dropWhile isDigitChar
  let (fracDigits, cs3) : List Char × List Char :=
    match cs2 with
    | '.' :: rest => (rest.takeWhile isDigitChar, rest.dropWhile isDigitChar)
    | _ => ([], cs2)
  if intDigits = [] && fracDigits = [] then none
  else
    let mantissa : ℚ :=
      (digitsToNat intDigits : ℚ) +
        (digitsToNat fracDigits : ℚ) / ((10 : ℚ) ^ fracDigits.length)
    let expPart : ℚ :=
      match cs3 with
      | e :: rest =>
        if e = 'e' || e = 'E' then
          let (esign, rest1) : Bool × List Char :=
            match rest with
            | '-' :: r => (true, r)
            | '+' :: r => (false, r)
            | _ => (false, rest)
          let expDigits := rest1.takeWhile isDigitChar
          if expDigits = [] then 1
          else if esign then ((10 : ℚ) ^ digitsToNat expDigits)⁻¹
          else (10 : ℚ) ^ digitsToNat expDigits
        else 1
      | [] => 1
    some (sign * mantissa * expPart)

/-- Model of `toNumber` (`Number(bigint)` is exact in the model; the
doubles window is noted in the header). -/
def toNumber (value : ExecutionValue) (range : SourceRange) :
    Except RuntimeError ℚ :=
  match value.value with
  | .vNum q => .ok q
  | .vBig i => .ok (i : ℚ)
  | .vBool true => .ok 1
  | .vBool false => .ok 0
  | .vStr units =>
    if value.dataType ≠ .STRING then
      match parseFloatUnits units with
      | some q => .ok q
      | none => .error ⟨"Expected a numeric-compatible value", range⟩
    else .error ⟨"Expected a numeric-compatible value", range⟩
  | .vUndef => .error ⟨"Expected a numeric-compatible value", range⟩

/-- Model of `toBigInt`. -/
def toBigInt (value : ExecutionValue) (range : SourceRange) :
    Except RuntimeError Int :=
  match value.value with
  | .vBig i => .ok i
  | .vNum q => .ok (jsTrunc q)
  | _ => .error ⟨"Expected an integer value for LINT arithmetic", range⟩

/-- Model of `promoteNumericType`. -/
def promoteNumericType (left right : SclDataType) (forceReal : Bool) :
    SclDataType :=
  if forceReal || left = .REAL || right = .REAL || left = .LREAL || right = .LREAL then
    if left = .LREAL || right = .LREAL then .LREAL else .REAL
  else if left = .LINT || right = .LINT then .LINT
  else if left = .DINT || right = .DINT then .DINT
  else if left = .INT || right = .INT then .INT
  else if left = .SINT || right = .SINT then .SINT
  else if left = .DWORD || right = .DWORD then .DWORD
  else if left = .WORD || right = .WORD then .WORD
  else if left = .BYTE || right = .BYTE then .BYTE
  else left

/-- Model of `pickNumericResultType`. -/
def pickNumericResultType (left right : SclDataType) : SclDataType :=
  promoteNumericType left right false

/-- Model of `clampInteger` (truncate toward zero, then reject values
outside the range — there is no clamping to the bounds). -/
def clampInteger (value : ℚ) (min max : Int) (range : SourceRange) :
    Except RuntimeError Int :=
  let truncated := jsTrunc value
  if truncated < min || max < truncated then
    .error ⟨"Value " ++ toString truncated ++ " is outside allowed range [" ++
      toString min ++ ", " ++ toString max ++ "]", range⟩
  else .ok truncated

/-- Decimal digits of a natural number (for `String(n)`). -/
def natToUnits (n : Nat) : List Nat := (toString n).data.map Char.toNat

/-- Model of the `String(value)` conversion on the values the emulator
stores (the decimal formatting of a non-integer double is outside the
model and rendered as `num/den`). -/
def jsToStringUnits : JsVal → List Nat
  | .vStr units => units
  | .vBool true => "true".data.map Char.toNat
  | .vBool false => "false".data.map Char.toNat
  | .vBig i => (toString i).data.map Char.toNat
  | .vNum q =>
    if q.den = 1 then (toString q.num).data.map Char.toNat
    else (toString q.num ++ "/" ++ toString q.den).data.map Char.toNat
  | .vUndef => "undefined".data.map Char.toNat

/-- Model of `normalizeForType`. -/
def normalizeForType (value : ExecutionValue) (target : SclDataType)
    (range : SourceRange) : Except RuntimeError JsVal :=
  match target with
  | .BOOL => (toBoolean value range).map .vBool
  | .BYTE => (toNumber value range >>= fun q => clampInteger q 0 0xff range).map
      (fun i => .vNum (i : ℚ))
  | .WORD => (toNumber value range >>= fun q => clampInteger q 0 0xffff range).map
      (fun i => .vNum (i : ℚ))
  | .DWORD => (toNumber value range >>= fun q => clampInteger q 0 0xffffffff range).map
      (fun i => .vNum (i : ℚ))
  | .SINT => (toNumber value range >>= fun q => clampInteger q (-128) 127 range).map
      (fun i => .vNum (i : ℚ))
  | .INT => (toNumber value range >>= fun q => clampInteger q (-32768) 32767 range).map
      (fun i => .vNum (i : ℚ))
  | .DINT => (toNumber value range >>=
      fun q => clampInteger q (-2147483648) 2147483647 range).map
      (fun i => .vNum (i : ℚ))
  | .LINT => (toBigInt value range).map .vBig
  | .REAL => (toNumber value range).map .vNum
  | .LREAL => (toNumber value range).map .vNum
  | .TIME => (toNumber value range).map (fun q => .vNum (jsTrunc q : ℚ))
  | .DATE => (toNumber value range >>= fun q => clampInteger q 0 65535 range).map
      (fun i => .vNum (i : ℚ))
  | .TOD => (toNumber value range >>= fun q => clampInteger q 0 0xffffffff range).map
      (fun i => .vNum (i : ℚ))
  | .STRING => .ok (.vStr (jsToStringUnits value.value))

/-- Model of `compareNumbers` on a signed difference. -/
def compareNumbers (difference : ℚ) : ComparisonOperator → Bool
  | .EQ => difference = 0
  | .NEQ => difference ≠ 0
  | .LT => difference < 0
  | .LTE => difference ≤ 0
  | .GT => 0 < difference
  | .GTE => 0 ≤ difference

/-- Lexicographic comparison of code-unit lists (`localeCompare` in the
default locale on the modelled single-byte strings). -/
def unitsCompare : List Nat → List Nat → Int
  | [], [] => 0
  | [], _ :: _ => -1
  | _ :: _, [] => 1
  | a :: as_, b :: bs =>
    if a < b then -1 else if b < a then 1 else unitsCompare as_ bs

/-- Model of `compareExecutionValues`. -/
def compareExecutionValues (left right : ExecutionValue)
    (operator : ComparisonOperator) (range : SourceRange) :
    Except RuntimeError Bool :=
  if left.dataType = .STRING || right.dataType = .STRING then
    .ok (compareNumbers
      ((unitsCompare (jsToStringUnits left.value) (jsToStringUnits right.value)) : ℚ)
      operator)
  else if left.dataType = .BOOL || right.dataType = .BOOL then do
    let lhs ← toBoolean left range
    let rhs ← toBoolean right range
    .ok (compareNumbers (if lhs = rhs then 0 else if lhs then 1 else -1) operator)
  else if left.dataType = .LINT || right.dataType = .LINT then do
    let lhs ← toBigInt left range
    let rhs ← toBigInt right range
    .ok (compareNumbers (if lhs = rhs then 0 else if rhs < lhs then 1 else -1) operator)
  else do
    let lhs ← toNumber left range
    let rhs ← toNumber right range
    .ok (compareNumbers (lhs - rhs) operator)

/-- Conversion the interpreter applies before a numeric facade write
(`Number(value)`; inconvertible values stay as they are and are then
rejected by the facade validator exactly as `NaN` would be). -/
def numberConv : JsVal → JsVal
  | .vNum q => .vNum q
  | .vBool true => .vNum 1
  | .vBool false => .vNum 0
  | .vBig i => .vNum (i : ℚ)
  | v => v

/-- Model of `performWrite`. -/
def performWrite (state : PlcStateImpl) (dataType : SclDataType)
    (address : String) (value : JsVal) (stringLength : Option Nat) :
    WriteOutcome :=
  match dataType with
  | .BOOL => state.writeBool address (.vBool (jsTruthy value))
  | .BYTE => state.writeByte address (numberConv value)
  | .WORD => state.writeWord address (numberConv value)
  | .DWORD => state.writeDWord address (numberConv value)
  | .SINT => state.writeSInt address (numberConv value)
  | .INT => state.writeInt address (numberConv value)
  | .DINT => state.writeDInt address (numberConv value)
  | .LINT => state.writeLint address value
  | .REAL => state.writeReal address (numberConv value)
  | .LREAL => state.writeLReal address (numberConv value)
  | .TIME => state.writeTime address (numberConv value)
  | .DATE => state.writeDate address (numberConv value)
  | .TOD => state.writeTod address (numberConv value)
  | .STRING =>
    state.writeString address (.vStr (jsToStringUnits value))
      { maxLength := stringLength, truncate := true }

/-- Model of `performRead`. -/
def performRead (state : PlcStateImpl) (dataType : SclDataType)
    (address : String) (stringLength : Option Nat) : PlcResult JsVal :=
  match dataType with
  | .BOOL => state.readBool address
  | .BYTE => state.readByte address
  | .WORD => state.readWord address
  | .DWORD => state.readDWord address
  | .SINT => state.readSInt address
  | .INT => state.readInt address
  | .DINT => state.readDInt address
  | .LINT => state.readLint address
  | .REAL => state.readReal address
  | .LREAL => state.readLReal address
  | .TIME => state.readTime address
  | .DATE => state.readDate address
  | .TOD => state.readTod address
  | .STRING =>
    (state.readString address { maxLength := stringLength }).map
      (fun units => .vStr units)

/-- Model of `inferDataTypeFromAddress` (the fixed absolute and
`DBn.DBx` regular patterns). -/
def inferDataTypeFromAddress (address : String) : Option SclDataType :=
  let cs := (jsTrim address.data).map upperChar
  match bitMatch cs with
  | some _ => some .BOOL
  | none =>
    match byteMatch cs with
    | some (_, some 'B', _) => some .BYTE
    | some (_, some 'W', _) => some .WORD
    | some (_, some 'D', _) => some .DWORD
    | some (_, none, _) => none
    | _ => dbInferred cs
where
  /-- The `DB\d+\.DB[XBWD]\d+` shapes. -/
  dbInferred (cs : List Char) : Option SclDataType :=
    match cs with
    | 'D' :: 'B' :: rest =>
      let ds := rest.takeWhile isDigitChar
      (match rest.dropWhile isDigitChar with
       | '.' :: 'D' :: 'B' :: t :: rest2 =>
         if ds = [] then none
         else
           let ds2 := rest2.takeWhile isDigitChar
           let tail := rest2.dropWhile isDigitChar
           if ds2 = [] then none
           else if t = 'X' then
             match tail with
             | [] => some .BOOL
             | ['.', b] => if isDigitChar b then some .BOOL else none
             | _ => none
           else if tail ≠ [] then none
           else if t = 'B' then some .BYTE
           else if t = 'W' then some .WORD
           else if t = 'D' then some .DWORD
           else none
       | _ => none)
    | _ => none

/-! ### Interpreter execution (`Interpreter` methods)

The interpreter instance state is split into a read-only context
(`InterpCtx`: options plus the symbol table) and the threaded state
(`InterpState`: the facade plus the accumulated trace).  The unbounded
`while` loops of `executeWhile`/`executeFor` throw once the iteration
counter passes `maxLoopIterations`, so they run at most
`maxLoopIterations + 1` passes; the model's loop runners carry that many
units of fuel and additionally report the number of continuation-condition
evaluations (a ghost output used by the loop-bound theorems; it does not
influence execution). -/

/-- Read-only interpreter context. -/
structure InterpCtx where
  maxLoopIterations : Nat
  traceEnabled : Bool
  addressTypes : List (String × SclDataType)
  symbolTable : List (String × SymbolBinding)

/-- Threaded interpreter state. -/
structure InterpState where
  plc : PlcStateImpl
  trace : List ExecutionTraceEntry

/-- Model of `writeAddress`. -/
def writeAddress (st : InterpState) (address : String)
    (dataType : SclDataType) (value : ExecutionValue)
    (stringLength : Option Nat) (range : SourceRange) :
    Except RuntimeError (ExecutionEffect × InterpState) :=
  match normalizeForType value dataType range with
  | .error e => .error e
  | .ok coerced =>
    let outcome := performWrite st.plc dataType address coerced stringLength
    match outcome.result with
    | .error e => .error ⟨e.message, range⟩
    | .ok _ =>
      .ok ({ address := address, dataType := dataType, value := coerced },
        { st with plc := outcome.state })

/-- Model of `readAddress`. -/
def readAddress (st : InterpState) (address : String)
    (dataType : SclDataType) (stringLength : Option Nat)
    (range : SourceRange) : Except RuntimeError ExecutionValue :=
  match performRead st.plc dataType address stringLength with
  | .error e => .error ⟨e.message, range⟩
  | .ok v => .ok { value := v, dataType := dataType }

/-- Model of `writeBinding` (`expressionRange ?? fallbackRange`: the
expression range is always present at the call sites). -/
def writeBinding (st : InterpState) (binding : SymbolBinding)
    (value : ExecutionValue) (expressionRange : SourceRange) :
    Except RuntimeError (ExecutionEffect × InterpState) :=
  writeAddress st binding.address binding.dataType value binding.stringLength
    expressionRange

/-- Model of `evaluateUnary`. -/
def evaluateUnary (operator : UnaryOperator) (operand : ExecutionValue)
    (range : SourceRange) : Except RuntimeError ExecutionValue :=
  match operator with
  | .NOT => (toBoolean operand range).map (fun b => ⟨.vBool (!b), .BOOL⟩)
  | .NEGATE =>
    if operand.dataType = .LINT then
      (toBigInt operand range).map (fun i => ⟨.vBig (-i), .LINT⟩)
    else
      (toNumber operand range).map (fun q =>
        ⟨.vNum (-q), pickNumericResultType operand.dataType operand.dataType⟩)

/-- Model of `evaluateNumericBinary`. -/
def evaluateNumericBinary (operator : BinaryOperator)
    (left right : ExecutionValue) (range : SourceRange) :
    Except RuntimeError ExecutionValue :=
  if left.dataType = .LINT || right.dataType = .LINT then
    match toBigInt left range, toBigInt right range with
    | .error e, _ => .error e
    | _, .error e => .error e
    | .ok lhs, .ok rhs =>
      match operator with
      | .ADD => .ok ⟨.vBig (lhs + rhs), .LINT⟩
      | .SUBTRACT => .ok ⟨.vBig (lhs - rhs), .LINT⟩
      | .MULTIPLY => .ok ⟨.vBig (lhs * rhs), .LINT⟩
      | .DIVIDE =>
        if rhs = 0 then .error ⟨"Division by zero", range⟩
        else .ok ⟨.vBig (lhs.tdiv rhs), .LINT⟩
      | _ => .error ⟨"Division by zero", range⟩
  else
    match toNumber left range, toNumber right range with
    | .error e, _ => .error e
    | _, .error e => .error e
    | .ok lhs, .ok rhs =>
      let result : Except RuntimeError ℚ :=
        match operator with
        | .ADD => .ok (lhs + rhs)
        | .SUBTRACT => .ok (lhs - rhs)
        | .MULTIPLY => .ok (lhs * rhs)
        | .DIVIDE =>
          if rhs = 0 then .error ⟨"Division by zero", range⟩
          else .ok (lhs / rhs)
        | _ => .error ⟨"Division by zero", range⟩
      result.map (fun value =>
        ⟨.vNum value,
          promoteNumericType left.dataType right.dataType (operator = .DIVIDE)⟩)

/-- Model of `evaluateBinary`. -/
def evaluateBinary (operator : BinaryOperator) (left right : ExecutionValue)
    (range : SourceRange) : Except RuntimeError ExecutionValue :=
  match operator with
  | .AND => do
    let lhs ← toBoolean left range
    let rhs ← toBoolean right range
    .ok ⟨.vBool (lhs && rhs), .BOOL⟩
  | .OR => do
    let lhs ← toBoolean left range
    let rhs ← toBoolean right range
    .ok ⟨.vBool (lhs || rhs), .BOOL⟩
  | .XOR => do
    let lhs ← toBoolean left range
    let rhs ← toBoolean right range
    .ok ⟨.vBool ((lhs || rhs) && !(lhs && rhs)), .BOOL⟩
  | _ => evaluateNumericBinary operator left right range

/-- Model of `evaluateExpression`. -/
def evaluateExpression (ctx : InterpCtx) (plc : PlcStateImpl) :
    IrExpression → Except RuntimeError ExecutionValue
  | .literal value valueType _ => .ok ⟨value, valueType⟩
  | .varRef name range =>
    match aGet ctx.symbolTable name with
    | none =>
      .error ⟨"Variable \"" ++ name ++ "\" is not bound to PLC memory", range⟩
    | some binding =>
      readAddress ⟨plc, []⟩ binding.address binding.dataType binding.stringLength range
  | .address address dataTypeHint range =>
    let dataType :=
      match dataTypeHint with
      | some t => some t
      | none =>
        match aGet ctx.addressTypes address with
        | some t => some t
        | none => inferDataTypeFromAddress address
    match dataType with
    | none =>
      .error ⟨"Unable to infer data type for address \"" ++ address ++ "\"", range⟩
    | some t => readAddress ⟨plc, []⟩ address t none range
  | .unary operator operand range => do
    let v ← evaluateExpression ctx plc operand
    evaluateUnary operator v range
  | .binary operator left right range => do
    let lhs ← evaluateExpression ctx plc left
    let rhs ← evaluateExpression ctx plc right
    evaluateBinary operator lhs rhs range
  | .comparison operator left right range => do
    let lhs ← evaluateExpression ctx plc left
    let rhs ← evaluateExpression ctx plc right
    (compareExecutionValues lhs rhs operator range).map (fun b => ⟨.vBool b, .BOOL⟩)

/-- Model of `caseBranchMatches` over the branch's selector list. -/
def caseBranchMatches (ctx : InterpCtx) (plc : PlcStateImpl)
    (discriminant : ExecutionValue) :
    List IrCaseSelector → Except RuntimeError Bool
  | [] => .ok false
  | .value expression range :: rest => do
    let candidate ← evaluateExpression ctx plc expression
    let hit ← compareExecutionValues discriminant candidate .EQ range
    if hit then .ok true else caseBranchMatches ctx plc discriminant rest
  | .range startE stopE range :: rest => do
    let startV ← evaluateExpression ctx plc startE
    let stopV ← evaluateExpression ctx plc stopE
    let meetsLowerBound ← compareExecutionValues discriminant startV .GTE range
    let meetsUpperBound ← compareExecutionValues discriminant stopV .LTE range
    if meetsLowerBound && meetsUpperBound then .ok true
    else caseBranchMatches ctx plc discriminant rest

/-- Model of `executeAssignment`. -/
def executeAssignment (ctx : InterpCtx) (target : IrAssignable)
    (expression : IrExpression) (range : SourceRange) (st : InterpState) :
    Except RuntimeError (LoopControl × InterpState) :=
  match evaluateExpression ctx st.plc expression with
  | .error e => .error e
  | .ok value =>
    let written : Except RuntimeError (ExecutionEffect × InterpState) :=
      match target with
      | .varRef name trange =>
        match aGet ctx.symbolTable name with
        | none =>
          .error ⟨"Variable \"" ++ name ++ "\" is not bound to PLC memory", trange⟩
        | some binding => writeBinding st binding value expression.range
      | .address address dataTypeHint trange =>
        let dataType :=
          match dataTypeHint with
          | some t => some t
          | none =>
            match aGet ctx.addressTypes address with
            | some t => some t
            | none => inferDataTypeFromAddress address
        match dataType with
        | none =>
          .error ⟨"Unable to infer data type for address \"" ++ address ++ "\"", trange⟩
        | some t => writeAddress st address t value none expression.range
    match written with
    | .error e => .error e
    | .ok (effect, st') =>
      let st'' :=
        if ctx.traceEnabled then
          { st' with trace := st'.trace ++ [⟨range, [effect]⟩] }
        else st'
      .ok (.normal, st'')

/-- The fueled `while` loop of `executeWhile`.  One pass: evaluate the
condition, stop when false, throw the cap failure when the fuel (the
remaining allowed iterations) is exhausted, otherwise run the body and
continue unless it exited.  The second component counts condition
evaluations. -/
def runWhileLoop (evalCond : InterpState → Except RuntimeError Bool)
    (runBody : InterpState → Except RuntimeError (LoopControl × InterpState))
    (capMsg : String) (range : SourceRange) :
    Nat → InterpState → Nat → (Except RuntimeError InterpState) × Nat
  | remaining, st, count =>
    match evalCond st with
    | .error e => (.error e, count + 1)
    | .ok c =>
      if !c then (.ok st, count + 1)
      else
        match remaining with
        | 0 => (.error ⟨capMsg, range⟩, count + 1)
        | r + 1 =>
          match runBody st with
          | .error e => (.error e, count + 1)
          | .ok (control, st') =>
            if control = .exit then (.ok st', count + 1)
            else runWhileLoop evalCond runBody capMsg range r st' (count + 1)

/-- The numeric domain of a FOR iterator (`bigint` for LINT bindings,
a double otherwise); mixed-mode combinations cannot occur. -/
inductive ForNum
  | num (q : ℚ)
  | big (i : Int)
deriving DecidableEq, Repr

/-- Iterator increment (`current + step` in the active mode). -/
def ForNum.add : ForNum → ForNum → ForNum
  | .num a, .num b => .num (a + b)
  | .big a, .big b => .big (a + b)
  | a, _ => a

/-- Zero test of the step. -/
def ForNum.isZero : ForNum → Bool
  | .num q => q = 0
  | .big i => i = 0

/-- Model of the `shouldContinue` closure of `executeFor`. -/
def forShouldContinue (stepN current endN : ForNum) : Bool :=
  match stepN, current, endN with
  | .big sp, .big c, .big e => if 0 < sp then c ≤ e else e ≤ c
  | .num sp, .num c, .num e => if 0 < sp then c ≤ e else e ≤ c
  | _, _, _ => false

/-- The fueled iteration loop of `executeFor`: test `shouldContinue`,
throw the cap failure once the fuel is exhausted, run the body, stop on
EXIT, otherwise advance the iterator, write it back through the binding
and continue from the written-back value.  The second component counts
continuation-condition evaluations. -/
def runForLoop
    (runBody : InterpState → Except RuntimeError (LoopControl × InterpState))
    (stepWrite : ForNum → InterpState →
      Except RuntimeError (ForNum × ExecutionEffect × InterpState))
    (stepN endN : ForNum) (capMsg : String) (range : SourceRange) :
    Nat → ForNum → InterpState → List ExecutionEffect → Nat →
    (Except RuntimeError (InterpState × List ExecutionEffect)) × Nat
  | remaining, current, st, effects, count =>
    if !forShouldContinue stepN current endN then (.ok (st, effects), count + 1)
    else
      match remaining with
      | 0 => (.error ⟨capMsg, range⟩, count + 1)
      | r + 1 =>
        match runBody st with
        | .error e => (.error e, count + 1)
        | .ok (control, st') =>
          if control = .exit then (.ok (st', effects), count + 1)
          else
            let current' := current.add stepN
            match stepWrite current' st' with
            | .error e => (.error e, count + 1)
            | .ok (current'', effect, st'') =>
              runForLoop runBody stepWrite stepN endN capMsg range r current''
                st'' (effects ++ [effect]) (count + 1)

mutual

/-- Call-depth budget of one statement: an upper bound on the depth of
mutual interpreter calls its execution can make (loop iterations re-use
the fuel of loop entry, so only nesting counts). -/
def stmtBudget : IrStatement → Nat
  | .assignment _ _ _ => 1
  | .ifS branches _ => 1 + ifBranchesBudget branches
  | .whileS _ body _ => 1 + stmtListBudget body
  | .caseS _ cases elseBranch _ =>
    1 + caseListBudget cases + elseBudget elseBranch
  | .forS _ _ _ _ _ body _ => 2 + stmtListBudget body
  | .exitS _ => 1
  | .continueS _ => 1
termination_by structural s => s

/-- Call-depth budget of a statement block. -/
def stmtListBudget : List IrStatement → Nat
  | [] => 1
  | s :: rest => 1 + stmtBudget s + stmtListBudget rest
termination_by structural l => l

/-- Call-depth budget of an if/elsif/else branch list. -/
def ifBranchesBudget : List (Option IrExpression × List IrStatement) → Nat
  | [] => 1
  | (_, ss) :: rest => 1 + stmtListBudget ss + ifBranchesBudget rest
termination_by structural l => l

/-- Call-depth budget of a case branch list. -/
def caseListBudget : List (List IrCaseSelector × List IrStatement) → Nat
  | [] => 1
  | (_, ss) :: rest => 1 + stmtListBudget ss + caseListBudget rest
termination_by structural l => l

/-- Call-depth budget of an optional else block. -/
def elseBudget : Option (List IrStatement) → Nat
  | none => 1
  | some ss => 1 + stmtListBudget ss
termination_by structural o => o

end

mutual

/-- Model of `executeStatement`.  The fuel is a call-depth budget: every
mutual call decrements it while its structural argument shrinks, so any
budget above the statement's size can never run out (loop iterations
re-enter the body at the fuel of loop entry and consume none of it). -/
def executeStatement (fuel : Nat) (ctx : InterpCtx) (statement : IrStatement)
    (inLoop : Bool) (st : InterpState) :
    Except RuntimeError (LoopControl × InterpState) :=
  match fuel with
  | 0 => .error ⟨"Statement nesting budget exhausted", {}⟩
  | fuel' + 1 =>
    match statement with
    | .assignment target expression range =>
      executeAssignment ctx target expression range st
    | .ifS branches _ => executeIfBranches fuel' ctx branches inLoop st
    | .whileS condition body range =>
      let res := runWhileLoop
        (fun sst =>
          match evaluateExpression ctx sst.plc condition with
          | .error e => .error e
          | .ok v => toBoolean v condition.range)
        (fun sst => executeBlock fuel' ctx body true sst)
        ("WHILE loop exceeded " ++ toString ctx.maxLoopIterations ++ " iterations")
        range ctx.maxLoopIterations st 0
      match res.1 with
      | .error e => .error e
      | .ok st' => .ok (.normal, st')
    | .caseS discriminant cases elseBranch _ =>
      match evaluateExpression ctx st.plc discriminant with
      | .error e => .error e
      | .ok d => executeCaseList fuel' ctx d cases elseBranch inLoop st
    | .forS iterator iteratorRange initial endE step body range =>
      executeForStmt fuel' ctx iterator iteratorRange initial endE step body
        range st
    | .exitS range =>
      if !inLoop then .error ⟨"EXIT may only be used inside a loop", range⟩
      else .ok (.exit, st)
    | .continueS range =>
      if !inLoop then .error ⟨"CONTINUE may only be used inside a loop", range⟩
      else .ok (.continue_, st)
termination_by structural fuel

/-- Model of `executeIf` over the branch list. -/
def executeIfBranches (fuel : Nat) (ctx : InterpCtx)
    (branches : List (Option IrExpression × List IrStatement))
    (inLoop : Bool) (st : InterpState) :
    Except RuntimeError (LoopControl × InterpState) :=
  match fuel with
  | 0 => .error ⟨"Statement nesting budget exhausted", {}⟩
  | fuel' + 1 =>
    match branches with
    | [] => .ok (.normal, st)
    | (condition, statements) :: rest =>
      match condition with
      | none => executeBlock fuel' ctx statements inLoop st
      | some c =>
        match evaluateExpression ctx st.plc c with
        | .error e => .error e
        | .ok v =>
          match toBoolean v c.range with
          | .error e => .error e
          | .ok true => executeBlock fuel' ctx statements inLoop st
          | .ok false => executeIfBranches fuel' ctx rest inLoop st
termination_by structural fuel

/-- Model of `executeCase` over the branch list (first matching branch
wins, then the else branch, then a no-op). -/
def executeCaseList (fuel : Nat) (ctx : InterpCtx)
    (discriminant : ExecutionValue)
    (cases : List (List IrCaseSelector × List IrStatement))
    (elseBranch : Option (List IrStatement)) (inLoop : Bool)
    (st : InterpState) : Except RuntimeError (LoopControl × InterpState) :=
  match fuel with
  | 0 => .error ⟨"Statement nesting budget exhausted", {}⟩
  | fuel' + 1 =>
    match cases with
    | [] =>
      match elseBranch with
      | some statements => executeBlock fuel' ctx statements inLoop st
      | none => .ok (.normal, st)
    | (selectors, statements) :: rest =>
      match caseBranchMatches ctx st.plc discriminant selectors with
      | .error e => .error e
      | .ok true => executeBlock fuel' ctx statements inLoop st
      | .ok false =>
        executeCaseList fuel' ctx discriminant rest elseBranch inLoop st
termination_by structural fuel

/-- Model of `executeFor` (iterator resolution, the initial write, the
numeric mode selection, the zero-step failure, and the fueled loop). -/
def executeForStmt (fuel : Nat) (ctx : InterpCtx) (iterator : String)
    (iteratorRange : SourceRange) (initial endE : IrExpression)
    (step : Option IrExpression) (body : List IrStatement)
    (range : SourceRange) (st : InterpState) :
    Except RuntimeError (LoopControl × InterpState) :=
  match fuel with
  | 0 => .error ⟨"Statement nesting budget exhausted", {}⟩
  | fuel' + 1 =>
    match aGet ctx.symbolTable iterator with
    | none =>
      .error ⟨"Variable \"" ++ iterator ++ "\" is not bound to PLC memory",
        iteratorRange⟩
    | some binding =>
      let useBigInt := binding.dataType = .LINT
      let toForNum : JsVal → SourceRange → Except RuntimeError ForNum :=
        fun v r =>
          if useBigInt then (toBigInt ⟨v, .LINT⟩ r).map .big
          else (toNumber ⟨v, binding.dataType⟩ r).map .num
      match evaluateExpression ctx st.plc initial with
      | .error e => .error e
      | .ok initialValue =>
        match writeBinding st binding initialValue initial.range with
        | .error e => .error e
        | .ok (initEffect, st1) =>
          match toForNum initEffect.value range with
          | .error e => .error e
          | .ok current0 =>
            match evaluateExpression ctx st1.plc endE with
            | .error e => .error e
            | .ok endValue =>
              let endConv : Except RuntimeError ForNum :=
                if useBigInt then (toBigInt endValue endE.range).map .big
                else (toNumber endValue endE.range).map .num
              match endConv with
              | .error e => .error e
              | .ok endN =>
                let stepRange := (step.map IrExpression.range).getD range
                let stepValue : Except RuntimeError ExecutionValue :=
                  match step with
                  | some se => evaluateExpression ctx st1.plc se
                  | none =>
                    .ok (if useBigInt then ⟨.vBig 1, .LINT⟩
                         else ⟨.vNum 1, binding.dataType⟩)
                match stepValue with
                | .error e => .error e
                | .ok sv =>
                  let stepConv : Except RuntimeError ForNum :=
                    if useBigInt then (toBigInt sv stepRange).map .big
                    else (toNumber sv stepRange).map .num
                  match stepConv with
                  | .error e => .error e
                  | .ok stepN =>
                    if stepN.isZero then
                      .error ⟨"FOR loop step cannot be zero", range⟩
                    else
                      let res := runForLoop
                        (fun sst => executeBlock fuel' ctx body true sst)
                        (fun cur sst =>
                          let nextValue : ExecutionValue :=
                            match cur with
                            | .big i => ⟨.vBig i, .LINT⟩
                            | .num q => ⟨.vNum q, binding.dataType⟩
                          match writeBinding sst binding nextValue range with
                          | .error e => .error e
                          | .ok (effect, sst') =>
                            match toForNum effect.value range with
                            | .error e => .error e
                            | .ok cur'' => .ok (cur'', effect, sst'))
                        stepN endN
                        ("FOR loop exceeded " ++ toString ctx.maxLoopIterations ++
                          " iterations")
                        range ctx.maxLoopIterations current0 st1 [initEffect] 0
                      match res.1 with
                      | .error e => .error e
                      | .ok (st2, effects) =>
                        let st3 :=
                          if ctx.traceEnabled && effects ≠ [] then
                            { st2 with trace := st2.trace ++ [⟨range, effects⟩] }
                          else st2
                        .ok (.normal, st3)
termination_by structural fuel

/-- Model of `executeBlock`. -/
def executeBlock (fuel : Nat) (ctx : InterpCtx) (statements : List IrStatement)
    (inLoop : Bool) (st : InterpState) :
    Except RuntimeError (LoopControl × InterpState) :=
  match fuel with
  | 0 => .error ⟨"Statement nesting budget exhausted", {}⟩
  | fuel' + 1 =>
    match statements with
    | [] => .ok (.normal, st)
    | statement :: rest =>
      match executeStatement fuel' ctx statement inLoop st with
      | .error e => .error e
      | .ok (control, st') =>
        if control ≠ .normal then .ok (control, st')
        else executeBlock fuel' ctx rest inLoop st'
termination_by structural fuel

end

/-- Model of `buildSymbolTable`. -/
def buildSymbolTable (vars : List IrVariable) (options : ExecutionOptions) :
    Except RuntimeError (List (String × SymbolBinding)) :=
  match vars with
  | [] => .ok []
  | variable_ :: rest =>
    match aGet options.symbols variable_.name with
    | none =>
      .error ⟨"No binding provided for variable \"" ++ variable_.name ++ "\"",
        variable_.range⟩
    | some bindingInput =>
      let binding : SymbolBinding :=
        match bindingInput with
        | .plain address =>
          { name := variable_.name, address := address,
            dataType := variable_.dataType,
            stringLength := variable_.stringLength, range := variable_.range }
        | .obj address dataType stringLength =>
          { name := variable_.name, address := address,
            dataType := dataType.getD variable_.dataType,
            stringLength :=
              match stringLength with
              | some n => some n
              | none => variable_.stringLength,
            range := variable_.range }
      if binding.address = "" then
        .error ⟨"Binding for variable \"" ++ variable_.name ++
          "\" is missing an address", variable_.range⟩
      else
        match buildSymbolTable rest options with
        | .error e => .error e
        | .ok table => .ok (aSet table variable_.name binding)

/-- Model of `initializeVariables`. -/
def initializeVariables (ctx : InterpCtx) (vars : List IrVariable)
    (st : InterpState) : Except RuntimeError InterpState :=
  match vars with
  | [] => .ok st
  | variable_ :: rest =>
    match variable_.initializer with
    | none => initializeVariables ctx rest st
    | some init =>
      match aGet ctx.symbolTable variable_.name with
      | none => initializeVariables ctx rest st
      | some binding =>
        match evaluateExpression ctx st.plc init with
        | .error e => .error e
        | .ok value =>
          match writeBinding st binding value init.range with
          | .error e => .error e
          | .ok (_, st') => initializeVariables ctx rest st'

/-- Model of the top-level statement loop of `execute` (each statement
is run with its own nesting budget, which can never run out). -/
def executeTopLevel (ctx : InterpCtx) (statements : List IrStatement)
    (st : InterpState) : Except RuntimeError InterpState :=
  match statements with
  | [] => .ok st
  | statement :: rest =>
    match executeStatement (stmtBudget statement) ctx statement false st with
    | .error e => .error e
    | .ok (_, st') => executeTopLevel ctx rest st'

/-- Model of `executeProgram` (the returned snapshot is represented by
the final facade state; the trace is returned when enabled). -/
def executeProgram (program : IrProgram) (state : PlcStateImpl)
    (options : ExecutionOptions) :
    Except RuntimeError (PlcStateImpl × List ExecutionTraceEntry) :=
  match buildSymbolTable program.vars options with
  | .error e => .error e
  | .ok table =>
    let ctx : InterpCtx :=
      { maxLoopIterations := options.maxLoopIterations.getD 1000,
        traceEnabled := options.trace,
        addressTypes := options.addressTypes, symbolTable := table }
    match initializeVariables ctx program.vars ⟨state, []⟩ with
    | .error e => .error e
    | .ok st1 =>
      match executeTopLevel ctx program.statements st1 with
      | .error e => .error e
      | .ok st2 => .ok (st2.plc, st2.trace)

/-! ### The parse-tree statement dispatch of the IR builder
(`IrBuilder.buildStatement`)

The builder translates one parse-tree statement node by switching on the
node's kind; the kinds below are those of the grammar's statement
alternatives (the loop-control statements are produced by the parser and
executed by the interpreter's `executeStatement`).  The model records the
dispatch: which kinds the switch translates, and that every other kind
falls to the `default` branch throwing the Build failure with the node's
range. -/

/-- The statement node kinds of the parse tree. -/
inductive AstStatementKind
  | assignmentStatement
  | ifStatement
  | whileStatement
  | switchStatement
  | forStatement
  | exitStatement
  | continueStatement
deriving DecidableEq, Repr

/-- The switch of `buildStatement`: the translated kinds succeed, every
other kind throws `Unsupported statement type` carrying the node's
range. -/
def buildStatementDispatch (kind : AstStatementKind) (range : SourceRange) :
    Except (String × SourceRange) Unit :=
  match kind with
  | .assignmentStatement => .ok ()
  | .ifStatement => .ok ()
  | .whileStatement => .ok ()
  | .switchStatement => .ok ()
  | .forStatement => .ok ()
  | _ => .error ("Unsupported statement type", range)

/-! ### Concrete programs, configurations and states used by the claims -/

/-- The empty source range (positions are diagnostic only). -/
def r0 : SourceRange := {}

/-- State with a 4-byte flag (M) area, as configured for the FOR demo. -/
def forDemoState : PlcStateImpl := { flags := some (WordArea.ofSize 4) }

/-- IR of `total := 0; FOR i := 0 TO 4 BY 2 DO total := total + i
END_FOR;` with INT variables `total` and `i`. -/
def forDemoProgram : IrProgram :=
  { vars := [{ name := "total", dataType := .INT },
             { name := "i", dataType := .INT }],
    statements := [
      .assignment (.varRef "total" r0) (.literal (.vNum 0) .INT r0) r0,
      .forS "i" r0 (.literal (.vNum 0) .INT r0) (.literal (.vNum 4) .INT r0)
        (some (.literal (.vNum 2) .INT r0))
        [ .assignment (.varRef "total" r0)
            (.binary .ADD (.varRef "total" r0) (.varRef "i" r0) r0) r0 ] r0 ] }

/-- Bindings `total ↦ MW0`, `i ↦ MW2`, with tracing on. -/
def forDemoOptions : ExecutionOptions :=
  { trace := true,
    symbols := [("total", .plain "MW0"), ("i", .plain "MW2")] }

/-- Mutually recursive FB types (`A` contains a `B`, `B` contains an `A`)
with a declared instance of `A`. -/
def cyclicConfig : OptimizedDbStore.OptimizedDbConfiguration :=
  { types := [("A", [.fb "inner" "B"]), ("B", [.fb "inner" "A"])],
    instances := [{ name := "Motor", typeName := "A" }] }

/-- A directly self-referential FB type with a declared instance. -/
def selfRefConfig : OptimizedDbStore.OptimizedDbConfiguration :=
  { types := [("S", [.fb "self" "S"])],
    instances := [{ name := "Drive", typeName := "S" }] }

/-- The same mutually recursive registry as `cyclicConfig`, but with no
declared instances. -/
def cyclicUnreferencedConfig : OptimizedDbStore.OptimizedDbConfiguration :=
  { types := [("A", [.fb "inner" "B"]), ("B", [.fb "inner" "A"])],
    instances := [] }

/-- Program assigning the integer literal 300 to a BYTE variable. -/
def byteOverflowProgram : IrProgram :=
  { vars := [{ name := "b", dataType := .BYTE }],
    statements := [
      .assignment (.varRef "b" r0) (.literal (.vNum 300) .INT r0) r0 ] }

/-- Binding `b ↦ MB0` over a 1-byte flag area. -/
def byteOverflowOptions : ExecutionOptions :=
  { symbols := [("b", .plain "MB0")] }

/-- State with a 1-byte flag area for the BYTE overflow program. -/
def byteOverflowState : PlcStateImpl := { flags := some (WordArea.ofSize 1) }

/-- The integer range of the destination types whose assignment coercion
clamps in the spec's description (`normalizeForType`'s `clampInteger`
targets). -/
def intBounds : SclDataType → Option (Int × Int)
  | .BYTE => some (0, 255)
  | .WORD => some (0, 65535)
  | .DWORD => some (0, 4294967295)
  | .SINT => some (-128, 127)
  | .INT => some (-32768, 32767)
  | .DINT => some (-2147483648, 2147483647)
  | .DATE => some (0, 65535)
  | .TOD => some (0, 4294967295)
  | _ => none

/-- `clampInteger`'s result, as a single conditional: the truncated value
when it lies inside the bounds, the range failure otherwise. -/
theorem clampInteger_eq (q : ℚ) (lo hi : Int) (r : SourceRange) :
    clampInteger q lo hi r =
      (if lo ≤ jsTrunc q ∧ jsTrunc q ≤ hi then .ok (jsTrunc q)
       else .error ⟨"Value " ++ toString (jsTrunc q) ++
         " is outside allowed range [" ++ toString lo ++ ", " ++
         toString hi ++ "]", r⟩) := by
  unfold clampInteger
  by_cases h1 : jsTrunc q < lo
  · rw [if_neg (by omega : ¬(lo ≤ jsTrunc q ∧ jsTrunc q ≤ hi))]
    simp [h1]
  · by_cases h2 : hi < jsTrunc q
    · rw [if_neg (by omega : ¬(lo ≤ jsTrunc q ∧ jsTrunc q ≤ hi))]
      simp [h1, h2]
    · rw [if_pos (by omega : lo ≤ jsTrunc q ∧ jsTrunc q ≤ hi)]
      simp [h1, h2]

/-- `clampInteger` followed by the number wrapper, as the integer arms of
`normalizeForType` use it. -/
theorem clampMap_eq (q : ℚ) (lo hi : Int) (r : SourceRange) :
    (clampInteger q lo hi r).map (fun i => JsVal.vNum (i : ℚ)) =
      (if lo ≤ jsTrunc q ∧ jsTrunc q ≤ hi then
        Except.ok (JsVal.vNum ((jsTrunc q : Int) : ℚ))
       else Except.error ⟨"Value " ++ toString (jsTrunc q) ++
         " is outside allowed range [" ++ toString lo ++ ", " ++
         toString hi ++ "]", r⟩) := by
  rw [clampInteger_eq]
  by_cases hc : lo ≤ jsTrunc q ∧ jsTrunc q ≤ hi
  · rw [if_pos hc, if_pos hc]; rfl
  · rw [if_neg hc, if_neg hc]; rfl


/-! ### The claims -/

/-- C9: executing `total := 0; FOR i := 0 TO 4 BY 2 DO total := total + i
END_FOR;` with `total ↦ MW0` and `i ↦ MW2` terminates normally; the final
reads give `i = 6` and `total = 6`, and the FOR statement's trace entry
shows the iterator written back through its binding on every iteration
(the initial write of 0 followed by the write-backs 2, 4 and 6). -/
theorem C9_for_demo_program :
    ((executeProgram forDemoProgram forDemoState forDemoOptions).map (fun p =>
      (p.1.readInt "MW2", p.1.readInt "MW0",
        p.2.map (fun t => t.effects.filterMap (fun e =>
          if e.address = "MW2" then some e.value else none))))) =
    .ok (.ok (.vNum 6), .ok (.vNum 6),
      [[], [], [], [], [.vNum 0, .vNum 2, .vNum 4, .vNum 6]]) := by rfl

/-- C8 (amended): a cyclic FB type reference that expansion actually
reaches from a declared instance fails construction with the
recursive-reference error, both for a mutual `A ↔ B` cycle and for a
direct self-reference. -/
theorem C8_cycle_reached_fails :
    OptimizedDbStore.construct (some cyclicConfig) =
      .error "Recursive FB type reference detected at \"Motor.inner.inner\" for type \"A\"" ∧
    OptimizedDbStore.construct (some selfRefConfig) =
      .error "Recursive FB type reference detected at \"Drive.self\" for type \"S\"" := by
  exact ⟨rfl, rfl⟩

/-- C8 (counterexample): the same mutually recursive registry constructs
successfully when no declared instance references it — expansion is
driven by the declared instances, so a cycle that is never reached does
not fail construction, contradicting the claim's "for every schema
registry in which some FB type directly or transitively references
itself". -/
theorem C8_unreferenced_cycle_constructs :
    (OptimizedDbStore.construct (some cyclicUnreferencedConfig)).isOk = true := by
  rfl

/-- C5: the parse-tree statement kinds `exitStatement` and
`continueStatement` fall into `buildStatement`'s default branch and fail
with the Build error carrying the node's range, although the IR and the
interpreter support the corresponding loop-control statements (an EXIT
inside a loop yields the exit control, CONTINUE the continue control):
the builder's dispatch diverges from the documented statement set. -/
theorem C5_builder_rejects_loop_controls :
    (∀ r : SourceRange,
      buildStatementDispatch .exitStatement r =
        .error ("Unsupported statement type", r) ∧
      buildStatementDispatch .continueStatement r =
        .error ("Unsupported statement type", r)) ∧
    (∀ (fuel : Nat) (ctx : InterpCtx) (r : SourceRange) (st : InterpState),
      executeStatement (fuel + 1) ctx (.exitS r) true st = .ok (.exit, st) ∧
      executeStatement (fuel + 1) ctx (.continueS r) true st =
        .ok (.continue_, st)) := by
  exact ⟨fun r => ⟨rfl, rfl⟩, fun fuel ctx r st => ⟨rfl, rfl⟩⟩

/-- C6 (counterexample): assigning the integer literal 300 to a variable
of type BYTE does not clamp to 255 — the coercion raises the runtime
range failure and the program aborts without writing. -/
theorem C6_overflow_raises_instead_of_clamping :
    normalizeForType ⟨.vNum 300, .INT⟩ .BYTE r0 =
      .error ⟨"Value 300 is outside allowed range [0, 255]", r0⟩ ∧
    executeProgram byteOverflowProgram byteOverflowState byteOverflowOptions =
      .error ⟨"Value 300 is outside allowed range [0, 255]", r0⟩ := by
  exact ⟨rfl, rfl⟩

/-- C6 (amended): for a destination of integer data type, the assignment
coercion truncates the fractional part of the evaluated number and then
range-checks it: an in-range value is produced truncated, an out-of-range
value raises the runtime range failure (there is no clamping to the
bounds). -/
theorem C6_integer_coercion (t : SclDataType) (lo hi : Int) (q : ℚ)
    (src : SclDataType) (r : SourceRange)
    (h : intBounds t = some (lo, hi)) :
    normalizeForType ⟨.vNum q, src⟩ t r =
      (if lo ≤ jsTrunc q ∧ jsTrunc q ≤ hi then .ok (.vNum ((jsTrunc q : Int) : ℚ))
       else .error ⟨"Value " ++ toString (jsTrunc q) ++
         " is outside allowed range [" ++ toString lo ++ ", " ++
         toString hi ++ "]", r⟩) := by
  cases t with
  | BOOL => exact Option.noConfusion h
  | LINT => exact Option.noConfusion h
  | REAL => exact Option.noConfusion h
  | LREAL => exact Option.noConfusion h
  | TIME => exact Option.noConfusion h
  | STRING => exact Option.noConfusion h
  | BYTE =>
    injection h with h2; injection h2 with hlo hhi; subst hlo; subst hhi
    exact clampMap_eq q 0 255 r
  | WORD =>
    injection h with h2; injection h2 with hlo hhi; subst hlo; subst hhi
    exact clampMap_eq q 0 65535 r
  | DWORD =>
    injection h with h2; injection h2 with hlo hhi; subst hlo; subst hhi
    exact clampMap_eq q 0 4294967295 r
  | SINT =>
    injection h with h2; injection h2 with hlo hhi; subst hlo; subst hhi
    exact clampMap_eq q (-128) 127 r
  | INT =>
    injection h with h2; injection h2 with hlo hhi; subst hlo; subst hhi
    exact clampMap_eq q (-32768) 32767 r
  | DINT =>
    injection h with h2; injection h2 with hlo hhi; subst hlo; subst hhi
    exact clampMap_eq q (-2147483648) 2147483647 r
  | DATE =>
    injection h with h2; injection h2 with hlo hhi; subst hlo; subst hhi
    exact clampMap_eq q 0 65535 r
  | TOD =>
    injection h with h2; injection h2 with hlo hhi; subst hlo; subst hhi
    exact clampMap_eq q 0 4294967295 r

/-- C6 (witness): the BYTE bounds instantiate the coercion theorem; at
value 300.5 the truncated value 300 is outside [0, 255] and the coercion
fails with the range error. -/
theorem C6_integer_coercion_witness :
    intBounds .BYTE = some (0, 255) ∧
    normalizeForType ⟨.vNum (601/2), .INT⟩ .BYTE r0 =
      .error ⟨"Value 300 is outside allowed range [0, 255]", r0⟩ := by
  refine ⟨rfl, ?_⟩
  rw [C6_integer_coercion .BYTE 0 255 (601/2) .INT r0 rfl]
  rfl

/-! ### Loop cap (C3): helper inductions over the fueled loop runners -/

/-- A `while` loop whose condition always evaluates to true and whose
body always completes without EXIT burns all its fuel: it ends in the cap
failure after exactly `count + remaining + 1` condition evaluations. -/
theorem runWhileLoop_forever
    (evalCond : InterpState → Except RuntimeError Bool)
    (runBody : InterpState → Except RuntimeError (LoopControl × InterpState))
    (capMsg : String) (range : SourceRange)
    (hcond : ∀ sst, evalCond sst = .ok true)
    (hbody : ∀ sst, ∃ c sst', runBody sst = .ok (c, sst') ∧ c ≠ .exit) :
    ∀ (remaining : Nat) (st : InterpState) (count : Nat),
      runWhileLoop evalCond runBody capMsg range remaining st count =
        (.error ⟨capMsg, range⟩, count + remaining + 1) := by
  intro remaining
  induction remaining with
  | zero =>
    intro st count
    rw [runWhileLoop, hcond st]
    rfl
  | succ r ih =>
    intro st count
    rw [runWhileLoop, hcond st]
    obtain ⟨c, st', hrun, hc⟩ := hbody st
    simp only [Bool.not_true, Bool.false_eq_true, if_false, hrun]
    rw [if_neg hc, ih st' (count + 1)]
    have : count + 1 + r + 1 = count + (r + 1) + 1 := by omega
    rw [this]

/-- A `for` loop whose continuation condition holds on every reachable
iterate (tracked by the invariant `GOOD` on iterates and `PRE` on
states) burns all its fuel: it ends in the cap failure after exactly
`count + remaining + 1` continuation-condition evaluations. -/
theorem runForLoop_forever
    (runBody : InterpState → Except RuntimeError (LoopControl × InterpState))
    (stepWrite : ForNum → InterpState →
      Except RuntimeError (ForNum × ExecutionEffect × InterpState))
    (stepN endN : ForNum) (capMsg : String) (range : SourceRange)
    (PRE : InterpState → Prop) (GOOD : ForNum → Nat → Prop)
    (hbody : ∀ sst, PRE sst →
      ∃ c sst', runBody sst = .ok (c, sst') ∧ c ≠ .exit ∧ PRE sst')
    (hstep : ∀ cur r sst, GOOD cur (r + 1) → PRE sst →
      ∃ cur' eff sst', stepWrite (cur.add stepN) sst = .ok (cur', eff, sst') ∧
        GOOD cur' r ∧ PRE sst')
    (hcont : ∀ cur r, GOOD cur r → forShouldContinue stepN cur endN = true) :
    ∀ (remaining : Nat) (current : ForNum) (st : InterpState)
      (effects : List ExecutionEffect) (count : Nat),
      GOOD current remaining → PRE st →
      runForLoop runBody stepWrite stepN endN capMsg range remaining current
          st effects count =
        (.error ⟨capMsg, range⟩, count + remaining + 1) := by
  intro remaining
  induction remaining with
  | zero =>
    intro current st effects count hg hp
    rw [runForLoop, hcont current 0 hg]
    rfl
  | succ r ih =>
    intro current st effects count hg hp
    rw [runForLoop, hcont current (r + 1) hg]
    obtain ⟨c, st', hrun, hc, hp'⟩ := hbody st hp
    simp only [Bool.not_true, Bool.false_eq_true, if_false, hrun]
    obtain ⟨cur', eff, sst', hw, hg', hp''⟩ := hstep current r st' hg hp'
    rw [if_neg hc, hw]
    show runForLoop runBody stepWrite stepN endN capMsg range r cur' sst'
      (effects ++ [eff]) (count + 1) = _
    rw [ih cur' sst' (effects ++ [eff]) (count + 1) hg' hp'']
    have : count + 1 + r + 1 = count + (r + 1) + 1 := by omega
    rw [this]

/-! ### Facade `writeWith` characterizations (shared by several claims) -/

/-- A `writeWith` whose parser, area resolution and mutator succeed, with
the written window in bounds before and after, reports success and leaves
the state with the mutated area installed (whether or not a change event
is dispatched). -/
theorem writeWith_ok (s : PlcStateImpl) (address : String)
    (desc : ParsedAddress) (byteLength : Nat)
    (mutator : WordArea → ParsedAddress → Except String WordArea)
    (notify : Bool) (symbolType : Option SclDataType) (rawValue : JsVal)
    (area area' : WordArea)
    (ha : s.resolveArea desc.region = .ok area)
    (hm : mutator area desc = .ok area')
    (hb : desc.byteOffset + byteLength ≤ area.byteLength)
    (hb' : desc.byteOffset + byteLength ≤ area'.byteLength) :
    (s.writeWith address (.ok desc) byteLength mutator notify symbolType
        rawValue).result = .ok () ∧
    (s.writeWith address (.ok desc) byteLength mutator notify symbolType
        rawValue).state = s.updateArea desc.region area' := by
  have hread : area.readBytes desc.byteOffset byteLength =
      .ok (listSlice area.data desc.byteOffset byteLength) := by
    unfold WordArea.readBytes WordArea.assertRange
    rw [if_pos (by unfold WordArea.byteLength at hb; omega)]
    rfl
  have hread' : area'.readBytes desc.byteOffset byteLength =
      .ok (listSlice area'.data desc.byteOffset byteLength) := by
    unfold WordArea.readBytes WordArea.assertRange
    rw [if_pos (by unfold WordArea.byteLength at hb'; omega)]
    rfl
  unfold PlcStateImpl.writeWith
  simp only [ha, hread, hm, hread']
  refine ⟨?_, ?_⟩ <;> split <;> rfl

/-- The REAL iterator binding `i ↦ MD0` of the FOR family of C3. -/
def c3Binding : SymbolBinding :=
  { name := "i", address := "MD0", dataType := .REAL, stringLength := none,
    range := r0 }

/-- Context with iteration cap `maxIter` and the iterator binding. -/
def c3Ctx (maxIter : Nat) : InterpCtx :=
  { maxLoopIterations := maxIter, traceEnabled := false, addressTypes := [],
    symbolTable := [("i", c3Binding)] }

/-- `FOR i := 0 TO endQ DO END_FOR` (default step 1, empty body). -/
def c3For (endQ : ℚ) : IrStatement :=
  .forS "i" r0 (.literal (.vNum 0) .REAL r0) (.literal (.vNum endQ) .REAL r0)
    none [] r0

/-- The interpreter state of the C3 FOR family: a flag area holding
`d`, with trace `tr`. -/
def c3State (d : List Nat) (tr : List ExecutionTraceEntry) : InterpState :=
  ⟨{ flags := some ⟨d⟩ }, tr⟩

/-- The parsed descriptor of `MD0` (flag area, offset 0, DWORD token). -/
def mdDesc : ParsedAddress :=
  { region := .area .M, byteOffset := 0, bitOffset := none,
    notation_ := .DWORD }

/-- Writing the REAL value `qv` through the `i ↦ MD0` binding stores its
binary32 pattern at flag bytes 0–3 and reports the coerced value in the
effect. -/
theorem c3_writeBinding (qv : ℚ) (d : List Nat)
    (tr : List ExecutionTraceEntry) (hd : 4 ≤ d.length) :
    writeBinding (c3State d tr) c3Binding ⟨.vNum qv, .REAL⟩ r0 =
      .ok ({ address := "MD0", dataType := .REAL, value := .vNum qv },
        c3State (listSet d 0 (leBytes 4 (f32Enc qv))) tr) := by
  have hm : (⟨d⟩ : WordArea).writeFloat32 0 qv =
      .ok ⟨listSet d 0 (leBytes 4 (f32Enc qv))⟩ := by
    unfold WordArea.writeFloat32 WordArea.assertAlignment WordArea.assertRange
    rw [if_neg (by norm_num),
      if_pos (show 0 + 4 ≤ (WordArea.mk d).data.length by
        show 0 + 4 ≤ d.length; omega)]
    rfl
  have ha : (c3State d tr).plc.resolveArea (.area .M) = .ok ⟨d⟩ := rfl
  have hb : mdDesc.byteOffset + 4 ≤ (⟨d⟩ : WordArea).byteLength := by
    show 0 + 4 ≤ d.length
    omega
  have hlen : (listSet d 0 (leBytes 4 (f32Enc qv))).length = d.length :=
    listSet_length _ _ _ (by rw [leBytes_length]; omega)
  have hb' : mdDesc.byteOffset + 4 ≤
      (⟨listSet d 0 (leBytes 4 (f32Enc qv))⟩ : WordArea).byteLength := by
    show 0 + 4 ≤ (listSet d 0 (leBytes 4 (f32Enc qv))).length
    omega
  have hww := writeWith_ok (c3State d tr).plc "MD0" mdDesc 4
    (fun area descriptor => area.writeFloat32 descriptor.byteOffset qv)
    true (some .REAL) (.vNum qv) ⟨d⟩ ⟨listSet d 0 (leBytes 4 (f32Enc qv))⟩
    ha hm hb hb'
  have e1 : performWrite (c3State d tr).plc .REAL "MD0" (JsVal.vNum qv) none =
      (c3State d tr).plc.writeWith "MD0" (.ok mdDesc) 4
        (fun area descriptor => area.writeFloat32 descriptor.byteOffset qv)
        true (some .REAL) (.vNum qv) := by
    show (c3State d tr).plc.writeWith "MD0"
        (parseByteAddress "MD0" { byteLength := 4, alignment := some 4 }) 4
        (fun area descriptor => area.writeFloat32 descriptor.byteOffset qv)
        true (some .REAL) (.vNum qv) = _
    rw [show parseByteAddress "MD0" { byteLength := 4, alignment := some 4 } =
      .ok mdDesc from rfl]
  show writeAddress (c3State d tr) "MD0" .REAL ⟨.vNum qv, .REAL⟩ none r0 = _
  unfold writeAddress
  simp only [show normalizeForType ⟨.vNum qv, .REAL⟩ .REAL r0 =
    .ok (.vNum qv) from rfl, e1, hww.1, hww.2]
  rfl

/-- The iteration loop of the C3 FOR family, characterized behaviorally:
a body that completes normally and a step-write that stores the advanced
REAL iterator burn all the fuel and end in the cap failure after
`count + maxIter + 1` continuation evaluations (the continuation
condition holds on every reachable iterate because the end bound is at
least the iteration cap). -/
theorem c3_runForLoop (maxIter : Nat) (endQ : ℚ)
    (tr : List ExecutionTraceEntry)
    (runB : InterpState → Except RuntimeError (LoopControl × InterpState))
    (stepW : ForNum → InterpState →
      Except RuntimeError (ForNum × ExecutionEffect × InterpState))
    (hB : ∀ sst, runB sst = .ok (.normal, sst))
    (hS : ∀ (k : ℚ) (dd : List Nat), 4 ≤ dd.length →
      stepW ((ForNum.num k).add (.num 1)) (c3State dd tr) =
        .ok (.num (k + 1),
          { address := "MD0", dataType := .REAL, value := .vNum (k + 1) },
          c3State (listSet dd 0 (leBytes 4 (f32Enc (k + 1)))) tr))
    (hend : (maxIter : ℚ) ≤ endQ)
    (d1 : List Nat) (hd1 : 4 ≤ d1.length)
    (effects : List ExecutionEffect) (count : Nat) :
    runForLoop runB stepW (.num 1) (.num endQ)
        ("FOR loop exceeded " ++ toString maxIter ++ " iterations") r0
        maxIter (.num 0) (c3State d1 tr) effects count =
      (.error ⟨"FOR loop exceeded " ++ toString maxIter ++ " iterations", r0⟩,
        count + maxIter + 1) := by
  have h := runForLoop_forever runB stepW (.num 1) (.num endQ)
    ("FOR loop exceeded " ++ toString maxIter ++ " iterations") r0
    (fun sst => ∃ dd : List Nat, 4 ≤ dd.length ∧ sst = c3State dd tr)
    (fun cur r => ∃ k : Nat, cur = .num (k : ℚ) ∧ (k : ℚ) + r ≤ endQ)
    (fun sst hp => ⟨.normal, sst, hB sst, by simp, hp⟩)
    ?hstep ?hcont maxIter (.num 0) (c3State d1 tr) effects count
    ⟨0, by norm_num, by simpa using hend⟩ ⟨d1, hd1, rfl⟩
  case hstep =>
    rintro cur r sst ⟨k, rfl, hk⟩ ⟨dd, hdd, rfl⟩
    refine ⟨.num ((k : ℚ) + 1),
      { address := "MD0", dataType := .REAL, value := .vNum ((k : ℚ) + 1) },
      c3State (listSet dd 0 (leBytes 4 (f32Enc ((k : ℚ) + 1)))) tr,
      hS (k : ℚ) dd hdd, ⟨k + 1, by push_cast; ring_nf, by push_cast at hk ⊢; linarith⟩,
      ⟨listSet dd 0 (leBytes 4 (f32Enc ((k : ℚ) + 1))), ?_, rfl⟩⟩
    rw [listSet_length _ _ _ (by rw [leBytes_length]; omega)]
    exact hdd
  case hcont =>
    rintro cur r ⟨k, rfl, hk⟩
    have hr : (0 : ℚ) ≤ (r : ℚ) := by positivity
    have : (k : ℚ) ≤ endQ := by linarith
    simp [forShouldContinue, this]
  rw [h]

/-- C3: a loop whose continuation condition never becomes false aborts
with the Runtime cap failure after at most `maxLoopIterations + 1`
condition evaluations.  First conjunct (WHILE, fully general): when the
condition always evaluates to true and the body always completes without
EXIT, `executeStatement` returns the `WHILE loop exceeded N iterations`
failure, and the loop runner on those very closures performs exactly
`N + 1` condition evaluations.  Second conjunct (FOR, the family
`FOR i := 0 TO endQ DO END_FOR` over a REAL binding with `endQ` at least
the cap): `executeStatement` returns the `FOR loop exceeded N
iterations` failure, and the loop runner on the loop's closures performs
exactly `N + 1` continuation evaluations. -/
theorem C3_loop_cap :
    (∀ (fuel : Nat) (ctx : InterpCtx) (condition : IrExpression)
        (body : List IrStatement) (range : SourceRange) (inLoop : Bool)
        (st : InterpState),
      (∀ sst : InterpState,
        (match evaluateExpression ctx sst.plc condition with
         | .error e => .error e
         | .ok v => toBoolean v condition.range :
          Except RuntimeError Bool) = .ok true) →
      (∀ sst : InterpState, ∃ c sst',
        executeBlock fuel ctx body true sst = .ok (c, sst') ∧ c ≠ .exit) →
      executeStatement (fuel + 1) ctx (.whileS condition body range) inLoop st =
        .error ⟨"WHILE loop exceeded " ++ toString ctx.maxLoopIterations ++
          " iterations", range⟩ ∧
      (runWhileLoop
        (fun sst =>
          match evaluateExpression ctx sst.plc condition with
          | .error e => .error e
          | .ok v => toBoolean v condition.range)
        (fun sst => executeBlock fuel ctx body true sst)
        ("WHILE loop exceeded " ++ toString ctx.maxLoopIterations ++
          " iterations")
        range ctx.maxLoopIterations st 0).2 = ctx.maxLoopIterations + 1) ∧
    (∀ (fuel maxIter : Nat) (endQ : ℚ) (d : List Nat)
        (tr : List ExecutionTraceEntry) (inLoop : Bool),
      4 ≤ d.length → (maxIter : ℚ) ≤ endQ →
      executeStatement (fuel + 3) (c3Ctx maxIter) (c3For endQ) inLoop
          (c3State d tr) =
        .error ⟨"FOR loop exceeded " ++ toString maxIter ++ " iterations",
          r0⟩ ∧
      (runForLoop
        (fun sst => executeBlock (fuel + 1) (c3Ctx maxIter) [] true sst)
        (fun cur sst =>
          let nextValue : ExecutionValue :=
            match cur with
            | .big i => ⟨.vBig i, .LINT⟩
            | .num q => ⟨.vNum q, .REAL⟩
          match writeBinding sst c3Binding nextValue r0 with
          | .error e => .error e
          | .ok (effect, sst') =>
            match (toNumber ⟨effect.value, .REAL⟩ r0).map ForNum.num with
            | .error e => .error e
            | .ok cur'' => .ok (cur'', effect, sst'))
        (.num 1) (.num endQ)
        ("FOR loop exceeded " ++ toString maxIter ++ " iterations") r0
        maxIter (.num 0) (c3State (listSet d 0 (leBytes 4 (f32Enc 0))) tr)
        [{ address := "MD0", dataType := .REAL, value := .vNum 0 }] 0).2 =
      maxIter + 1) := by
  constructor
  · intro fuel ctx condition body range inLoop st hcond hbody
    have hrun := runWhileLoop_forever
      (fun sst =>
        match evaluateExpression ctx sst.plc condition with
        | .error e => .error e
        | .ok v => toBoolean v condition.range)
      (fun sst => executeBlock fuel ctx body true sst)
      ("WHILE loop exceeded " ++ toString ctx.maxLoopIterations ++
        " iterations")
      range hcond hbody
    constructor
    · show (match (runWhileLoop
        (fun sst =>
          match evaluateExpression ctx sst.plc condition with
          | .error e => .error e
          | .ok v => toBoolean v condition.range)
        (fun sst => executeBlock fuel ctx body true sst)
        ("WHILE loop exceeded " ++ toString ctx.maxLoopIterations ++
          " iterations")
        range ctx.maxLoopIterations st 0).1 with
        | Except.error e =>
          (Except.error e : Except RuntimeError (LoopControl × InterpState))
        | Except.ok st' => Except.ok (LoopControl.normal, st')) =
        Except.error ⟨"WHILE loop exceeded " ++
          toString ctx.maxLoopIterations ++ " iterations", range⟩
      rw [hrun ctx.maxLoopIterations st 0]
    · rw [hrun ctx.maxLoopIterations st 0]
      show 0 + ctx.maxLoopIterations + 1 = _
      omega
  · intro fuel maxIter endQ d tr inLoop hd hend
    have hd1 : 4 ≤ (listSet d 0 (leBytes 4 (f32Enc 0))).length := by
      rw [listSet_length _ _ _ (by rw [leBytes_length]; omega)]
      exact hd
    have hB : ∀ sst : InterpState,
        executeBlock (fuel + 1) (c3Ctx maxIter) [] true sst =
          .ok (.normal, sst) := fun sst => rfl
    have hwb : ∀ qv : ℚ,
        writeBinding (c3State d tr) c3Binding ⟨.vNum qv, .REAL⟩ r0 =
          .ok ({ address := "MD0", dataType := .REAL, value := .vNum qv },
            c3State (listSet d 0 (leBytes 4 (f32Enc qv))) tr) :=
      fun qv => c3_writeBinding qv d tr hd
    constructor
    · show executeForStmt (fuel + 2) (c3Ctx maxIter) "i" r0
          (.literal (.vNum 0) .REAL r0) (.literal (.vNum endQ) .REAL r0)
          none [] r0 (c3State d tr) =
        .error ⟨"FOR loop exceeded " ++ toString maxIter ++ " iterations", r0⟩
      simp only [executeForStmt, evaluateExpression, IrExpression.range,
        show aGet (c3Ctx maxIter).symbolTable "i" = some c3Binding from rfl,
        show c3Binding.dataType = SclDataType.REAL from rfl,
        show (c3Ctx maxIter).maxLoopIterations = maxIter from rfl,
        reduceCtorEq, if_false, Option.map, Option.getD, hwb 0, toNumber,
        Except.map, ForNum.isZero]
      rw [if_neg (by norm_num : ¬(decide ((1 : ℚ) = 0) = true))]
      rw [c3_runForLoop maxIter endQ tr _ _ hB ?hS hend _ hd1 _ 0]
      case hS =>
        intro k dd hdd
        rw [show (ForNum.num k).add (.num 1) = .num (k + 1) from rfl]
        simp only []
        rw [c3_writeBinding (k + 1) dd tr hdd]
    · rw [c3_runForLoop maxIter endQ tr _ _ hB ?hS2 hend _ hd1 _ 0]
      case hS2 =>
        intro k dd hdd
        rw [show (ForNum.num k).add (.num 1) = .num (k + 1) from rfl]
        simp only []
        rw [c3_writeBinding (k + 1) dd tr hdd]
        rfl
      omega

/-- C3 (witness): both halves at concrete inputs — `WHILE TRUE DO END`
with an empty body and cap 2 aborts with the WHILE cap failure, and
`FOR i := 0 TO 5` over the `i ↦ MD0` REAL binding with cap 2 aborts with
the FOR cap failure. -/
theorem C3_loop_cap_witness :
    executeStatement 2
        { maxLoopIterations := 2, traceEnabled := false, addressTypes := [],
          symbolTable := [] }
        (.whileS (.literal (.vBool true) .BOOL r0) [] r0) false ⟨{}, []⟩ =
      .error ⟨"WHILE loop exceeded 2 iterations", r0⟩ ∧
    executeStatement 3 (c3Ctx 2) (c3For 5) false (c3State [0, 0, 0, 0] []) =
      .error ⟨"FOR loop exceeded 2 iterations", r0⟩ := by
  obtain ⟨hw, hf⟩ := C3_loop_cap
  constructor
  · have h := (hw 1
      { maxLoopIterations := 2, traceEnabled := false, addressTypes := [],
        symbolTable := [] }
      (.literal (.vBool true) .BOOL r0) [] r0 false ⟨{}, []⟩
      (fun sst => rfl)
      (fun sst => ⟨.normal, sst, rfl, by decide⟩)).1
    rw [h]
    rw [show ("WHILE loop exceeded " ++ toString (2 : Nat) ++ " iterations") =
      "WHILE loop exceeded 2 iterations" from by decide]
  · have h := (hf 0 2 5 [0, 0, 0, 0] [] false (by decide)
      (by norm_num)).1
    rw [h]
    rw [show ("FOR loop exceeded " ++ toString (2 : Nat) ++ " iterations") =
      "FOR loop exceeded 2 iterations" from by decide]

/-! ### Unchanged writes dispatch nothing (C4): helper lemmas -/

/-- `Map.set` with a value different from the current entry (or on a
missing key) changes the map. -/
theorem aSet_ne {α : Type} (m : List (String × α)) (k : String) (v d : α)
    (h : (aGet m k).getD d ≠ v) : aSet m k v ≠ m := by
  induction m with
  | nil => simp [aSet]
  | cons p rest ih =>
    obtain ⟨k0, v0⟩ := p
    by_cases hk : k0 = k
    · subst hk
      have hv : v0 ≠ v := by simpa [aGet, List.find?] using h
      simp only [aSet, if_pos rfl]
      intro hc
      injection hc with h1 h2
      injection h1 with h3 h4
      exact hv h4.symm
    · have h' : (aGet rest k).getD d ≠ v := by
        simpa [aGet, List.find?, hk] using h
      simp only [aSet, if_neg hk]
      intro hc
      injection hc with h1 h2
      exact ih h' h2

/-- Diffing a window against itself reports no entries. -/
theorem computeDiff_self (baseOffset : Nat) (bs : List Nat) :
    computeDiffEntries baseOffset bs bs = [] := by
  simp [computeDiffEntries]

/-- A successful `readBytes` returns the slice. -/
theorem readBytes_ok_eq (a : WordArea) (off len : Nat) (bs : List Nat)
    (h : a.readBytes off len = .ok bs) : bs = listSlice a.data off len := by
  unfold WordArea.readBytes WordArea.assertRange at h
  by_cases hb : off + len ≤ a.data.length
  · rw [if_pos hb] at h
    injection h with h1
    exact h1.symm
  · rw [if_neg hb] at h
    exact Except.noConfusion h

/-- A successful `writeBytes` installs the overwritten buffer (and the
window was in bounds). -/
theorem writeBytes_ok_eq (a : WordArea) (off : Nat) (src : List Nat)
    (a' : WordArea) (h : a.writeBytes off src = .ok a') :
    a' = ⟨listSet a.data off src⟩ ∧ off + src.length ≤ a.data.length := by
  unfold WordArea.writeBytes WordArea.assertRange at h
  by_cases hb : off + src.length ≤ a.data.length
  · rw [if_pos hb] at h
    injection h with h1
    exact ⟨h1.symm, hb⟩
  · rw [if_neg hb] at h
    exact Except.noConfusion h

/-- A store write that reports a change produces a store different from
the input (the value map gained or replaced an entry with a different
value). -/
theorem write_changed_ne (store : OptimizedDbStore) (path : String)
    (et : SclDataType) (raw : JsVal) (r : OptimizedDbStore.SymbolWriteResult)
    (store' : OptimizedDbStore)
    (hw : store.write path et raw = .ok (r, store'))
    (hc : r.changed = true) : store' ≠ store := by
  unfold OptimizedDbStore.write at hw
  cases hd : store.describe path et with
  | error e => simp only [hd] at hw; exact Except.noConfusion hw
  | ok desc =>
    simp only [hd] at hw
    cases hco : coerceScalarValue desc.dataType raw desc.stringLength path with
    | error e => simp only [hco] at hw; exact Except.noConfusion hw
    | ok current =>
      simp only [hco] at hw
      injection hw with hw1
      injection hw1 with hr hs
      subst hr
      simp only [Bool.not_eq_eq_eq_not, Bool.not_true] at hc
      rw [← hs, if_pos (by simpa using hc)]
      intro heq
      have hvals := congrArg OptimizedDbStore.values heq
      simp only at hvals
      have hne : (aGet store.values desc.normalizedPath).getD .vUndef ≠
          current := by
        intro hv
        have : valueEquals (store.lookupJs desc.normalizedPath) current =
            true := by
          simp [valueEquals, OptimizedDbStore.lookupJs, hv]
        rw [this] at hc
        exact Bool.noConfusion hc
      exact aSet_ne store.values desc.normalizedPath current .vUndef hne hvals

/-- A symbol write that returns the caller's state unchanged dispatched
no symbol-change event. -/
theorem writeSymbol_state_eq (s : PlcStateImpl) (address : String)
    (dt : SclDataType) (v : JsVal)
    (h : (s.writeSymbol address dt v).state = s) :
    (s.writeSymbol address dt v).events = [] := by
  unfold PlcStateImpl.writeSymbol at h ⊢
  cases hw : s.optimizedDb.write address dt v with
  | error e => simp only [hw]
  | ok pair =>
    obtain ⟨r, db'⟩ := pair
    simp only [hw] at h ⊢
    by_cases hc : r.changed = true
    · exfalso
      rw [if_pos hc] at h
      simp only at h
      have hdb := congrArg PlcStateImpl.optimizedDb h
      simp only at hdb
      exact write_changed_ne s.optimizedDb address dt v r db' hw hc hdb
    · rw [if_neg hc]

/-- Installing a mutated area back without changing the facade state
means the mutated area equals the resolved one. -/
theorem updateArea_resolve_eq (s : PlcStateImpl)
    (region : PlcRegionDescriptor) (area area' : WordArea)
    (hra : s.resolveArea region = .ok area)
    (h : s.updateArea region area' = s) : area' = area := by
  cases region with
  | db ip => simp [PlcStateImpl.resolveArea] at hra
  | area k =>
    cases k with
    | I =>
      have hin := congrArg PlcStateImpl.inputs h
      simp only [PlcStateImpl.updateArea] at hin
      cases hi : s.inputs with
      | none =>
        simp only [PlcStateImpl.resolveArea, hi] at hra
        exact Except.noConfusion hra
      | some a =>
        simp only [PlcStateImpl.resolveArea, hi] at hra
        rw [hi] at hin
        injection hin with hin2
        injection hra with ha
        rw [hin2, ha]
    | Q =>
      have hin := congrArg PlcStateImpl.outputs h
      simp only [PlcStateImpl.updateArea] at hin
      cases hi : s.outputs with
      | none =>
        simp only [PlcStateImpl.resolveArea, hi] at hra
        exact Except.noConfusion hra
      | some a =>
        simp only [PlcStateImpl.resolveArea, hi] at hra
        rw [hi] at hin
        injection hin with hin2
        injection hra with ha
        rw [hin2, ha]
    | M =>
      have hin := congrArg PlcStateImpl.flags h
      simp only [PlcStateImpl.updateArea] at hin
      cases hi : s.flags with
      | none =>
        simp only [PlcStateImpl.resolveArea, hi] at hra
        exact Except.noConfusion hra
      | some a =>
        simp only [PlcStateImpl.resolveArea, hi] at hra
        rw [hi] at hin
        injection hin with hin2
        injection hra with ha
        rw [hin2, ha]

/-- An absolute-area write through `writeWith` that returns the caller's
state unchanged dispatched no area-change event. -/
theorem writeWith_state_eq (s : PlcStateImpl) (address : String)
    (parser : PlcResult ParsedAddress) (byteLength : Nat)
    (mutator : WordArea → ParsedAddress → Except String WordArea)
    (notify : Bool) (symbolType : Option SclDataType) (rawValue : JsVal)
    (h : (s.writeWith address parser byteLength mutator notify symbolType
      rawValue).state = s) :
    (s.writeWith address parser byteLength mutator notify symbolType
      rawValue).events = [] := by
  unfold PlcStateImpl.writeWith at h ⊢
  cases parser with
  | error e =>
    cases symbolType with
    | none => rfl
    | some t =>
      dsimp only at h ⊢
      by_cases hf : shouldAttemptSymbolFallback address e = true
      · rw [if_pos hf] at h ⊢
        exact writeSymbol_state_eq s address t rawValue h
      · rw [if_neg hf]
  | ok desc =>
    dsimp only at h ⊢
    cases hra : s.resolveArea desc.region with
    | error e => simp only [hra]
    | ok area =>
      simp only [hra] at h ⊢
      cases hrb : area.readBytes desc.byteOffset byteLength with
      | error msg => simp only [hrb]
      | ok before =>
        simp only [hrb] at h ⊢
        cases hm : mutator area desc with
        | error msg => simp only [hm]
        | ok area' =>
          simp only [hm] at h ⊢
          cases hrb2 : area'.readBytes desc.byteOffset byteLength with
          | error msg => simp only [hrb2]
          | ok after =>
            simp only [hrb2] at h ⊢
            simp only [apply_ite WriteOutcome.state, ite_self] at h
            have harea : area' = area :=
              updateArea_resolve_eq s desc.region area area' hra h
            have hbe : before = after := by
              rw [readBytes_ok_eq area desc.byteOffset byteLength before hrb,
                readBytes_ok_eq area' desc.byteOffset byteLength after hrb2,
                harea]
            rw [hbe, computeDiff_self]
            simp

/-- An absolute STRING write that would leave the state unchanged
dispatches nothing: either no event is produced, or the state actually
changed. -/
theorem writeStringInternal_silent (s : PlcStateImpl) (address : String)
    (descriptor : ParsedAddress) (value : List Nat)
    (options : PlcStringWriteOptions) (notify : Bool) :
    (s.writeStringInternal address descriptor value options notify).events =
      [] ∨
    (s.writeStringInternal address descriptor value options notify).state ≠
      s := by
  unfold PlcStateImpl.writeStringInternal
  dsimp only
  split
  · left; rfl
  split
  · left; rfl
  rename_i area hra
  split
  · left; rfl
  rename_i hroom
  split
  · left; rfl
  rename_i before hrb
  set PB := min (area.byteLength - descriptor.byteOffset - 2)
    (min (options.maxLength.getD 254) 254) with hPB
  set EFF := min (jsOrElse (jsOrElse (before.getD 0 0) PB) PB) PB with hEFF
  by_cases hcap : (decide (EFF < value.length) && !options.truncate) = true
  · rw [if_pos hcap]
    left; rfl
  · rw [if_neg hcap]
    by_cases hwl : EFF < value.length
    · simp only [if_pos hwl]
      split
      · left; rfl
      rename_i area' hwb
      split
      · rename_i hcond
        right
        intro heq
        have harea : area' = area :=
          updateArea_resolve_eq s descriptor.region area area' hra heq
        obtain ⟨hset, hbound⟩ := writeBytes_ok_eq _ _ _ _ hwb
        rw [harea] at hset
        have hdata := congrArg WordArea.data hset
        dsimp only at hdata
        have hslice := listSlice_listSet area.data _ descriptor.byteOffset hbound
        rw [← hdata] at hslice
        have hbefore := readBytes_ok_eq _ _ _ _ hrb
        have hEFFle : EFF ≤ PB := min_le_right _ _
        have htake : (List.take EFF value).length = EFF := by
          rw [List.length_take]
          omega
        have hALen : (EFF :: EFF :: (List.map (fun u => u % 256)
            (List.take EFF value) ++
            List.replicate (PB - EFF) 0)).length = 2 + PB := by
          simp only [List.length_cons, List.length_append, List.length_map,
            List.length_replicate, htake]
          omega
        rw [hALen] at hslice
        have hbeq : before = EFF :: EFF :: (List.map (fun u => u % 256)
            (List.take EFF value) ++
            List.replicate (PB - EFF) 0) :=
          hbefore.trans hslice
        rw [← hbeq, computeDiff_self] at hcond
        simp at hcond
      · left; rfl
    · simp only [if_neg hwl]
      split
      · left; rfl
      rename_i area' hwb
      split
      · rename_i hcond
        right
        intro heq
        have harea : area' = area :=
          updateArea_resolve_eq s descriptor.region area area' hra heq
        obtain ⟨hset, hbound⟩ := writeBytes_ok_eq _ _ _ _ hwb
        rw [harea] at hset
        have hdata := congrArg WordArea.data hset
        dsimp only at hdata
        have hslice := listSlice_listSet area.data _ descriptor.byteOffset hbound
        rw [← hdata] at hslice
        have hbefore := readBytes_ok_eq _ _ _ _ hrb
        have hEFFle : EFF ≤ PB := min_le_right _ _
        have htake : (List.take value.length value).length = value.length := by
          rw [List.length_take]
          omega
        have hALen : (EFF :: value.length :: (List.map (fun u => u % 256)
            (List.take value.length value) ++
            List.replicate (PB - value.length) 0)).length = 2 + PB := by
          simp only [List.length_cons, List.length_append, List.length_map,
            List.length_replicate, htake]
          omega
        rw [hALen] at hslice
        have hbeq : before = EFF :: value.length :: (List.map (fun u => u % 256)
            (List.take value.length value) ++
            List.replicate (PB - value.length) 0) :=
          hbefore.trans hslice
        rw [← hbeq, computeDiff_self] at hcond
        simp at hcond
      · left; rfl

/-- `writeNumeric` is `writeWith` with a byte-address parser, so the same
frame property holds. -/
theorem writeNumeric_state_eq (s : PlcStateImpl) (address : String)
    (byteLength : Nat) (alignment : Option Nat)
    (mutator : WordArea → ParsedAddress → Except String WordArea)
    (symbolType : SclDataType) (rawValue : JsVal)
    (h : (s.writeNumeric address byteLength alignment mutator symbolType
      rawValue).state = s) :
    (s.writeNumeric address byteLength alignment mutator symbolType
      rawValue).events = [] := by
  unfold PlcStateImpl.writeNumeric at h ⊢
  exact writeWith_state_eq _ _ _ _ _ _ _ _ h

/-- A symbolic STRING write that returns the caller's state unchanged
dispatched no symbol-change event. -/
theorem writeStringSymbol_state_eq (s : PlcStateImpl) (address : String)
    (value : List Nat) (options : PlcStringWriteOptions)
    (h : (s.writeStringSymbol address value options).state = s) :
    (s.writeStringSymbol address value options).events = [] := by
  unfold PlcStateImpl.writeStringSymbol at h ⊢
  cases hr : s.optimizedDb.read address .STRING with
  | error e => simp only [hr]
  | ok metadata =>
    simp only [hr] at h ⊢
    set allowed := min (min (metadata.descriptor.stringLength.getD 254)
      ((options.maxLength.map (fun m => max m 0)).getD
        (metadata.descriptor.stringLength.getD 254))) 254 with hallow
    by_cases hcap : (decide (allowed < value.length) && !options.truncate) = true
    · rw [if_pos hcap]
      rfl
    · rw [if_neg hcap] at h ⊢
      exact writeSymbol_state_eq _ _ _ _ h

/-- C4: a write through the memory facade (any of the 14 typed writes, to
an absolute `I`/`Q`/`M` bit, byte, word, dword address or to a DB symbol
path) that leaves the facade state unchanged dispatches no state-change
payload: listeners would be invoked only when at least one byte of an
area or one symbol value actually changed. -/
theorem C4_silent_write_no_events (t : SclDataType) (s : PlcStateImpl)
    (address : String) (value : JsVal)
    (h : (PlcStateImpl.typedWrite t s address value).state = s) :
    (PlcStateImpl.typedWrite t s address value).events = [] := by
  cases t with
  | BOOL =>
    unfold PlcStateImpl.typedWrite PlcStateImpl.writeBool at h ⊢
    cases value with
    | vBool b =>
      unfold PlcStateImpl.writeBoolInternal at h ⊢
      exact writeWith_state_eq _ _ _ _ _ _ _ _ h
    | vNum q => rfl
    | vBig i => rfl
    | vStr u => rfl
    | vUndef => rfl
  | BYTE =>
    unfold PlcStateImpl.typedWrite PlcStateImpl.writeByte at h ⊢
    cases hc : PlcStateImpl.checkIntRange value 0 255 with
    | none =>
      simp only [hc]
      rfl
    | some n =>
      simp only [hc] at h ⊢
      exact writeNumeric_state_eq _ _ _ _ _ _ _ h
  | WORD =>
    unfold PlcStateImpl.typedWrite PlcStateImpl.writeWord at h ⊢
    cases hc : PlcStateImpl.checkIntRange value 0 65535 with
    | none =>
      simp only [hc]
      rfl
    | some n =>
      simp only [hc] at h ⊢
      exact writeNumeric_state_eq _ _ _ _ _ _ _ h
  | DWORD =>
    unfold PlcStateImpl.typedWrite PlcStateImpl.writeDWord at h ⊢
    cases hc : PlcStateImpl.checkIntRange value 0 4294967295 with
    | none =>
      simp only [hc]
      rfl
    | some n =>
      simp only [hc] at h ⊢
      exact writeNumeric_state_eq _ _ _ _ _ _ _ h
  | SINT =>
    unfold PlcStateImpl.typedWrite PlcStateImpl.writeSInt at h ⊢
    cases hc : PlcStateImpl.checkIntRange value (-128) 127 with
    | none =>
      simp only [hc]
      rfl
    | some n =>
      simp only [hc] at h ⊢
      exact writeNumeric_state_eq _ _ _ _ _ _ _ h
  | INT =>
    unfold PlcStateImpl.typedWrite PlcStateImpl.writeInt at h ⊢
    cases hc : PlcStateImpl.checkIntRange value (-32768) 32767 with
    | none =>
      simp only [hc]
      rfl
    | some n =>
      simp only [hc] at h ⊢
      exact writeNumeric_state_eq _ _ _ _ _ _ _ h
  | DINT =>
    unfold PlcStateImpl.typedWrite PlcStateImpl.writeDInt at h ⊢
    cases hc : PlcStateImpl.checkIntRange value (-2147483648) 2147483647 with
    | none =>
      simp only [hc]
      rfl
    | some n =>
      simp only [hc] at h ⊢
      exact writeNumeric_state_eq _ _ _ _ _ _ _ h
  | LINT =>
    unfold PlcStateImpl.typedWrite PlcStateImpl.writeLint at h ⊢
    cases value with
    | vBig i => exact writeNumeric_state_eq _ _ _ _ _ _ _ h
    | vBool b => rfl
    | vNum q => rfl
    | vStr u => rfl
    | vUndef => rfl
  | REAL =>
    unfold PlcStateImpl.typedWrite PlcStateImpl.writeReal at h ⊢
    cases value with
    | vNum q => exact writeNumeric_state_eq _ _ _ _ _ _ _ h
    | vBool b => rfl
    | vBig i => rfl
    | vStr u => rfl
    | vUndef => rfl
  | LREAL =>
    unfold PlcStateImpl.typedWrite PlcStateImpl.writeLReal at h ⊢
    cases value with
    | vNum q => exact writeNumeric_state_eq _ _ _ _ _ _ _ h
    | vBool b => rfl
    | vBig i => rfl
    | vStr u => rfl
    | vUndef => rfl
  | TIME =>
    unfold PlcStateImpl.typedWrite PlcStateImpl.writeTime at h ⊢
    cases hc : PlcStateImpl.checkIntRange value (-2147483648) 2147483647 with
    | none =>
      simp only [hc]
      rfl
    | some n =>
      simp only [hc] at h ⊢
      exact writeNumeric_state_eq _ _ _ _ _ _ _ h
  | DATE =>
    unfold PlcStateImpl.typedWrite PlcStateImpl.writeDate at h ⊢
    cases hc : PlcStateImpl.checkIntRange value 0 65535 with
    | none =>
      simp only [hc]
      rfl
    | some n =>
      simp only [hc] at h ⊢
      exact writeNumeric_state_eq _ _ _ _ _ _ _ h
  | TOD =>
    unfold PlcStateImpl.typedWrite PlcStateImpl.writeTod at h ⊢
    cases hc : PlcStateImpl.checkIntRange value 0 4294967295 with
    | none =>
      simp only [hc]
      rfl
    | some n =>
      simp only [hc] at h ⊢
      exact writeNumeric_state_eq _ _ _ _ _ _ _ h
  | STRING =>
    unfold PlcStateImpl.typedWrite PlcStateImpl.writeString at h ⊢
    cases value with
    | vStr units =>
      dsimp only at h ⊢
      cases hi : inspectAddress address with
      | ok descriptor =>
        simp only [hi] at h ⊢
        rcases writeStringInternal_silent s address descriptor units {} true
          with he | hne
        · exact he
        · exact absurd h hne
      | error e =>
        simp only [hi] at h ⊢
        by_cases hf : shouldAttemptSymbolFallback address e = true
        · rw [if_pos hf] at h ⊢
          exact writeStringSymbol_state_eq _ _ _ _ h
        · rw [if_neg hf]
    | vBool b => rfl
    | vNum q => rfl
    | vBig i => rfl
    | vUndef => rfl

/-- A one-flag-byte state used to exercise the frame property. -/
def c4S0 : PlcStateImpl := { flags := some ⟨[0]⟩ }

/-- Witness: re-writing FALSE to `M0.0` over a zero flag byte leaves the
state unchanged, and the theorem yields that no event was dispatched. -/
theorem C4_silent_write_no_events_witness :
    (PlcStateImpl.typedWrite .BOOL c4S0 "M0.0" (.vBool false)).state = c4S0 ∧
    (PlcStateImpl.typedWrite .BOOL c4S0 "M0.0" (.vBool false)).events = [] :=
  ⟨rfl, C4_silent_write_no_events .BOOL c4S0 "M0.0" (.vBool false) rfl⟩

/-- A bounds-satisfying `readBytes` succeeds with the slice. -/
theorem readBytes_of_le (a : WordArea) (off len : Nat)
    (h : off + len ≤ a.data.length) :
    a.readBytes off len = .ok (listSlice a.data off len) := by
  unfold WordArea.readBytes WordArea.assertRange
  rw [if_pos h]
  rfl

/-- A bounds-satisfying `writeBytes` succeeds with the overwritten
buffer. -/
theorem writeBytes_of_le (a : WordArea) (off : Nat) (src : List Nat)
    (h : off + src.length ≤ a.data.length) :
    a.writeBytes off src = .ok ⟨listSet a.data off src⟩ := by
  unfold WordArea.writeBytes WordArea.assertRange
  rw [if_pos h]
  rfl

/-- Slicing inside a freshly overwritten window reads the replacement
bytes. -/
theorem listSlice_listSet_mid (l repl : List Nat) (off d k : Nat)
    (hdk : d + k ≤ repl.length) (hb : off + repl.length ≤ l.length) :
    listSlice (listSet l off repl) (off + d) k = (repl.drop d).take k := by
  have hoff : (l.take off).length = off := by
    rw [List.length_take]
    omega
  have hstep1 : (listSet l off repl).drop (off + d) =
      (repl ++ l.drop (off + repl.length)).drop d := by
    rw [listSet, List.append_assoc, ← List.drop_drop, List.drop_left' hoff]
  rw [listSlice, hstep1, List.drop_append_of_le_length (by omega)]
  exact List.take_append_of_le_length (by rw [List.length_drop]; omega)

/-- Lookup in a nonempty association list. -/
theorem aGet_cons {α : Type} (k0 k : String) (v0 : α)
    (m : List (String × α)) :
    aGet ((k0, v0) :: m) k = if k0 = k then some v0 else aGet m k := by
  simp only [aGet, List.find?]
  by_cases h : k0 = k
  · simp [h]
  · simp [h]

/-- Replace-or-append then lookup returns the new value. -/
theorem aGet_aSet_self {α : Type} (m : List (String × α)) (k : String)
    (v : α) : aGet (aSet m k v) k = some v := by
  induction m with
  | nil => simp [aGet, aSet, List.find?]
  | cons p rest ih =>
    obtain ⟨k0, v0⟩ := p
    by_cases h : k0 = k
    · simp [aSet, h, aGet_cons]
    · simp [aSet, h, aGet_cons, ih]

/-- Re-resolving a region that was just overwritten yields the installed
area. -/
theorem resolveArea_updateArea (s : PlcStateImpl)
    (region : PlcRegionDescriptor) (a a' : WordArea)
    (hra : s.resolveArea region = .ok a) :
    (s.updateArea region a').resolveArea region = .ok a' := by
  cases region with
  | db ip => simp [PlcStateImpl.resolveArea] at hra
  | area k =>
    cases k with
    | I => simp [PlcStateImpl.updateArea, PlcStateImpl.resolveArea]
    | Q => simp [PlcStateImpl.updateArea, PlcStateImpl.resolveArea]
    | M => simp [PlcStateImpl.updateArea, PlcStateImpl.resolveArea]

/-- `describe` ignores the value map, so a values-only update leaves it
unchanged. -/
theorem describe_set_values (store : OptimizedDbStore)
    (vals : List (String × JsVal)) (path : String) (et : SclDataType) :
    OptimizedDbStore.describe { store with values := vals } path et =
      store.describe path et := rfl

/-- A successful store write is read back as the coerced value it
installed. -/
theorem store_write_read (store : OptimizedDbStore) (path : String)
    (et : SclDataType) (raw : JsVal)
    (r : OptimizedDbStore.SymbolWriteResult) (store' : OptimizedDbStore)
    (hw : store.write path et raw = .ok (r, store')) :
    store'.read path et = .ok ⟨r.descriptor, r.current⟩ := by
  unfold OptimizedDbStore.write at hw
  cases hd : store.describe path et with
  | error e => simp only [hd] at hw; exact Except.noConfusion hw
  | ok desc =>
    simp only [hd] at hw
    cases hco : coerceScalarValue desc.dataType raw desc.stringLength path with
    | error e => simp only [hco] at hw; exact Except.noConfusion hw
    | ok current =>
      simp only [hco] at hw
      injection hw with hw1
      injection hw1 with hr hs
      by_cases hc : valueEquals (store.lookupJs desc.normalizedPath) current = true
      · rw [if_neg (by simp [hc])] at hs
        rw [← hs]
        unfold OptimizedDbStore.read
        rw [hd, ← hr]
        have hkv : store.lookupJs desc.normalizedPath = current := by
          simpa [valueEquals] using hc
        simp [hkv]
      · have hc' : (!valueEquals (store.lookupJs desc.normalizedPath) current)
            = true := by
          simp [Bool.eq_false_iff.mpr hc]
        rw [if_pos hc'] at hs
        rw [← hs]
        unfold OptimizedDbStore.read
        rw [describe_set_values, hd, ← hr]
        simp only [OptimizedDbStore.lookupJs]
        rw [aGet_aSet_self]
        rfl

/-- Storing a byte list whose entries are below 256 keeps it verbatim. -/
theorem map_mod_id (l : List Nat) (h : ∀ u ∈ l, u < 256) :
    l.map (fun u => u % 256) = l := by
  induction l with
  | nil => rfl
  | cons b rest ih =>
    have hb : b < 256 := h b (List.mem_cons_self _ _)
    have hrest : ∀ u ∈ rest, u < 256 := fun u hu => h u (List.mem_cons_of_mem _ hu)
    simp [Nat.mod_eq_of_lt hb, ih hrest]

/-! ### STRING capacity (C7): the budget and effective maximum computed
by `writeStringInternal` from the stored header and the options -/

/-- The payload budget of `writeStringInternal`: remaining area space
clipped by the requested and absolute maximum lengths. -/
def stringPayloadBudget (area : WordArea) (offset : Nat)
    (maxLen : Option Nat) : Nat :=
  min (area.byteLength - offset - 2) (min (maxLen.getD 254) 254)

/-- The effective maximum of `writeStringInternal`: the stored declared
maximum (byte 0 of the slot, `||` the budget) clipped to the budget. -/
def stringEffectiveMax (area : WordArea) (offset : Nat)
    (maxLen : Option Nat) : Nat :=
  let payloadBudget := stringPayloadBudget area offset maxLen
  let before := listSlice area.data offset (2 + payloadBudget)
  let declaredMax := jsOrElse (before.getD 0 0) payloadBudget
  min (jsOrElse declaredMax payloadBudget) payloadBudget

/-- An overlong absolute STRING write without truncation fails with the
capacity error and leaves the state unchanged. -/
theorem writeString_abs_overlong_fails (s : PlcStateImpl)
    (address : String) (descriptor : ParsedAddress) (value : List Nat)
    (maxLen : Option Nat)
    (hi : inspectAddress address = .ok descriptor)
    (hbit : descriptor.bitOffset.getD 0 = 0)
    (area : WordArea)
    (hra : s.resolveArea descriptor.region = .ok area)
    (hroom : descriptor.byteOffset + 2 ≤ area.byteLength)
    (hcap : stringEffectiveMax area descriptor.byteOffset maxLen <
      value.length) :
    (s.writeString address (.vStr value) ⟨maxLen, false⟩).result =
      .error (createError .outOfRange
        "STRING value exceeds available capacity" address) ∧
    (s.writeString address (.vStr value) ⟨maxLen, false⟩).state = s := by
  unfold PlcStateImpl.writeString
  dsimp only
  simp only [hi]
  unfold PlcStateImpl.writeStringInternal
  dsimp only
  rw [if_neg (by simp [hbit])]
  simp only [hra]
  have hbl : area.byteLength = area.data.length := rfl
  rw [if_neg (by omega)]
  rw [readBytes_of_le area _ _ (by
    have h1 : min (area.byteLength - descriptor.byteOffset - 2)
        (min (maxLen.getD 254) 254) ≤
        area.byteLength - descriptor.byteOffset - 2 := min_le_left _ _
    omega)]
  dsimp only
  have hcapU := hcap
  unfold stringEffectiveMax stringPayloadBudget at hcapU
  simp only [List.getD] at hcapU
  rw [if_pos (by
    simp only [Bool.not_false, Bool.and_true, decide_eq_true_eq]
    exact hcapU)]
  exact ⟨rfl, rfl⟩

/-- An overlong absolute STRING write with truncation succeeds, and
reading the slot back returns exactly the truncated prefix. -/
theorem writeString_abs_overlong_truncates (s : PlcStateImpl)
    (address : String) (descriptor : ParsedAddress) (value : List Nat)
    (maxLen : Option Nat)
    (hi : inspectAddress address = .ok descriptor)
    (hbit : descriptor.bitOffset.getD 0 = 0)
    (area : WordArea)
    (hra : s.resolveArea descriptor.region = .ok area)
    (hroom : descriptor.byteOffset + 2 ≤ area.byteLength)
    (hcap : stringEffectiveMax area descriptor.byteOffset maxLen <
      value.length)
    (hbytes : ∀ u ∈ value, u < 256) :
    (s.writeString address (.vStr value) ⟨maxLen, true⟩).result = .ok () ∧
    ((s.writeString address (.vStr value) ⟨maxLen, true⟩).state.readString
        address {}) =
      .ok (value.take (stringEffectiveMax area descriptor.byteOffset
        maxLen)) := by
  unfold PlcStateImpl.writeString
  dsimp only
  simp only [hi]
  unfold PlcStateImpl.writeStringInternal
  dsimp only
  rw [if_neg (by simp [hbit])]
  simp only [hra]
  have hbl : area.byteLength = area.data.length := rfl
  have hPBle : min (area.byteLength - descriptor.byteOffset - 2)
      (min (maxLen.getD 254) 254) ≤
      area.byteLength - descriptor.byteOffset - 2 := min_le_left _ _
  rw [if_neg (by omega)]
  rw [readBytes_of_le area _ _ (by omega)]
  dsimp only
  set PB := min (area.byteLength - descriptor.byteOffset - 2)
    (min (maxLen.getD 254) 254) with hPB
  set BEF := listSlice area.data descriptor.byteOffset (2 + PB) with hBEF
  set EM := min (jsOrElse (jsOrElse (BEF.getD 0 0) PB) PB) PB with hEM
  have hcapU : EM < value.length := by
    unfold stringEffectiveMax stringPayloadBudget at hcap
    exact hcap
  rw [if_neg (by simp)]
  simp only [if_pos hcapU]
  have hEMle : EM ≤ PB := min_le_right _ _
  have htakeE : (List.take EM value).length = EM := by
    rw [List.length_take]
    omega
  have hAlen : (EM :: EM :: (List.map (fun u => u % 256)
      (List.take EM value) ++ List.replicate (PB - EM) 0)).length =
      2 + PB := by
    simp only [List.length_cons, List.length_append, List.length_map,
      List.length_replicate, htakeE]
    omega
  rw [writeBytes_of_le area _ _ (by rw [hAlen]; omega)]
  dsimp only
  refine ⟨?_, ?_⟩
  · simp only [apply_ite WriteOutcome.result, ite_self]
  · simp only [apply_ite WriteOutcome.state, ite_self]
    unfold PlcStateImpl.readString
    simp only [hi]
    rw [if_neg (by simp [hbit])]
    rw [resolveArea_updateArea s descriptor.region area _ hra]
    dsimp only
    have hA2len : (WordArea.mk (listSet area.data descriptor.byteOffset
        (EM :: EM :: (List.map (fun u => u % 256) (List.take EM value) ++
          List.replicate (PB - EM) 0)))).byteLength = area.data.length := by
      show (listSet area.data descriptor.byteOffset _).length =
        area.data.length
      exact listSet_length _ _ _ (by rw [hAlen]; omega)
    rw [if_neg (by rw [hA2len]; omega)]
    rw [readBytes_of_le _ _ _ (by
      show descriptor.byteOffset + 2 ≤
        (listSet area.data descriptor.byteOffset _).length
      rw [listSet_length _ _ _ (by rw [hAlen]; omega)]
      omega)]
    dsimp only
    have hhead : listSlice (listSet area.data descriptor.byteOffset
        (EM :: EM :: (List.map (fun u => u % 256) (List.take EM value) ++
          List.replicate (PB - EM) 0))) descriptor.byteOffset 2 =
        [EM, EM] := by
      have h0 := listSlice_listSet_mid area.data
        (EM :: EM :: (List.map (fun u => u % 256) (List.take EM value) ++
          List.replicate (PB - EM) 0)) descriptor.byteOffset 0 2
        (by rw [hAlen]; omega) (by rw [hAlen]; omega)
      rw [Nat.add_zero, List.drop_zero] at h0
      rw [h0]
      rfl
    rw [hhead]
    simp only [List.getD_cons_zero, List.getD_cons_succ, Option.getD_none,
      Nat.min_self]
    by_cases hEM0 : EM = 0
    · rw [if_neg (by omega)]
      rw [readBytes_of_le _ _ _ (by
        show descriptor.byteOffset + 2 + EM ≤
          (listSet area.data descriptor.byteOffset _).length
        rw [listSet_length _ _ _ (by rw [hAlen]; omega)]
        omega)]
      dsimp only
      unfold stringEffectiveMax stringPayloadBudget
      dsimp only
      rw [← hBEF, ← hEM, hEM0]
      simp [listSlice]
    · have hPB254 : PB ≤ 254 :=
        le_trans (min_le_right _ _) (min_le_right _ _)
      have hjs : jsOrElse EM 254 = EM := by
        unfold jsOrElse
        rw [if_neg hEM0]
      rw [hjs]
      rw [if_neg (by rw [hA2len]; omega)]
      rw [readBytes_of_le _ _ _ (by
        show descriptor.byteOffset + 2 + EM ≤
          (listSet area.data descriptor.byteOffset _).length
        rw [listSet_length _ _ _ (by rw [hAlen]; omega)]
        omega)]
      dsimp only
      have hmid := listSlice_listSet_mid area.data
        (EM :: EM :: (List.map (fun u => u % 256) (List.take EM value) ++
          List.replicate (PB - EM) 0)) descriptor.byteOffset 2 EM
        (by rw [hAlen]; omega) (by rw [hAlen]; omega)
      rw [hmid]
      have hdrop2 : (EM :: EM :: (List.map (fun u => u % 256)
          (List.take EM value) ++ List.replicate (PB - EM) 0)).drop 2 =
          List.map (fun u => u % 256) (List.take EM value) ++
            List.replicate (PB - EM) 0 := rfl
      rw [hdrop2]
      rw [List.take_append_of_le_length (by
        rw [List.length_map, htakeE])]
      rw [List.take_of_length_le (by rw [List.length_map, htakeE])]
      rw [map_mod_id _ (fun u hu => hbytes u (List.mem_of_mem_take hu))]
      unfold stringEffectiveMax stringPayloadBudget
      dsimp only

/-- `describe` only succeeds with a descriptor of the expected type. -/
theorem describe_ok_type (store : OptimizedDbStore) (path : String)
    (et : SclDataType) (desc : SymbolDescriptor)
    (h : store.describe path et = .ok desc) : desc.dataType = et := by
  unfold OptimizedDbStore.describe at h
  cases hrd : store.resolveDescriptor path with
  | error e => simp only [hrd] at h; exact Except.noConfusion h
  | ok d =>
    simp only [hrd] at h
    by_cases hdt : d.dataType ≠ et
    · rw [if_pos hdt] at h; exact Except.noConfusion h
    · rw [if_neg hdt] at h
      injection h with h1
      rw [← h1]
      exact not_ne_iff.mp hdt

/-- Inversion of a successful store read. -/
theorem read_ok_inv (store : OptimizedDbStore) (path : String)
    (et : SclDataType) (m : OptimizedDbStore.SymbolReadResult)
    (h : store.read path et = .ok m) :
    store.describe path et = .ok m.descriptor ∧
      m.value = store.lookupJs m.descriptor.normalizedPath := by
  unfold OptimizedDbStore.read at h
  cases hd : store.describe path et with
  | error e => simp only [hd] at h; exact Except.noConfusion h
  | ok desc =>
    simp only [hd] at h
    injection h with h1
    rw [← h1]
    exact ⟨rfl, rfl⟩

/-- The length cap applied by `writeStringSymbol`: the declared length
against the (clamped) option maximum, clipped to the absolute 254. -/
def stringSymbolAllowed (metadata : OptimizedDbStore.SymbolReadResult)
    (maxLen : Option Nat) : Nat :=
  let declared := metadata.descriptor.stringLength.getD 254
  let optionMax := (maxLen.map (fun m => max m 0)).getD declared
  min (min declared optionMax) 254

/-- An overlong symbolic STRING write without truncation fails with the
capacity error and leaves the state unchanged. -/
theorem writeStringSymbol_overlong_fails (s : PlcStateImpl)
    (spath : String) (value : List Nat) (maxLen : Option Nat)
    (e : PlcError) (metadata : OptimizedDbStore.SymbolReadResult)
    (hi : inspectAddress spath = .error e)
    (hfb : shouldAttemptSymbolFallback spath e = true)
    (hr : s.optimizedDb.read spath .STRING = .ok metadata)
    (hcap : stringSymbolAllowed metadata maxLen < value.length) :
    (s.writeString spath (.vStr value) ⟨maxLen, false⟩).result =
      .error (createError .outOfRange
        ("STRING value exceeds allowed length " ++
          toString (stringSymbolAllowed metadata maxLen)) spath) ∧
    (s.writeString spath (.vStr value) ⟨maxLen, false⟩).state = s := by
  unfold PlcStateImpl.writeString
  dsimp only
  simp only [hi]
  rw [if_pos hfb]
  unfold PlcStateImpl.writeStringSymbol
  simp only [hr]
  dsimp only
  have hcapU := hcap
  unfold stringSymbolAllowed at hcapU
  rw [if_pos (by
    simp only [Bool.not_false, Bool.and_true, decide_eq_true_eq]
    exact hcapU)]
  refine ⟨?_, rfl⟩
  unfold stringSymbolAllowed
  rfl

/-- An overlong symbolic STRING write with truncation succeeds, and a
symbolic read returns exactly the truncated prefix. -/
theorem writeStringSymbol_overlong_truncates (s : PlcStateImpl)
    (spath : String) (value : List Nat) (maxLen : Option Nat)
    (e : PlcError) (metadata : OptimizedDbStore.SymbolReadResult) (L : Nat)
    (hi : inspectAddress spath = .error e)
    (hfb : shouldAttemptSymbolFallback spath e = true)
    (hr : s.optimizedDb.read spath .STRING = .ok metadata)
    (hsl : metadata.descriptor.stringLength = some L)
    (hcap : stringSymbolAllowed metadata maxLen < value.length) :
    (s.writeString spath (.vStr value) ⟨maxLen, true⟩).result = .ok () ∧
    ((s.writeString spath (.vStr value) ⟨maxLen, true⟩).state.readString
        spath {}) =
      .ok (value.take (stringSymbolAllowed metadata maxLen)) := by
  obtain ⟨hd, hmv⟩ := read_ok_inv _ _ _ _ hr
  have hdt : metadata.descriptor.dataType = .STRING :=
    describe_ok_type _ _ _ _ hd
  unfold PlcStateImpl.writeString
  dsimp only
  simp only [hi]
  rw [if_pos hfb]
  unfold PlcStateImpl.writeStringSymbol
  simp only [hr]
  dsimp only
  set AL := min (metadata.descriptor.stringLength.getD 254)
      ((maxLen.map (fun m => m ⊔ 0)).getD
        (metadata.descriptor.stringLength.getD 254)) ⊓ 254 with hAL
  have hcapU : AL < value.length := by
    unfold stringSymbolAllowed at hcap
    exact hcap
  rw [if_neg (by simp)]
  simp only [if_pos hcapU]
  have hALle : AL ≤ L := by
    have h1 : AL ≤ metadata.descriptor.stringLength.getD 254 :=
      le_trans (min_le_left _ _) (min_le_left _ _)
    rw [hsl] at h1
    exact h1
  have htakeA : (List.take AL value).length = AL := by
    rw [List.length_take]
    omega
  have hco : coerceScalarValue metadata.descriptor.dataType
      (.vStr (List.take AL value)) metadata.descriptor.stringLength spath =
      .ok (.vStr (List.take AL value)) := by
    rw [hdt, hsl]
    unfold coerceScalarValue
    dsimp only
    rw [if_neg (by rw [htakeA]; omega)]
  cases hw : s.optimizedDb.write spath .STRING
      (.vStr (List.take AL value)) with
  | error e2 =>
    exfalso
    unfold OptimizedDbStore.write at hw
    simp only [hd, hco] at hw
    exact Except.noConfusion hw
  | ok pair =>
    obtain ⟨r, db'⟩ := pair
    have hrc : r.current = .vStr (List.take AL value) := by
      have hw2 := hw
      unfold OptimizedDbStore.write at hw2
      simp only [hd, hco] at hw2
      injection hw2 with hw3
      injection hw3 with hw4 hw5
      rw [← hw4]
    unfold PlcStateImpl.writeSymbol
    simp only [hw]
    refine ⟨?_, ?_⟩
    · rw [apply_ite WriteOutcome.result]
      simp
    · rw [apply_ite WriteOutcome.state]
      simp only [ite_self]
      unfold PlcStateImpl.readString
      simp only [hi]
      rw [if_pos hfb]
      rw [store_write_read _ _ _ _ _ _ hw]
      dsimp only
      rw [hrc]
      unfold stringSymbolAllowed
      rfl

/-- C7: writing a STRING longer than the slot's declared/maximum length
through the memory facade fails with an out-of-range error (and leaves
the state unchanged) when truncation is not permitted; with truncation
permitted the write succeeds and a subsequent read of the same absolute
address / symbol path returns exactly the truncated prefix of the written
value.  Both facade routes are covered: the absolute-address route
(`writeStringInternal`, capacity `stringEffectiveMax`) and the symbol
route (`writeStringSymbol`, capacity `stringSymbolAllowed`). -/
theorem C7_string_truncation (s : PlcStateImpl) (address : String)
    (descriptor : ParsedAddress) (value : List Nat) (maxLen : Option Nat)
    (hi : inspectAddress address = .ok descriptor)
    (hbit : descriptor.bitOffset.getD 0 = 0)
    (area : WordArea)
    (hra : s.resolveArea descriptor.region = .ok area)
    (hroom : descriptor.byteOffset + 2 ≤ area.byteLength)
    (hcap : stringEffectiveMax area descriptor.byteOffset maxLen <
      value.length)
    (hbytes : ∀ u ∈ value, u < 256)
    (spath : String) (e : PlcError)
    (metadata : OptimizedDbStore.SymbolReadResult) (L : Nat)
    (hi2 : inspectAddress spath = .error e)
    (hfb : shouldAttemptSymbolFallback spath e = true)
    (hr : s.optimizedDb.read spath .STRING = .ok metadata)
    (hsl : metadata.descriptor.stringLength = some L)
    (hcap2 : stringSymbolAllowed metadata maxLen < value.length) :
    ((s.writeString address (.vStr value) ⟨maxLen, false⟩).result =
        .error (createError .outOfRange
          "STRING value exceeds available capacity" address) ∧
      (s.writeString address (.vStr value) ⟨maxLen, false⟩).state = s) ∧
    ((s.writeString address (.vStr value) ⟨maxLen, true⟩).result =
        .ok () ∧
      ((s.writeString address (.vStr value)
          ⟨maxLen, true⟩).state.readString address {}) =
        .ok (value.take (stringEffectiveMax area descriptor.byteOffset
          maxLen))) ∧
    ((s.writeString spath (.vStr value) ⟨maxLen, false⟩).result =
        .error (createError .outOfRange
          ("STRING value exceeds allowed length " ++
            toString (stringSymbolAllowed metadata maxLen)) spath) ∧
      (s.writeString spath (.vStr value) ⟨maxLen, false⟩).state = s) ∧
    ((s.writeString spath (.vStr value) ⟨maxLen, true⟩).result = .ok () ∧
      ((s.writeString spath (.vStr value)
          ⟨maxLen, true⟩).state.readString spath {}) =
        .ok (value.take (stringSymbolAllowed metadata maxLen))) :=
  ⟨writeString_abs_overlong_fails s address descriptor value maxLen hi hbit
      area hra hroom hcap,
    writeString_abs_overlong_truncates s address descriptor value maxLen hi
      hbit area hra hroom hcap hbytes,
    writeStringSymbol_overlong_fails s spath value maxLen e metadata hi2
      hfb hr hcap2,
    writeStringSymbol_overlong_truncates s spath value maxLen e metadata L
      hi2 hfb hr hsl hcap2⟩

/-- Parse result of the absolute address `MB0`. -/
def c7Desc : ParsedAddress :=
  { region := .area .M, byteOffset := 0, notation_ := .BYTE }

/-- An eight-byte zeroed flag area. -/
def c7Area : WordArea := ⟨[0, 0, 0, 0, 0, 0, 0, 0]⟩

/-- A STRING symbol of declared length 4 under `Motor.name`. -/
def c7SymDesc : SymbolDescriptor :=
  { canonicalPath := "Motor.name", normalizedPath := "motor.name",
    declarationPath := "Motor.name", fieldName := "name",
    dataType := .STRING, stringLength := some 4, defaultValue := .vStr [],
    fbInstancePath := "Motor", fbType := "FB_M" }

/-- State with the flag area and the one-symbol store. -/
def c7S : PlcStateImpl :=
  { flags := some c7Area,
    optimizedDb := { descriptors := [("motor.name", c7SymDesc)] } }

/-- Witness: over the zeroed `MB0` slot with `maxLength := 2` the
three-unit string `ABC` overflows; without truncation it fails, with
truncation the absolute and the symbolic write both read back `AB`. -/
theorem C7_string_truncation_witness :
    ((c7S.writeString "MB0" (.vStr [65, 66, 67]) ⟨some 2, false⟩).result =
      .error (createError .outOfRange
        "STRING value exceeds available capacity" "MB0")) ∧
    ((c7S.writeString "MB0" (.vStr [65, 66, 67])
        ⟨some 2, true⟩).state.readString "MB0" {}) = .ok [65, 66] ∧
    ((c7S.writeString "Motor.name" (.vStr [65, 66, 67])
        ⟨some 2, true⟩).state.readString "Motor.name" {}) = .ok [65, 66] := by
  have h := C7_string_truncation c7S "MB0" c7Desc [65, 66, 67] (some 2)
    rfl rfl c7Area rfl (by decide) (by decide) (by decide) "Motor.name"
    (createError .invalidAddress "Unsupported address format"
      (some "Motor.name"))
    ⟨c7SymDesc, .vUndef⟩ 4 rfl rfl rfl rfl (by decide)
  exact ⟨h.1.1, h.2.1.2.trans (by rfl), h.2.2.2.2.trans (by rfl)⟩

/-! ### Capacity failures (C10): the three `STRING value exceeds …`
errors are exactly the messages beginning `STRING value exceeds` -/

/-- Character-list prefix test. -/
def unitsPre : List Char → List Char → Bool
  | [], _ => true
  | _ :: _, [] => false
  | p :: ps, c :: cs => p = c && unitsPre ps cs

/-- Whether a facade write result is one of the STRING capacity
failures (`STRING value exceeds available capacity` /
`… exceeds allowed length n` / `… exceeds declared length n`). -/
def isCapacityFailure : PlcResult Unit → Bool
  | .ok _ => false
  | .error e => unitsPre "STRING value exceeds".data e.message.data

/-- A message whose first two characters are not `ST` is not a capacity
failure. -/
theorem notCap_of_two (e : PlcError) (c1 c2 : Char) (rest : List Char)
    (hm : e.message.data = c1 :: c2 :: rest)
    (hne : (c1 = 'S' ∧ c2 = 'T') → False) :
    isCapacityFailure (.error e) = false := by
  show unitsPre "STRING value exceeds".data e.message.data = false
  rw [hm]
  rw [show "STRING value exceeds".data =
    'S' :: 'T' :: "RING value exceeds".data from rfl]
  simp only [unitsPre]
  by_cases h1 : ('S' : Char) = c1
  · by_cases h2 : ('T' : Char) = c2
    · exact absurd ⟨h1.symm, h2.symm⟩ hne
    · simp [h2]
  · simp [h1]

/-- A concrete non-capacity message check. -/
theorem notCap_decide (e : PlcError)
    (h : unitsPre "STRING value exceeds".data e.message.data = false) :
    isCapacityFailure (.error e) = false := h

/-- `resolveArea` never produces a capacity failure. -/
theorem resolveArea_notCap (s : PlcStateImpl)
    (region : PlcRegionDescriptor) (e : PlcError)
    (h : s.resolveArea region = .error e) :
    isCapacityFailure (.error e) = false := by
  unfold PlcStateImpl.resolveArea at h
  cases region with
  | db ip =>
    injection h with h1
    rw [← h1]
    decide
  | area k =>
    cases k with
    | I =>
      cases hi : s.inputs with
      | some a => rw [hi] at h; exact Except.noConfusion h
      | none =>
        rw [hi] at h
        injection h with h1
        rw [← h1]
        decide
    | Q =>
      cases hi : s.outputs with
      | some a => rw [hi] at h; exact Except.noConfusion h
      | none =>
        rw [hi] at h
        injection h with h1
        rw [← h1]
        decide
    | M =>
      cases hi : s.flags with
      | some a => rw [hi] at h; exact Except.noConfusion h
      | none =>
        rw [hi] at h
        injection h with h1
        rw [← h1]
        decide

/-- An `assertRange` failure message starts `access of `. -/
theorem assertRange_error_shape (a : WordArea) (off len : Nat)
    (msg : String) (h : a.assertRange off len = .error msg) :
    ∃ rest, msg.data = 'a' :: 'c' :: rest := by
  unfold WordArea.assertRange at h
  by_cases hb : off + len ≤ a.data.length
  · rw [if_pos hb] at h; exact Except.noConfusion h
  · rw [if_neg hb] at h
    injection h with h1
    rw [← h1]
    simp only [String.data_append, List.append_assoc, List.cons_append]
    exact ⟨_, rfl⟩

/-- `readBytes` failures are not capacity failures. -/
theorem readBytes_notCap (a : WordArea) (off len : Nat) (msg : String)
    (address : String)
    (h : a.readBytes off len = .error msg) :
    isCapacityFailure (.error (createError .outOfRange msg address)) =
      false := by
  unfold WordArea.readBytes at h
  cases har : a.assertRange off len with
  | ok u => rw [har] at h; exact Except.noConfusion h
  | error m2 =>
    rw [har] at h
    injection h with h1
    obtain ⟨rest, hrest⟩ := assertRange_error_shape a off len m2 har
    refine notCap_of_two _ 'a' 'c' rest ?_ (by decide)
    show msg.data = _
    rw [← h1, hrest]

/-- `writeBytes` failures are not capacity failures. -/
theorem writeBytes_notCap (a : WordArea) (off : Nat) (src : List Nat)
    (msg : String) (address : String)
    (h : a.writeBytes off src = .error msg) :
    isCapacityFailure (.error (createError .outOfRange msg address)) =
      false := by
  unfold WordArea.writeBytes at h
  cases har : a.assertRange off src.length with
  | ok u => rw [har] at h; exact Except.noConfusion h
  | error m2 =>
    rw [har] at h
    injection h with h1
    obtain ⟨rest, hrest⟩ := assertRange_error_shape a off src.length m2 har
    refine notCap_of_two _ 'a' 'c' rest ?_ (by decide)
    show msg.data = _
    rw [← h1, hrest]

/-- Existential form of the two-character test. -/
theorem notCap_shape (e : PlcError) (c1 c2 : Char)
    (hm : ∃ rest, e.message.data = c1 :: c2 :: rest)
    (hne : (c1 = 'S' ∧ c2 = 'T') → False) :
    isCapacityFailure (.error e) = false := by
  obtain ⟨rest, hr⟩ := hm
  exact notCap_of_two e c1 c2 rest hr hne

/-- `parseCore` never produces a capacity failure. -/
theorem parseCore_notCap (address : String) (e : PlcError)
    (h : parseCore address = .error e) :
    isCapacityFailure (.error e) = false := by
  unfold parseCore at h
  dsimp only at h
  split at h
  · injection h with h1; rw [← h1]; rfl
  · split at h
    · injection h with h1; rw [← h1]; rfl
    · split at h
      · split at h
        · injection h with h1; rw [← h1]; rfl
        · exact Except.noConfusion h
      · split at h
        · exact Except.noConfusion h
        · injection h with h1; rw [← h1]; rfl

/-- `tokenizeLoop` never produces a capacity failure. -/
theorem tokenizeLoop_notCap (path : String) (cs : List Char)
    (current : List Char) (depth : Nat) (tokens : List String)
    (e : PlcError)
    (h : tokenizeLoop path cs current depth tokens = .error e) :
    isCapacityFailure (.error e) = false := by
  induction cs generalizing current depth tokens with
  | nil =>
    unfold tokenizeLoop at h
    split at h
    · injection h with h1; rw [← h1]; rfl
    · split at h
      · injection h with h1; rw [← h1]; rfl
      · exact Except.noConfusion h
  | cons c rest ih =>
    unfold tokenizeLoop at h
    split at h
    · split at h
      · injection h with h1; rw [← h1]; rfl
      · exact ih _ _ _ h
    · split at h
      · exact ih _ _ _ h
      · split at h
        · split at h
          · injection h with h1; rw [← h1]; rfl
          · exact ih _ _ _ h
        · exact ih _ _ _ h

/-- `tokenizePath` never produces a capacity failure. -/
theorem tokenizePath_notCap (path : String) (e : PlcError)
    (h : tokenizePath path = .error e) :
    isCapacityFailure (.error e) = false := by
  unfold tokenizePath at h
  dsimp only at h
  split at h
  · injection h with h1; rw [← h1]; rfl
  · exact tokenizeLoop_notCap _ _ _ _ _ _ h

/-- `describeMissingSymbol` never produces a capacity failure. -/
theorem describeMissingSymbol_notCap (store : OptimizedDbStore)
    (path : String) (tokens : List String) :
    isCapacityFailure (.error (store.describeMissingSymbol path tokens)) =
      false := by
  unfold OptimizedDbStore.describeMissingSymbol
  dsimp only
  split
  · exact notCap_shape _ 'F' 'B' (by
      simp only [createError, String.data_append, List.append_assoc,
        List.cons_append]
      exact ⟨_, rfl⟩) (by decide)
  · split
    · split
      · exact notCap_shape _ 'A' 'r' (by
          simp only [createError, String.data_append, List.append_assoc,
            List.cons_append]
          exact ⟨_, rfl⟩) (by decide)
      · exact notCap_shape _ 'S' 'y' (by
          simp only [createError, String.data_append, List.append_assoc,
            List.cons_append]
          exact ⟨_, rfl⟩) (by decide)
    · exact notCap_shape _ 'S' 'y' (by
        simp only [createError, String.data_append, List.append_assoc,
          List.cons_append]
        exact ⟨_, rfl⟩) (by decide)

/-- `resolveDescriptor` never produces a capacity failure. -/
theorem resolveDescriptor_notCap (store : OptimizedDbStore) (path : String)
    (e : PlcError) (h : store.resolveDescriptor path = .error e) :
    isCapacityFailure (.error e) = false := by
  unfold OptimizedDbStore.resolveDescriptor at h
  cases htk : tokenizePath path with
  | error e2 =>
    simp only [htk] at h
    injection h with h1
    rw [← h1]
    exact tokenizePath_notCap path e2 htk
  | ok tokens =>
    simp only [htk] at h
    split at h
    · injection h with h1; rw [← h1]; rfl
    · split at h
      · exact Except.noConfusion h
      · injection h with h1
        rw [← h1]
        exact describeMissingSymbol_notCap store path tokens

/-- `describe` never produces a capacity failure. -/
theorem describe_notCap (store : OptimizedDbStore) (path : String)
    (et : SclDataType) (e : PlcError)
    (h : store.describe path et = .error e) :
    isCapacityFailure (.error e) = false := by
  unfold OptimizedDbStore.describe at h
  cases hrd : store.resolveDescriptor path with
  | error e2 =>
    simp only [hrd] at h
    injection h with h1
    rw [← h1]
    exact resolveDescriptor_notCap store path e2 hrd
  | ok d =>
    simp only [hrd] at h
    split at h
    · injection h with h1
      rw [← h1]
      exact notCap_shape _ 'S' 'y' (by
        simp only [createError, String.data_append, List.append_assoc,
          List.cons_append]
        exact ⟨_, rfl⟩) (by decide)
    · exact Except.noConfusion h

/-- A STRING facade write with truncation enabled never returns a
capacity failure. -/
theorem writeString_truncate_notCap (s : PlcStateImpl) (address : String)
    (units : List Nat) (maxLen : Option Nat) :
    isCapacityFailure
      (s.writeString address (.vStr units) ⟨maxLen, true⟩).result =
      false := by
  unfold PlcStateImpl.writeString
  dsimp only
  cases hia : inspectAddress address with
  | ok descriptor =>
    simp only [hia]
    unfold PlcStateImpl.writeStringInternal
    dsimp only
    split
    · rfl
    cases hra : s.resolveArea descriptor.region with
    | error e => simp only [hra]; exact resolveArea_notCap s _ e hra
    | ok area =>
      simp only [hra]
      split
      · rfl
      split
      · rename_i msg hrb
        exact readBytes_notCap _ _ _ _ address hrb
      rename_i before hrb
      rw [if_neg (by simp)]
      set PB := min (area.byteLength - descriptor.byteOffset - 2)
        (min (maxLen.getD 254) 254) with hPB
      set EM := min (jsOrElse (jsOrElse (before.getD 0 0) PB) PB) PB
        with hEM
      by_cases hwl : EM < units.length
      · simp only [if_pos hwl]
        split
        · rename_i msg hwb
          exact writeBytes_notCap _ _ _ _ address hwb
        · simp only [apply_ite WriteOutcome.result, ite_self]
          rfl
      · simp only [if_neg hwl]
        split
        · rename_i msg hwb
          exact writeBytes_notCap _ _ _ _ address hwb
        · simp only [apply_ite WriteOutcome.result, ite_self]
          rfl
  | error e =>
    simp only [hia]
    by_cases hfb : shouldAttemptSymbolFallback address e = true
    · rw [if_pos hfb]
      unfold PlcStateImpl.writeStringSymbol
      cases hr : s.optimizedDb.read address .STRING with
      | error e2 =>
        simp only [hr]
        unfold OptimizedDbStore.read at hr
        cases hd : s.optimizedDb.describe address .STRING with
        | error e3 =>
          simp only [hd] at hr
          injection hr with h1
          rw [← h1]
          exact describe_notCap _ _ _ _ hd
        | ok d => simp only [hd] at hr; exact Except.noConfusion hr
      | ok metadata =>
        obtain ⟨hd, hmv⟩ := read_ok_inv _ _ _ _ hr
        have hdt := describe_ok_type _ _ _ _ hd
        simp only [hr]
        dsimp only
        rw [if_neg (by simp)]
        set AL := min (metadata.descriptor.stringLength.getD 254)
            ((maxLen.map (fun m => m ⊔ 0)).getD
              (metadata.descriptor.stringLength.getD 254)) ⊓ 254 with hAL
        set NV := if AL < units.length then List.take AL units else units
          with hNV
        have hALd : AL ≤ metadata.descriptor.stringLength.getD 254 :=
          le_trans (min_le_left _ _) (min_le_left _ _)
        have hNVlen : NV.length ≤
            metadata.descriptor.stringLength.getD 254 := by
          rw [hNV]
          split
        <;> rename_i hcx
          · rw [List.length_take]
            omega
          · omega
        unfold PlcStateImpl.writeSymbol
        cases hsl : metadata.descriptor.stringLength with
        | none =>
          have hco : coerceScalarValue metadata.descriptor.dataType
              (.vStr NV) metadata.descriptor.stringLength address =
              .error (createError .invalidConfig
                "STRING symbol is missing declared stringLength" address) := by
            rw [hdt, hsl]
            rfl
          cases hw : s.optimizedDb.write address .STRING (.vStr NV) with
          | error e4 =>
            simp only [hw]
            unfold OptimizedDbStore.write at hw
            simp only [hd, hco] at hw
            injection hw with h1
            rw [← h1]
            rfl
          | ok pair =>
            exfalso
            unfold OptimizedDbStore.write at hw
            simp only [hd, hco] at hw
            exact Except.noConfusion hw
        | some L =>
          have hco : coerceScalarValue metadata.descriptor.dataType
              (.vStr NV) metadata.descriptor.stringLength address =
              .ok (.vStr NV) := by
            rw [hdt, hsl]
            unfold coerceScalarValue
            dsimp only
            rw [if_neg (by
              rw [hsl] at hNVlen
              simp only [Option.getD_some] at hNVlen
              omega)]
          cases hw : s.optimizedDb.write address .STRING (.vStr NV) with
          | error e4 =>
            exfalso
            unfold OptimizedDbStore.write at hw
            simp only [hd, hco] at hw
            exact Except.noConfusion hw
          | ok pair =>
            obtain ⟨r, db'⟩ := pair
            simp only [hw]
            simp only [apply_ite WriteOutcome.result, ite_self]
            rfl
    · rw [if_neg hfb]
      exact parseCore_notCap address e hia

/-- C10: every interpreter-issued STRING write goes through the facade
with truncation enabled and the binding's declared string length as the
maximum, and therefore never returns a STRING capacity (out-of-range)
failure: an overlong right-hand string is silently truncated instead. -/
theorem C10_interpreter_string_writes_truncate (state : PlcStateImpl)
    (address : String) (value : JsVal) (stringLength : Option Nat) :
    performWrite state .STRING address value stringLength =
      state.writeString address (.vStr (jsToStringUnits value))
        { maxLength := stringLength, truncate := true } ∧
    isCapacityFailure
      (performWrite state .STRING address value stringLength).result =
      false :=
  ⟨rfl, writeString_truncate_notCap state address (jsToStringUnits value)
    stringLength⟩

/-! ### Invalid-target writes (C2) -/

/-- The tag carried by a failed facade result. -/
def resultCode : PlcResult Unit → Option PlcErrorCode
  | .ok _ => none
  | .error e => some e.code

/-- A write whose window exceeds the resolved area's buffer fails with
`outOfRange` and changes nothing. -/
theorem writeWith_oob (s : PlcStateImpl) (address : String)
    (byteLength : Nat)
    (mutator : WordArea → ParsedAddress → Except String WordArea)
    (notify : Bool) (symbolType : Option SclDataType) (raw : JsVal)
    (desc : ParsedAddress) (area : WordArea)
    (hra : s.resolveArea desc.region = .ok area)
    (hoob : area.data.length < desc.byteOffset + byteLength) :
    resultCode (s.writeWith address (.ok desc) byteLength mutator notify
      symbolType raw).result = some .outOfRange ∧
    (s.writeWith address (.ok desc) byteLength mutator notify
      symbolType raw).state = s ∧
    (s.writeWith address (.ok desc) byteLength mutator notify
      symbolType raw).events = [] := by
  unfold PlcStateImpl.writeWith
  dsimp only
  simp only [hra]
  have hrb : area.readBytes desc.byteOffset byteLength =
      .error ("access of " ++ toString byteLength ++
        " byte(s) at offset " ++ toString desc.byteOffset ++
        " exceeds size " ++ toString area.data.length) := by
    unfold WordArea.readBytes WordArea.assertRange
    rw [if_neg (by omega)]
    rfl
  simp [hrb, resultCode, createError]

/-- A misaligned byte address is rejected by the parser with an
`alignmentError`. -/
theorem parseByteAddress_misaligned (address : String)
    (options : ByteAddressParseOptions) (d : ParsedAddress) (al : Nat)
    (hp : parseCore address = .ok d)
    (hbit : d.notation_ ≠ .BIT)
    (hsz : notationSizes d.notation_ = options.byteLength)
    (hal : options.alignment = some al)
    (h0 : al ≠ 0) (hmis : d.byteOffset % al ≠ 0) :
    parseByteAddress address options =
      .error (createError .alignmentError
        ("Address must be aligned to " ++ toString al ++ " byte(s)")
        address) := by
  unfold parseByteAddress
  simp only [hp]
  rw [if_neg hbit]
  rw [if_neg (by
    simp only [hsz, Bool.and_eq_true, decide_eq_true_eq, not_and]
    intro h1 h2
    exact h2 rfl)]
  dsimp only
  simp only [hal]
  rw [if_pos (by simp [h0, hmis])]

/-- A parser failure whose code is not `invalidAddress` is returned
unchanged by `writeWith` (no symbol fallback is attempted). -/
theorem writeWith_parser_err (s : PlcStateImpl) (address : String)
    (e : PlcError) (byteLength : Nat)
    (mutator : WordArea → ParsedAddress → Except String WordArea)
    (notify : Bool) (symbolType : Option SclDataType) (raw : JsVal)
    (hcode : e.code ≠ .invalidAddress) :
    s.writeWith address (.error e) byteLength mutator notify symbolType
      raw = ⟨.error e, s, []⟩ := by
  unfold PlcStateImpl.writeWith
  dsimp only
  cases symbolType with
  | none => rfl
  | some t =>
    dsimp only
    rw [if_neg (by
      unfold shouldAttemptSymbolFallback
      rw [if_pos (by simp [hcode])]
      simp)]

/-- A parser failure on an address matching the absolute-area pattern is
returned unchanged by `writeWith` (the pattern blocks the fallback). -/
theorem writeWith_abspattern_err (s : PlcStateImpl) (address : String)
    (e : PlcError) (byteLength : Nat)
    (mutator : WordArea → ParsedAddress → Except String WordArea)
    (notify : Bool) (symbolType : Option SclDataType) (raw : JsVal)
    (habs : absAreaPattern
      ((jsTrim address.data).map upperChar) = true) :
    s.writeWith address (.error e) byteLength mutator notify symbolType
      raw = ⟨.error e, s, []⟩ := by
  have hfb : shouldAttemptSymbolFallback address e = false := by
    unfold shouldAttemptSymbolFallback
    by_cases hc : e.code ≠ .invalidAddress
    · rw [if_pos hc]
    · rw [if_neg hc]
      dsimp only
      by_cases ht : jsTrim address.data = []
      · rw [if_pos ht]
      · rw [if_neg ht]
        by_cases hdb : startsDB ((jsTrim address.data).map upperChar) = true
        · rw [if_pos hdb]
        · rw [if_neg hdb]
          rw [if_pos habs]
  unfold PlcStateImpl.writeWith
  dsimp only
  cases symbolType with
  | none => rfl
  | some t =>
    dsimp only
    rw [if_neg (by rw [hfb]; simp)]

/-- C2: a typed write whose target is outside the configured buffer
bounds fails `outOfRange`; one whose byte address violates the alignment
rule is rejected by the parser with `alignmentError` and the write
returns exactly that failure; a malformed bit designator (rejected by
the parser with `invalidAddress` while still matching the absolute-area
shape) makes the bit write return that `invalidAddress` failure.  In
every case the state is unchanged and no event is dispatched. -/
theorem C2_invalid_targets (s : PlcStateImpl)
    (address1 : String) (byteLength : Nat)
    (mutator : WordArea → ParsedAddress → Except String WordArea)
    (notify : Bool) (symbolType : Option SclDataType) (raw : JsVal)
    (desc : ParsedAddress) (area : WordArea)
    (address2 : String) (options2 : ByteAddressParseOptions)
    (d2 : ParsedAddress) (al : Nat) (byteLength2 : Nat)
    (mutator2 : WordArea → ParsedAddress → Except String WordArea)
    (notify2 : Bool) (symbolType2 : Option SclDataType) (raw2 : JsVal)
    (address3 : String) (e3 : PlcError) (b3 : Bool) (notify3 : Bool) :
    (s.resolveArea desc.region = .ok area →
      area.data.length < desc.byteOffset + byteLength →
      resultCode (s.writeWith address1 (.ok desc) byteLength mutator
        notify symbolType raw).result = some .outOfRange ∧
      (s.writeWith address1 (.ok desc) byteLength mutator notify
        symbolType raw).state = s ∧
      (s.writeWith address1 (.ok desc) byteLength mutator notify
        symbolType raw).events = []) ∧
    (parseCore address2 = .ok d2 → d2.notation_ ≠ .BIT →
      notationSizes d2.notation_ = options2.byteLength →
      options2.alignment = some al → al ≠ 0 → d2.byteOffset % al ≠ 0 →
      parseByteAddress address2 options2 =
        .error (createError .alignmentError
          ("Address must be aligned to " ++ toString al ++ " byte(s)")
          address2) ∧
      s.writeWith address2 (parseByteAddress address2 options2)
        byteLength2 mutator2 notify2 symbolType2 raw2 =
        ⟨.error (createError .alignmentError
          ("Address must be aligned to " ++ toString al ++ " byte(s)")
          address2), s, []⟩) ∧
    (parseBitAddress address3 = .error e3 → e3.code = .invalidAddress →
      absAreaPattern ((jsTrim address3.data).map upperChar) = true →
      resultCode (s.writeBoolInternal address3 b3 notify3).result =
        some .invalidAddress ∧
      (s.writeBoolInternal address3 b3 notify3).state = s ∧
      (s.writeBoolInternal address3 b3 notify3).events = []) := by
  refine ⟨?_, ?_, ?_⟩
  · intro hra hoob
    exact writeWith_oob s address1 byteLength mutator notify symbolType
      raw desc area hra hoob
  · intro hp hbit hsz hal h0 hmis
    have hpa := parseByteAddress_misaligned address2 options2 d2 al hp
      hbit hsz hal h0 hmis
    refine ⟨hpa, ?_⟩
    rw [hpa]
    exact writeWith_parser_err s address2 _ byteLength2 mutator2 notify2
      symbolType2 raw2 (by
        show PlcErrorCode.alignmentError ≠ PlcErrorCode.invalidAddress
        decide)
  · intro hp3 hcode3 habs
    have hw := writeWith_abspattern_err s address3 e3 1
      (fun area descriptor =>
        area.writeBit descriptor.byteOffset
          (descriptor.bitOffset.getD 0) b3)
      notify3 (some .BOOL) (.vBool b3) habs
    unfold PlcStateImpl.writeBoolInternal
    rw [hp3, hw]
    refine ⟨?_, rfl, rfl⟩
    show some e3.code = some PlcErrorCode.invalidAddress
    rw [hcode3]

/-- OOB parse result of `MB9`. -/
def c2Desc1 : ParsedAddress :=
  { region := .area .M, byteOffset := 9, notation_ := .BYTE }

/-- Misaligned parse result of `MW1`. -/
def c2Desc2 : ParsedAddress :=
  { region := .area .M, byteOffset := 1, notation_ := .WORD }

/-- Eight-byte flag-only state for the invalid-target writes. -/
def c2S : PlcStateImpl := { flags := some ⟨List.replicate 8 0⟩ }

/-- Witness: a byte write at `MB9` over the eight-byte flag area fails
out-of-range, `MW1` is rejected as misaligned for a two-byte write, and
the bit write `M0.8` fails with `invalidAddress`. -/
theorem C2_invalid_targets_witness :
    resultCode ((c2S.writeWith "MB9" (.ok c2Desc1) 1
      (fun a d => a.writeUInt8 d.byteOffset 1) true (some .BYTE)
      (.vNum 1)).result) = some .outOfRange ∧
    parseByteAddress "MW1" ⟨2, some 2⟩ =
      .error (createError .alignmentError
        ("Address must be aligned to " ++ toString 2 ++ " byte(s)")
        "MW1") ∧
    resultCode ((c2S.writeBoolInternal "M0.8" false true).result) =
      some .invalidAddress := by
  have h := C2_invalid_targets c2S "MB9" 1
    (fun a d => a.writeUInt8 d.byteOffset 1) true (some .BYTE) (.vNum 1)
    c2Desc1 ⟨List.replicate 8 0⟩ "MW1" ⟨2, some 2⟩ c2Desc2 2 2
    (fun a d => a.writeUInt16 d.byteOffset 1) true (some .WORD) (.vNum 1)
    "M0.8"
    (createError .invalidAddress "Bit offset must be between 0 and 7"
      (some "M0.8"))
    false true
  exact ⟨(h.1 rfl (by decide)).1,
    (h.2.1 rfl (by decide) rfl rfl (by decide) (by decide)).1,
    (h.2.2 rfl rfl (by decide)).1⟩

/-! ### Typed round trips (C1) -/

/-- The domain of each scalar type: the values the spec's round-trip
property quantifies over (integers within the type's range, the
representable binary32/64 rationals, single-byte string units). -/
def typeDomain (t : SclDataType) (v : JsVal) : Bool :=
  match t, v with
  | .BOOL, .vBool _ => true
  | .BYTE, .vNum q => q.den = 1 && 0 ≤ q.num && q.num ≤ 255
  | .WORD, .vNum q => q.den = 1 && 0 ≤ q.num && q.num ≤ 65535
  | .DWORD, .vNum q => q.den = 1 && 0 ≤ q.num && q.num ≤ 4294967295
  | .SINT, .vNum q => q.den = 1 && -128 ≤ q.num && q.num ≤ 127
  | .INT, .vNum q => q.den = 1 && -32768 ≤ q.num && q.num ≤ 32767
  | .DINT, .vNum q =>
    q.den = 1 && -2147483648 ≤ q.num && q.num ≤ 2147483647
  | .LINT, .vBig i =>
    -9223372036854775808 ≤ i && i ≤ 9223372036854775807
  | .REAL, .vNum q =>
    decide (f32Enc q < 2 ^ 32) && decide (f32Dec (f32Enc q) = q)
  | .LREAL, .vNum q =>
    decide (f64Enc q < 2 ^ 64) && decide (f64Dec (f64Enc q) = q)
  | .TIME, .vNum q =>
    q.den = 1 && -2147483648 ≤ q.num && q.num ≤ 2147483647
  | .DATE, .vNum q => q.den = 1 && 0 ≤ q.num && q.num ≤ 65535
  | .TOD, .vNum q => q.den = 1 && 0 ≤ q.num && q.num ≤ 4294967295
  | .STRING, .vStr units => units.all (fun u => u < 256)
  | _, _ => false

/-- Truncation of an integral rational is its numerator. -/
theorem jsTrunc_den1 (q : ℚ) (h : q.den = 1) : jsTrunc q = q.num := by
  unfold jsTrunc
  rw [h]
  simp [Int.tdiv_one]

/-- An integral rational equals the cast of its numerator. -/
theorem ratCast_num (q : ℚ) (h : q.den = 1) : ((q.num : ℚ)) = q := by
  apply Rat.ext
  · simp [Rat.num_intCast]
  · simp [Rat.den_intCast, h]

/-- Reading back a freshly stored single byte. -/
theorem listSet_getD (l : List Nat) (off : Nat) (x : Nat)
    (h : off < l.length) : (listSet l off [x]).getD off 0 = x := by
  have hs := listSlice_listSet l [x] off (by simp; omega)
  simp only [List.length_cons, List.length_nil] at hs
  have h1 : List.take 1 (List.drop off (listSet l off [x])) = [x] := hs
  rw [List.getD_eq_getElem?_getD, ← List.head?_drop]
  cases hd : (listSet l off [x]).drop off with
  | nil => rw [hd] at h1; simp at h1
  | cons a rest =>
    rw [hd] at h1
    have h3 : a = x := by simpa using h1
    simp [h3]

/-- Updating a bit stores exactly that bit. -/
theorem setBitVal_testBit (b k : Nat) (v : Bool) :
    (WordArea.setBitVal b k v).testBit k = v := by
  cases v with
  | true =>
    show (b ||| (1 <<< k)).testBit k = true
    rw [Nat.testBit_or]
    have h1 : (1 <<< k).testBit k = true := by
      rw [Nat.shiftLeft_eq, one_mul]
      exact Nat.testBit_two_pow_self
    rw [h1]
    simp
  | false =>
    show (if b.testBit k then b - (1 <<< k) else b).testBit k = false
    by_cases hb : b.testBit k
    · rw [if_pos hb]
      have hge : 2 ^ k ≤ b := Nat.testBit_implies_ge hb
      rw [Nat.shiftLeft_eq, one_mul]
      rw [Nat.testBit_to_div_mod] at hb
      simp only [decide_eq_true_eq] at hb
      rw [Nat.testBit_to_div_mod]
      simp only [decide_eq_false_iff_not]
      have hpow : (0:Nat) < 2 ^ k := Nat.pos_pow_of_pos k (by norm_num)
      have hdiv : (b - 2 ^ k) / 2 ^ k = b / 2 ^ k - 1 := by
        have h2 := Nat.sub_mul_div b (2 ^ k) 1 (by omega)
        simpa using h2
      rw [hdiv]
      omega
    · rw [if_neg hb]
      simp [hb]

/-- A successful integer coercion of an integral rational is the
identity. -/
theorem coerceInteger_ok_id (q : ℚ) (current : JsVal) (lo hi : Int)
    (address ty : String) (hden : q.den = 1)
    (h : coerceInteger (.vNum q) lo hi address ty = .ok current) :
    current = .vNum q := by
  unfold coerceInteger at h
  dsimp only at h
  rw [jsTrunc_den1 q hden] at h
  split at h
  · exact Except.noConfusion h
  · injection h with h1
    rw [← h1, ratCast_num q hden]

/-- A successful scalar coercion of an in-domain value is the identity. -/
theorem coerce_ok_id (t : SclDataType) (v current : JsVal)
    (sl : Option Nat) (address : String)
    (hdom : typeDomain t v = true)
    (h : coerceScalarValue t v sl address = .ok current) : current = v := by
  cases t with
  | BOOL =>
    cases v with
    | vBool b =>
      injection h with h1
      exact h1.symm
    | vNum q => simp [typeDomain] at hdom
    | vBig i => simp [typeDomain] at hdom
    | vStr u => simp [typeDomain] at hdom
    | vUndef => simp [typeDomain] at hdom
  | BYTE =>
    cases v with
    | vNum q =>
      simp [typeDomain] at hdom
      exact coerceInteger_ok_id q current 0 255 address "BYTE" hdom.1.1 h
    | vBool b => simp [typeDomain] at hdom
    | vBig i => simp [typeDomain] at hdom
    | vStr u => simp [typeDomain] at hdom
    | vUndef => simp [typeDomain] at hdom
  | WORD =>
    cases v with
    | vNum q =>
      simp [typeDomain] at hdom
      exact coerceInteger_ok_id q current 0 65535 address "WORD" hdom.1.1 h
    | vBool b => simp [typeDomain] at hdom
    | vBig i => simp [typeDomain] at hdom
    | vStr u => simp [typeDomain] at hdom
    | vUndef => simp [typeDomain] at hdom
  | DWORD =>
    cases v with
    | vNum q =>
      simp [typeDomain] at hdom
      exact coerceInteger_ok_id q current 0 4294967295 address "DWORD"
        hdom.1.1 h
    | vBool b => simp [typeDomain] at hdom
    | vBig i => simp [typeDomain] at hdom
    | vStr u => simp [typeDomain] at hdom
    | vUndef => simp [typeDomain] at hdom
  | SINT =>
    cases v with
    | vNum q =>
      simp [typeDomain] at hdom
      exact coerceInteger_ok_id q current (-128) 127 address "SINT"
        hdom.1.1 h
    | vBool b => simp [typeDomain] at hdom
    | vBig i => simp [typeDomain] at hdom
    | vStr u => simp [typeDomain] at hdom
    | vUndef => simp [typeDomain] at hdom
  | INT =>
    cases v with
    | vNum q =>
      simp [typeDomain] at hdom
      exact coerceInteger_ok_id q current (-32768) 32767 address "INT"
        hdom.1.1 h
    | vBool b => simp [typeDomain] at hdom
    | vBig i => simp [typeDomain] at hdom
    | vStr u => simp [typeDomain] at hdom
    | vUndef => simp [typeDomain] at hdom
  | DINT =>
    cases v with
    | vNum q =>
      simp [typeDomain] at hdom
      exact coerceInteger_ok_id q current (-2147483648) 2147483647
        address "DINT" hdom.1.1 h
    | vBool b => simp [typeDomain] at hdom
    | vBig i => simp [typeDomain] at hdom
    | vStr u => simp [typeDomain] at hdom
    | vUndef => simp [typeDomain] at hdom
  | LINT =>
    cases v with
    | vBig i =>
      injection h with h1
      exact h1.symm
    | vBool b => simp [typeDomain] at hdom
    | vNum q => simp [typeDomain] at hdom
    | vStr u => simp [typeDomain] at hdom
    | vUndef => simp [typeDomain] at hdom
  | REAL =>
    cases v with
    | vNum q =>
      injection h with h1
      exact h1.symm
    | vBool b => simp [typeDomain] at hdom
    | vBig i => simp [typeDomain] at hdom
    | vStr u => simp [typeDomain] at hdom
    | vUndef => simp [typeDomain] at hdom
  | LREAL =>
    cases v with
    | vNum q =>
      injection h with h1
      exact h1.symm
    | vBool b => simp [typeDomain] at hdom
    | vBig i => simp [typeDomain] at hdom
    | vStr u => simp [typeDomain] at hdom
    | vUndef => simp [typeDomain] at hdom
  | TIME =>
    cases v with
    | vNum q =>
      simp [typeDomain] at hdom
      exact coerceInteger_ok_id q current 0 4294967295 address "TIME"
        hdom.1.1 h
    | vBool b => simp [typeDomain] at hdom
    | vBig i => simp [typeDomain] at hdom
    | vStr u => simp [typeDomain] at hdom
    | vUndef => simp [typeDomain] at hdom
  | DATE =>
    cases v with
    | vNum q =>
      simp [typeDomain] at hdom
      exact coerceInteger_ok_id q current 0 65535 address "DATE" hdom.1.1 h
    | vBool b => simp [typeDomain] at hdom
    | vBig i => simp [typeDomain] at hdom
    | vStr u => simp [typeDomain] at hdom
    | vUndef => simp [typeDomain] at hdom
  | TOD =>
    cases v with
    | vNum q =>
      simp [typeDomain] at hdom
      exact coerceInteger_ok_id q current 0 4294967295 address "TOD"
        hdom.1.1 h
    | vBool b => simp [typeDomain] at hdom
    | vBig i => simp [typeDomain] at hdom
    | vStr u => simp [typeDomain] at hdom
    | vUndef => simp [typeDomain] at hdom
  | STRING =>
    cases v with
    | vStr u =>
      unfold coerceScalarValue at h
      cases sl with
      | none => exact Except.noConfusion h
      | some len =>
        dsimp only at h
        split at h
        · exact Except.noConfusion h
        · injection h with h1
          exact h1.symm
    | vBool b => simp [typeDomain] at hdom
    | vNum q => simp [typeDomain] at hdom
    | vBig i => simp [typeDomain] at hdom
    | vUndef => simp [typeDomain] at hdom

/-- Round trip through the absolute-area leg of `writeWith`/`readWith`:
if the write succeeded and the reader recovers `expect` from whatever
the mutator installed, the read returns `expect`. -/
theorem writeWith_ok_roundtrip_area (s : PlcStateImpl) (address : String)
    (desc : ParsedAddress) (byteLength : Nat)
    (mutator : WordArea → ParsedAddress → Except String WordArea)
    (reader : WordArea → ParsedAddress → Except String JsVal)
    (st st2 : Option SclDataType) (raw expect : JsVal)
    (hok : (s.writeWith address (.ok desc) byteLength mutator true st
      raw).result = .ok ())
    (hrd : ∀ area area', s.resolveArea desc.region = .ok area →
      mutator area desc = .ok area' → reader area' desc = .ok expect) :
    ((s.writeWith address (.ok desc) byteLength mutator true st
      raw).state).readWith address (.ok desc) reader st2 = .ok expect := by
  unfold PlcStateImpl.writeWith at hok ⊢
  dsimp only at hok ⊢
  cases hra : s.resolveArea desc.region with
  | error e => simp only [hra] at hok; exact Except.noConfusion hok
  | ok area =>
    simp only [hra] at hok ⊢
    cases hrb : area.readBytes desc.byteOffset byteLength with
    | error msg => simp only [hrb] at hok; exact Except.noConfusion hok
    | ok before =>
      simp only [hrb] at hok ⊢
      cases hm : mutator area desc with
      | error msg => simp only [hm] at hok; exact Except.noConfusion hok
      | ok area' =>
        simp only [hm] at hok ⊢
        cases hrb2 : area'.readBytes desc.byteOffset byteLength with
        | error msg => simp only [hrb2] at hok; exact Except.noConfusion hok
        | ok after =>
          simp only [hrb2] at hok ⊢
          simp only [apply_ite WriteOutcome.state, ite_self]
          unfold PlcStateImpl.readWith
          dsimp only
          simp only [resolveArea_updateArea s desc.region area area' hra]
          simp only [hrd area area' hra hm]

/-- Round trip through the symbol-fallback leg: a successful symbol
write of an identity-coerced value reads back the written value. -/
theorem writeWith_ok_roundtrip_sym (s : PlcStateImpl) (address : String)
    (e : PlcError) (byteLength : Nat)
    (mutator : WordArea → ParsedAddress → Except String WordArea)
    (reader : WordArea → ParsedAddress → Except String JsVal)
    (st : SclDataType) (raw : JsVal)
    (hok : (s.writeWith address (.error e) byteLength mutator true
      (some st) raw).result = .ok ())
    (hid : ∀ desc current, s.optimizedDb.describe address st = .ok desc →
      coerceScalarValue desc.dataType raw desc.stringLength address =
        .ok current → current = raw) :
    ((s.writeWith address (.error e) byteLength mutator true (some st)
      raw).state).readWith address (.error e) reader (some st) =
      .ok raw := by
  unfold PlcStateImpl.writeWith at hok ⊢
  dsimp only at hok ⊢
  by_cases hfb : shouldAttemptSymbolFallback address e = true
  · rw [if_pos hfb] at hok ⊢
    unfold PlcStateImpl.readWith
    dsimp only
    rw [if_pos hfb]
    unfold PlcStateImpl.writeSymbol at hok ⊢
    cases hw : s.optimizedDb.write address st raw with
    | error e2 => simp only [hw] at hok; exact Except.noConfusion hok
    | ok pair =>
      obtain ⟨r, db'⟩ := pair
      simp only [hw] at hok ⊢
      simp only [apply_ite WriteOutcome.state, ite_self]
      unfold PlcStateImpl.readSymbol
      rw [store_write_read _ _ _ _ _ _ hw]
      have hrc : r.current = raw := by
        unfold OptimizedDbStore.write at hw
        cases hd : s.optimizedDb.describe address st with
        | error e3 => simp only [hd] at hw; exact Except.noConfusion hw
        | ok desc =>
          simp only [hd] at hw
          cases hco : coerceScalarValue desc.dataType raw
              desc.stringLength address with
          | error e3 => simp only [hco] at hw; exact Except.noConfusion hw
          | ok current =>
            simp only [hco] at hw
            injection hw with hw1
            injection hw1 with hw2 hw3
            rw [← hw2]
            exact hid desc current hd hco
      rw [hrc]
  · rw [if_neg hfb] at hok
    exact Except.noConfusion hok

/-- Inversion of a successful `writeUInt16`. -/
theorem writeUInt16_ok_inv (a : WordArea) (off : Nat) (v : Int)
    (a' : WordArea) (h : a.writeUInt16 off v = .ok a') :
    a' = ⟨listSet a.data off (encInt 2 v)⟩ ∧ off % 2 = 0 ∧
      off + 2 ≤ a.data.length := by
  unfold WordArea.writeUInt16 WordArea.assertAlignment WordArea.assertRange at h
  by_cases h1 : off % 2 ≠ 0
  · rw [if_pos h1] at h
    exact Except.noConfusion h
  · rw [if_neg h1] at h
    by_cases h2 : off + 2 ≤ a.data.length
    · rw [if_pos h2] at h
      injection h with h3
      exact ⟨h3.symm, not_ne_iff.mp h1, h2⟩
    · rw [if_neg h2] at h
      exact Except.noConfusion h

/-- Evaluation of a bounds- and alignment-satisfying `readUInt16`. -/
theorem readUInt16_of (a : WordArea) (off : Nat)
    (h1 : off % 2 = 0) (h2 : off + 2 ≤ a.data.length) :
    a.readUInt16 off = .ok (leVal (listSlice a.data off 2)) := by
  unfold WordArea.readUInt16 WordArea.assertAlignment WordArea.assertRange
  rw [if_neg (by simp [h1]), if_pos h2]
  rfl

/-- Inversion of a successful `writeUInt32`. -/
theorem writeUInt32_ok_inv (a : WordArea) (off : Nat) (v : Int)
    (a' : WordArea) (h : a.writeUInt32 off v = .ok a') :
    a' = ⟨listSet a.data off (encInt 4 v)⟩ ∧ off % 4 = 0 ∧
      off + 4 ≤ a.data.length := by
  unfold WordArea.writeUInt32 WordArea.assertAlignment WordArea.assertRange at h
  by_cases h1 : off % 4 ≠ 0
  · rw [if_pos h1] at h
    exact Except.noConfusion h
  · rw [if_neg h1] at h
    by_cases h2 : off + 4 ≤ a.data.length
    · rw [if_pos h2] at h
      injection h with h3
      exact ⟨h3.symm, not_ne_iff.mp h1, h2⟩
    · rw [if_neg h2] at h
      exact Except.noConfusion h

/-- Evaluation of a bounds- and alignment-satisfying `readUInt32`. -/
theorem readUInt32_of (a : WordArea) (off : Nat)
    (h1 : off % 4 = 0) (h2 : off + 4 ≤ a.data.length) :
    a.readUInt32 off = .ok (leVal (listSlice a.data off 4)) := by
  unfold WordArea.readUInt32 WordArea.assertAlignment WordArea.assertRange
  rw [if_neg (by simp [h1]), if_pos h2]
  rfl

/-- Inversion of a successful `writeBigInt64`. -/
theorem writeBigInt64_ok_inv (a : WordArea) (off : Nat) (v : Int)
    (a' : WordArea) (h : a.writeBigInt64 off v = .ok a') :
    a' = ⟨listSet a.data off (encInt 8 v)⟩ ∧ off % 8 = 0 ∧
      off + 8 ≤ a.data.length := by
  unfold WordArea.writeBigInt64 WordArea.assertAlignment WordArea.assertRange at h
  by_cases h1 : off % 8 ≠ 0
  · rw [if_pos h1] at h
    exact Except.noConfusion h
  · rw [if_neg h1] at h
    by_cases h2 : off + 8 ≤ a.data.length
    · rw [if_pos h2] at h
      injection h with h3
      exact ⟨h3.symm, not_ne_iff.mp h1, h2⟩
    · rw [if_neg h2] at h
      exact Except.noConfusion h

/-- Evaluation of a bounds- and alignment-satisfying `readBigInt64`. -/
theorem readBigInt64_of (a : WordArea) (off : Nat)
    (h1 : off % 8 = 0) (h2 : off + 8 ≤ a.data.length) :
    a.readBigInt64 off = .ok (toSigned 8 (leVal (listSlice a.data off 8))) := by
  unfold WordArea.readBigInt64 WordArea.assertAlignment WordArea.assertRange
  rw [if_neg (by simp [h1]), if_pos h2]
  rfl

/-- Evaluation of a bounds- and alignment-satisfying `readInt16`. -/
theorem readInt16_of (a : WordArea) (off : Nat)
    (h1 : off % 2 = 0) (h2 : off + 2 ≤ a.data.length) :
    a.readInt16 off = .ok (toSigned 2 (leVal (listSlice a.data off 2))) := by
  unfold WordArea.readInt16 WordArea.assertAlignment WordArea.assertRange
  rw [if_neg (by simp [h1]), if_pos h2]
  rfl

/-- Evaluation of a bounds- and alignment-satisfying `readInt32`. -/
theorem readInt32_of (a : WordArea) (off : Nat)
    (h1 : off % 4 = 0) (h2 : off + 4 ≤ a.data.length) :
    a.readInt32 off = .ok (toSigned 4 (leVal (listSlice a.data off 4))) := by
  unfold WordArea.readInt32 WordArea.assertAlignment WordArea.assertRange
  rw [if_neg (by simp [h1]), if_pos h2]
  rfl

/-- Inversion of a successful `writeFloat32`. -/
theorem writeFloat32_ok_inv (a : WordArea) (off : Nat) (q : ℚ)
    (a' : WordArea) (h : a.writeFloat32 off q = .ok a') :
    a' = ⟨listSet a.data off (leBytes 4 (f32Enc q))⟩ ∧ off % 4 = 0 ∧
      off + 4 ≤ a.data.length := by
  unfold WordArea.writeFloat32 WordArea.assertAlignment WordArea.assertRange at h
  by_cases h1 : off % 4 ≠ 0
  · rw [if_pos h1] at h
    exact Except.noConfusion h
  · rw [if_neg h1] at h
    by_cases h2 : off + 4 ≤ a.data.length
    · rw [if_pos h2] at h
      injection h with h3
      exact ⟨h3.symm, not_ne_iff.mp h1, h2⟩
    · rw [if_neg h2] at h
      exact Except.noConfusion h

/-- Evaluation of a bounds- and alignment-satisfying `readFloat32`. -/
theorem readFloat32_of (a : WordArea) (off : Nat)
    (h1 : off % 4 = 0) (h2 : off + 4 ≤ a.data.length) :
    a.readFloat32 off = .ok (f32Dec (leVal (listSlice a.data off 4))) := by
  unfold WordArea.readFloat32 WordArea.assertAlignment WordArea.assertRange
  rw [if_neg (by simp [h1]), if_pos h2]
  rfl

/-- Inversion of a successful `writeFloat64`. -/
theorem writeFloat64_ok_inv (a : WordArea) (off : Nat) (q : ℚ)
    (a' : WordArea) (h : a.writeFloat64 off q = .ok a') :
    a' = ⟨listSet a.data off (leBytes 8 (f64Enc q))⟩ ∧ off % 8 = 0 ∧
      off + 8 ≤ a.data.length := by
  unfold WordArea.writeFloat64 WordArea.assertAlignment WordArea.assertRange at h
  by_cases h1 : off % 8 ≠ 0
  · rw [if_pos h1] at h
    exact Except.noConfusion h
  · rw [if_neg h1] at h
    by_cases h2 : off + 8 ≤ a.data.length
    · rw [if_pos h2] at h
      injection h with h3
      exact ⟨h3.symm, not_ne_iff.mp h1, h2⟩
    · rw [if_neg h2] at h
      exact Except.noConfusion h

/-- Evaluation of a bounds- and alignment-satisfying `readFloat64`. -/
theorem readFloat64_of (a : WordArea) (off : Nat)
    (h1 : off % 8 = 0) (h2 : off + 8 ≤ a.data.length) :
    a.readFloat64 off = .ok (f64Dec (leVal (listSlice a.data off 8))) := by
  unfold WordArea.readFloat64 WordArea.assertAlignment WordArea.assertRange
  rw [if_neg (by simp [h1]), if_pos h2]
  rfl

/-- Inversion of a successful `writeUInt8`. -/
theorem writeUInt8_ok_inv (a : WordArea) (off : Nat) (v : Int)
    (a' : WordArea) (h : a.writeUInt8 off v = .ok a') :
    a' = ⟨listSet a.data off [(v.emod 256).toNat]⟩ ∧
      off + 1 ≤ a.data.length := by
  unfold WordArea.writeUInt8 WordArea.assertRange at h
  by_cases h2 : off + 1 ≤ a.data.length
  · rw [if_pos h2] at h
    injection h with h3
    exact ⟨h3.symm, h2⟩
  · rw [if_neg h2] at h
    exact Except.noConfusion h

/-- Evaluation of an in-bounds `readUInt8`. -/
theorem readUInt8_of (a : WordArea) (off : Nat)
    (h2 : off + 1 ≤ a.data.length) :
    a.readUInt8 off = .ok (a.data.getD off 0) := by
  unfold WordArea.readUInt8 WordArea.assertRange
  rw [if_pos h2]
  rfl

/-- Evaluation of an in-bounds `readInt8`. -/
theorem readInt8_of (a : WordArea) (off : Nat)
    (h2 : off + 1 ≤ a.data.length) :
    a.readInt8 off = .ok (toSigned 1 (a.data.getD off 0)) := by
  unfold WordArea.readInt8 WordArea.readUInt8 WordArea.assertRange
  rw [if_pos h2]
  rfl

/-- Inversion of a successful `writeBit`. -/
theorem writeBit_ok_inv (a : WordArea) (off bit : Nat) (b : Bool)
    (a' : WordArea) (h : a.writeBit off bit b = .ok a') :
    a' = ⟨listSet a.data off
        [WordArea.setBitVal (a.data.getD off 0) bit b]⟩ ∧
      bit ≤ 7 ∧ off + 1 ≤ a.data.length := by
  unfold WordArea.writeBit WordArea.assertBitRange WordArea.assertRange
    at h
  by_cases h1 : 7 < bit
  · rw [if_pos h1] at h
    exact Except.noConfusion h
  · rw [if_neg h1] at h
    by_cases h2 : off + 1 ≤ a.data.length
    · rw [if_pos h2] at h
      injection h with h3
      exact ⟨h3.symm, by omega, h2⟩
    · rw [if_neg h2] at h
      exact Except.noConfusion h

/-- Evaluation of an in-bounds `readBit`. -/
theorem readBit_of (a : WordArea) (off bit : Nat)
    (h1 : bit ≤ 7) (h2 : off + 1 ≤ a.data.length) :
    a.readBit off bit = .ok ((a.data.getD off 0).testBit bit) := by
  unfold WordArea.readBit WordArea.assertBitRange WordArea.assertRange
  rw [if_neg (by omega), if_pos h2]
  rfl

/-- A successful default-options STRING write reads back exactly the
written units (both facade legs). -/
theorem string_roundtrip (s : PlcStateImpl) (address : String)
    (units : List Nat)
    (hbytes : ∀ u ∈ units, u < 256)
    (hok : (s.writeString address (.vStr units) ⟨none, false⟩).result =
      .ok ()) :
    ((s.writeString address (.vStr units) ⟨none, false⟩).state.readString
      address ⟨none⟩) = .ok units := by
  unfold PlcStateImpl.writeString at hok ⊢
  dsimp only at hok ⊢
  cases hia : inspectAddress address with
  | ok descriptor =>
    simp only [hia] at hok ⊢
    unfold PlcStateImpl.writeStringInternal at hok ⊢
    dsimp only at hok ⊢
    by_cases hbit : descriptor.bitOffset.getD 0 ≠ 0
    · rw [if_pos hbit] at hok
      exact Except.noConfusion hok
    rw [if_neg hbit] at hok ⊢
    cases hra : s.resolveArea descriptor.region with
    | error e => simp only [hra] at hok; exact Except.noConfusion hok
    | ok area =>
      simp only [hra] at hok ⊢
      have hbl : area.byteLength = area.data.length := rfl
      by_cases hroom : area.byteLength < descriptor.byteOffset + 2
      · rw [if_pos hroom] at hok
        exact Except.noConfusion hok
      rw [if_neg hroom] at hok ⊢
      have hPBle : min (area.byteLength - descriptor.byteOffset - 2)
          (min ((none : Option Nat).getD 254) 254) ≤
          area.byteLength - descriptor.byteOffset - 2 := min_le_left _ _
      rw [readBytes_of_le area _ _ (by omega)] at hok ⊢
      dsimp only at hok ⊢
      set PB := min (area.byteLength - descriptor.byteOffset - 2)
        (min ((none : Option Nat).getD 254) 254) with hPB
      set BEF := listSlice area.data descriptor.byteOffset (2 + PB)
        with hBEF
      set EM := min (jsOrElse (jsOrElse (BEF.getD 0 0) PB) PB) PB with hEM
      by_cases hcap : EM < units.length
      · rw [if_pos (by simp [hcap])] at hok
        exact Except.noConfusion hok
      rw [if_neg (by simp [hcap])] at hok ⊢
      simp only [if_neg hcap] at hok ⊢
      have hEMle : EM ≤ PB := min_le_right _ _
      have htakeE : (List.take units.length units).length =
          units.length := by
        rw [List.length_take]
        omega
      have hAlen : (EM :: units.length :: (List.map (fun u => u % 256)
          (List.take units.length units) ++
          List.replicate (PB - units.length) 0)).length = 2 + PB := by
        simp only [List.length_cons, List.length_append, List.length_map,
          List.length_replicate, htakeE]
        omega
      rw [writeBytes_of_le area _ _ (by rw [hAlen]; omega)] at hok ⊢
      dsimp only at hok ⊢
      simp only [apply_ite WriteOutcome.state, ite_self]
      unfold PlcStateImpl.readString
      simp only [hia]
      rw [if_neg hbit]
      rw [resolveArea_updateArea s descriptor.region area _ hra]
      dsimp only
      have hA2len : (WordArea.mk (listSet area.data descriptor.byteOffset
          (EM :: units.length :: (List.map (fun u => u % 256)
            (List.take units.length units) ++
            List.replicate (PB - units.length) 0)))).byteLength =
          area.data.length := by
        show (listSet area.data descriptor.byteOffset _).length =
          area.data.length
        exact listSet_length _ _ _ (by rw [hAlen]; omega)
      rw [if_neg (by rw [hA2len]; omega)]
      rw [readBytes_of_le _ _ _ (by
        show descriptor.byteOffset + 2 ≤
          (listSet area.data descriptor.byteOffset _).length
        rw [listSet_length _ _ _ (by rw [hAlen]; omega)]
        omega)]
      dsimp only
      have hhead : listSlice (listSet area.data descriptor.byteOffset
          (EM :: units.length :: (List.map (fun u => u % 256)
            (List.take units.length units) ++
            List.replicate (PB - units.length) 0)))
          descriptor.byteOffset 2 = [EM, units.length] := by
        have h0 := listSlice_listSet_mid area.data
          (EM :: units.length :: (List.map (fun u => u % 256)
            (List.take units.length units) ++
            List.replicate (PB - units.length) 0))
          descriptor.byteOffset 0 2
          (by rw [hAlen]; omega) (by rw [hAlen]; omega)
        rw [Nat.add_zero, List.drop_zero] at h0
        rw [h0]
        rfl
      rw [hhead]
      simp only [List.getD_cons_zero, List.getD_cons_succ,
        Option.getD_none, Nat.min_self]
      by_cases hEM0 : EM = 0
      · have hu0 : units.length = 0 := by omega
        rw [if_neg (by omega)]
        rw [readBytes_of_le _ _ _ (by
          show descriptor.byteOffset + 2 + units.length ≤
            (listSet area.data descriptor.byteOffset _).length
          rw [listSet_length _ _ _ (by rw [hAlen]; omega)]
          omega)]
        dsimp only
        rw [hu0]
        have hun : units = [] := List.eq_nil_of_length_eq_zero hu0
        rw [hun]
        simp [listSlice]
      · have hjs : jsOrElse EM 254 = EM := by
          unfold jsOrElse
          rw [if_neg hEM0]
        rw [hjs]
        have hPB254 : PB ≤ 254 :=
          le_trans (min_le_right _ _) (min_le_right _ _)
        rw [if_neg (by rw [hA2len]; omega)]
        rw [readBytes_of_le _ _ _ (by
          show descriptor.byteOffset + 2 + units.length ≤
            (listSet area.data descriptor.byteOffset _).length
          rw [listSet_length _ _ _ (by rw [hAlen]; omega)]
          omega)]
        dsimp only
        have hmid := listSlice_listSet_mid area.data
          (EM :: units.length :: (List.map (fun u => u % 256)
            (List.take units.length units) ++
            List.replicate (PB - units.length) 0))
          descriptor.byteOffset 2 units.length
          (by rw [hAlen]; omega) (by rw [hAlen]; omega)
        rw [hmid]
        have hdrop2 : (EM :: units.length :: (List.map (fun u => u % 256)
            (List.take units.length units) ++
            List.replicate (PB - units.length) 0)).drop 2 =
            List.map (fun u => u % 256) (List.take units.length units) ++
              List.replicate (PB - units.length) 0 := rfl
        rw [hdrop2]
        rw [List.take_append_of_le_length (by
          rw [List.length_map, htakeE])]
        rw [List.take_of_length_le (by rw [List.length_map, htakeE])]
        rw [List.take_length]
        rw [map_mod_id _ hbytes]
  | error e =>
    simp only [hia] at hok ⊢
    by_cases hfb : shouldAttemptSymbolFallback address e = true
    · rw [if_pos hfb] at hok ⊢
      unfold PlcStateImpl.writeStringSymbol at hok ⊢
      cases hr : s.optimizedDb.read address .STRING with
      | error e2 => simp only [hr] at hok; exact Except.noConfusion hok
      | ok metadata =>
        simp only [hr] at hok ⊢
        dsimp only at hok ⊢
        by_cases hcap2 : min (metadata.descriptor.stringLength.getD 254)
            ((Option.map (fun m => m ⊔ 0) (none : Option Nat)).getD
              (metadata.descriptor.stringLength.getD 254)) ⊓ 254 <
            units.length
        · rw [if_pos (by
            simp only [Bool.not_false, Bool.and_true, decide_eq_true_eq]
            exact hcap2)] at hok
          exact Except.noConfusion hok
        · rw [if_neg (by
            simp only [Bool.not_false, Bool.and_true, decide_eq_true_eq]
            exact hcap2)] at hok ⊢
          rw [if_neg hcap2] at hok ⊢
          unfold PlcStateImpl.writeSymbol at hok ⊢
          cases hw : s.optimizedDb.write address .STRING
              (.vStr units) with
          | error e3 =>
            simp only [hw] at hok
            exact Except.noConfusion hok
          | ok pair =>
            obtain ⟨r, db'⟩ := pair
            simp only [hw] at hok ⊢
            simp only [apply_ite WriteOutcome.state, ite_self]
            unfold PlcStateImpl.readString
            simp only [hia]
            rw [if_pos hfb]
            rw [store_write_read _ _ _ _ _ _ hw]
            dsimp only
            have hrc : r.current = .vStr units := by
              unfold OptimizedDbStore.write at hw
              cases hd : s.optimizedDb.describe address .STRING with
              | error e4 =>
                simp only [hd] at hw
                exact Except.noConfusion hw
              | ok desc =>
                simp only [hd] at hw
                cases hco : coerceScalarValue desc.dataType (.vStr units)
                    desc.stringLength address with
                | error e4 =>
                  simp only [hco] at hw
                  exact Except.noConfusion hw
                | ok current =>
                  simp only [hco] at hw
                  injection hw with hw1
                  injection hw1 with hw2 hw3
                  rw [← hw2]
                  have hdt := describe_ok_type _ _ _ _ hd
                  rw [hdt] at hco
                  exact coerce_ok_id .STRING (.vStr units) current
                    desc.stringLength address
                    (by
                      show units.all (fun u => u < 256) = true
                      rw [List.all_eq_true]
                      intro u hu
                      exact decide_eq_true (hbytes u hu)) hco
            rw [hrc]
    · rw [if_neg hfb] at hok
      exact Except.noConfusion hok

/-- The freshly overwritten window of a `listSet` store. -/
theorem slice_after_listSet (area area' : WordArea) (off w : Nat)
    (bytes : List Nat) (hblen : bytes.length = w)
    (ha' : area' = ⟨listSet area.data off bytes⟩)
    (hrange : off + w ≤ area.data.length) :
    listSlice area'.data off w = bytes ∧
      area'.data.length = area.data.length := by
  constructor
  · rw [ha']
    have h1 := listSlice_listSet area.data bytes off
      (by rw [hblen]; omega)
    rw [hblen] at h1
    exact h1
  · rw [ha']
    exact listSet_length _ _ _ (by rw [hblen]; omega)

/-- Cast form of the unsigned little-endian round trip. -/
theorem leVal_encInt_cast (w : Nat) (i : Int) (h0 : 0 ≤ i)
    (hlt : i < 2 ^ (8 * w)) :
    ((leVal (encInt w i) : ℕ) : ℚ) = (i : ℚ) := by
  have h1 := leVal_encInt_of_nonneg w i h0 hlt
  exact_mod_cast congrArg (fun z : ℤ => (z : ℚ)) h1

/-- Cast of `Int.toNat` of a nonnegative integer into the rationals. -/
theorem toNat_cast_rat (i : Int) (h0 : 0 ≤ i) :
    ((i.toNat : ℕ) : ℚ) = (i : ℚ) := by
  have h2 : ((i.toNat : ℕ) : ℚ) = ((i.toNat : ℤ) : ℚ) := by
    push_cast
    ring
  rw [h2, Int.toNat_of_nonneg h0]

/-- BOOL read-back: a written bit is read as written. -/
theorem bool_readback (desc : ParsedAddress) (b : Bool)
    (area area' : WordArea)
    (hm : area.writeBit desc.byteOffset (desc.bitOffset.getD 0) b =
      .ok area') :
    (area'.readBit desc.byteOffset (desc.bitOffset.getD 0)).map
      JsVal.vBool = .ok (.vBool b) := by
  obtain ⟨ha', hbit7, hrange⟩ := writeBit_ok_inv _ _ _ _ _ hm
  have hlen : area'.data.length = area.data.length := by
    rw [ha']
    exact listSet_length _ _ _ (by simp; omega)
  rw [readBit_of area' _ _ hbit7 (by omega)]
  dsimp only [Except.map]
  have hgd : area'.data.getD desc.byteOffset 0 =
      WordArea.setBitVal (area.data.getD desc.byteOffset 0)
        (desc.bitOffset.getD 0) b := by
    rw [ha']
    exact listSet_getD _ _ _ (by omega)
  rw [hgd, setBitVal_testBit]

/-- BYTE read-back. -/
theorem byte_readback (desc : ParsedAddress) (q : ℚ)
    (hden : q.den = 1) (h0 : 0 ≤ q.num) (hhi : q.num ≤ 255)
    (area area' : WordArea)
    (hm : area.writeUInt8 desc.byteOffset q.num = .ok area') :
    (area'.readUInt8 desc.byteOffset).map (fun n => JsVal.vNum (n : ℚ)) =
      .ok (.vNum q) := by
  obtain ⟨ha', hrange⟩ := writeUInt8_ok_inv _ _ _ _ hm
  have hlen : area'.data.length = area.data.length := by
    rw [ha']
    exact listSet_length _ _ _ (by simp; omega)
  rw [readUInt8_of area' _ (by omega)]
  have hgd : area'.data.getD desc.byteOffset 0 =
      (q.num.emod 256).toNat := by
    rw [ha']
    exact listSet_getD _ _ _ (by omega)
  rw [hgd]
  show Except.ok (JsVal.vNum (((q.num.emod 256).toNat : ℕ) : ℚ)) =
    Except.ok (JsVal.vNum q)
  have hemod : q.num.emod 256 = q.num := Int.emod_eq_of_lt h0 (by omega)
  rw [hemod, toNat_cast_rat _ h0, ratCast_num q hden]

/-- SINT read-back. -/
theorem sint_readback (desc : ParsedAddress) (q : ℚ)
    (hden : q.den = 1) (hlo : -128 ≤ q.num) (hhi : q.num ≤ 127)
    (area area' : WordArea)
    (hm : area.writeInt8 desc.byteOffset q.num = .ok area') :
    (area'.readInt8 desc.byteOffset).map (fun i => JsVal.vNum (i : ℚ)) =
      .ok (.vNum q) := by
  obtain ⟨ha', hrange⟩ := writeUInt8_ok_inv _ _ _ _ hm
  have hlen : area'.data.length = area.data.length := by
    rw [ha']
    exact listSet_length _ _ _ (by simp; omega)
  rw [readInt8_of area' _ (by omega)]
  have hgd : area'.data.getD desc.byteOffset 0 =
      (q.num.emod 256).toNat := by
    rw [ha']
    exact listSet_getD _ _ _ (by omega)
  rw [hgd]
  show Except.ok (JsVal.vNum
      ((toSigned 1 ((q.num.emod 256).toNat) : ℤ) : ℚ)) =
    Except.ok (JsVal.vNum q)
  have hlv : leVal (encInt 1 q.num) = (q.num.emod 256).toNat := by
    show leVal (leBytes 1 ((q.num.emod (2 ^ (8 * 1))).toNat)) =
      (q.num.emod 256).toNat
    rw [leVal_leBytes]
    have h2 : (0:ℤ) ≤ q.num.emod (2 ^ (8 * 1)) :=
      Int.emod_nonneg _ (by norm_num)
    have h1 : q.num.emod (2 ^ (8 * 1)) < 2 ^ (8 * 1) :=
      Int.emod_lt_of_pos _ (by norm_num)
    have h3 : (q.num.emod (2 ^ (8 * 1))).toNat < 2 ^ (8 * 1) := by
      omega
    rw [Nat.mod_eq_of_lt h3]
    norm_num
  have hts := toSigned_encInt 1 (by norm_num) q.num
    (by norm_num; omega) (by norm_num; omega)
  rw [hlv] at hts
  rw [hts, ratCast_num q hden]

/-- WORD-shaped (16-bit unsigned) read-back. -/
theorem word_readback (desc : ParsedAddress) (q : ℚ)
    (hden : q.den = 1) (h0 : 0 ≤ q.num) (hhi : q.num ≤ 65535)
    (area area' : WordArea)
    (hm : area.writeUInt16 desc.byteOffset q.num = .ok area') :
    (area'.readUInt16 desc.byteOffset).map (fun n => JsVal.vNum (n : ℚ)) =
      .ok (.vNum q) := by
  obtain ⟨ha', hal, hrange⟩ := writeUInt16_ok_inv _ _ _ _ hm
  obtain ⟨hslice, hlen⟩ := slice_after_listSet area area' desc.byteOffset
    2 (encInt 2 q.num) (leBytes_length _ _) ha' hrange
  rw [readUInt16_of area' _ hal (by omega), hslice]
  show Except.ok (JsVal.vNum ((leVal (encInt 2 q.num) : ℕ) : ℚ)) =
    Except.ok (JsVal.vNum q)
  rw [leVal_encInt_cast 2 q.num h0 (by norm_num; omega),
    ratCast_num q hden]

/-- INT-shaped (16-bit signed) read-back. -/
theorem int_readback (desc : ParsedAddress) (q : ℚ)
    (hden : q.den = 1) (hlo : -32768 ≤ q.num) (hhi : q.num ≤ 32767)
    (area area' : WordArea)
    (hm : area.writeInt16 desc.byteOffset q.num = .ok area') :
    (area'.readInt16 desc.byteOffset).map (fun i => JsVal.vNum (i : ℚ)) =
      .ok (.vNum q) := by
  obtain ⟨ha', hal, hrange⟩ := writeUInt16_ok_inv _ _ _ _ hm
  obtain ⟨hslice, hlen⟩ := slice_after_listSet area area' desc.byteOffset
    2 (encInt 2 q.num) (leBytes_length _ _) ha' hrange
  rw [readInt16_of area' _ hal (by omega), hslice]
  show Except.ok (JsVal.vNum
      ((toSigned 2 (leVal (encInt 2 q.num)) : ℤ) : ℚ)) =
    Except.ok (JsVal.vNum q)
  have hts := toSigned_encInt 2 (by norm_num) q.num
    (by norm_num; omega) (by norm_num; omega)
  rw [hts, ratCast_num q hden]

/-- DWORD-shaped (32-bit unsigned) read-back. -/
theorem dword_readback (desc : ParsedAddress) (q : ℚ)
    (hden : q.den = 1) (h0 : 0 ≤ q.num) (hhi : q.num ≤ 4294967295)
    (area area' : WordArea)
    (hm : area.writeUInt32 desc.byteOffset q.num = .ok area') :
    (area'.readUInt32 desc.byteOffset).map (fun n => JsVal.vNum (n : ℚ)) =
      .ok (.vNum q) := by
  obtain ⟨ha', hal, hrange⟩ := writeUInt32_ok_inv _ _ _ _ hm
  obtain ⟨hslice, hlen⟩ := slice_after_listSet area area' desc.byteOffset
    4 (encInt 4 q.num) (leBytes_length _ _) ha' hrange
  rw [readUInt32_of area' _ hal (by omega), hslice]
  show Except.ok (JsVal.vNum ((leVal (encInt 4 q.num) : ℕ) : ℚ)) =
    Except.ok (JsVal.vNum q)
  rw [leVal_encInt_cast 4 q.num h0 (by norm_num; omega),
    ratCast_num q hden]

/-- DINT-shaped (32-bit signed) read-back. -/
theorem dint_readback (desc : ParsedAddress) (q : ℚ)
    (hden : q.den = 1) (hlo : -2147483648 ≤ q.num)
    (hhi : q.num ≤ 2147483647)
    (area area' : WordArea)
    (hm : area.writeInt32 desc.byteOffset q.num = .ok area') :
    (area'.readInt32 desc.byteOffset).map (fun i => JsVal.vNum (i : ℚ)) =
      .ok (.vNum q) := by
  obtain ⟨ha', hal, hrange⟩ := writeUInt32_ok_inv _ _ _ _ hm
  obtain ⟨hslice, hlen⟩ := slice_after_listSet area area' desc.byteOffset
    4 (encInt 4 q.num) (leBytes_length _ _) ha' hrange
  rw [readInt32_of area' _ hal (by omega), hslice]
  show Except.ok (JsVal.vNum
      ((toSigned 4 (leVal (encInt 4 q.num)) : ℤ) : ℚ)) =
    Except.ok (JsVal.vNum q)
  have hts := toSigned_encInt 4 (by norm_num) q.num
    (by norm_num; omega) (by norm_num; omega)
  rw [hts, ratCast_num q hden]

/-- LINT read-back. -/
theorem lint_readback (desc : ParsedAddress) (i : Int)
    (hlo : -9223372036854775808 ≤ i) (hhi : i ≤ 9223372036854775807)
    (area area' : WordArea)
    (hm : area.writeBigInt64 desc.byteOffset i = .ok area') :
    (area'.readBigInt64 desc.byteOffset).map (fun z => JsVal.vBig z) =
      .ok (.vBig i) := by
  obtain ⟨ha', hal, hrange⟩ := writeBigInt64_ok_inv _ _ _ _ hm
  obtain ⟨hslice, hlen⟩ := slice_after_listSet area area' desc.byteOffset
    8 (encInt 8 i) (leBytes_length _ _) ha' hrange
  rw [readBigInt64_of area' _ hal (by omega)]
  dsimp only [Except.map]
  have hts := toSigned_encInt 8 (by norm_num) i
    (by norm_num; omega) (by norm_num; omega)
  rw [hslice, hts]

/-- REAL read-back for binary32-representable rationals. -/
theorem real_readback (desc : ParsedAddress) (q : ℚ)
    (hfit : f32Enc q < 2 ^ 32) (hdec : f32Dec (f32Enc q) = q)
    (area area' : WordArea)
    (hm : area.writeFloat32 desc.byteOffset q = .ok area') :
    (area'.readFloat32 desc.byteOffset).map (fun x => JsVal.vNum x) =
      .ok (.vNum q) := by
  obtain ⟨ha', hal, hrange⟩ := writeFloat32_ok_inv _ _ _ _ hm
  obtain ⟨hslice, hlen⟩ := slice_after_listSet area area' desc.byteOffset
    4 (leBytes 4 (f32Enc q)) (leBytes_length _ _) ha' hrange
  rw [readFloat32_of area' _ hal (by omega)]
  dsimp only [Except.map]
  rw [hslice, leVal_leBytes]
  rw [Nat.mod_eq_of_lt (by norm_num; omega)]
  rw [show f32Dec (f32Enc q) = q from hdec]

/-- LREAL read-back for binary64-representable rationals. -/
theorem lreal_readback (desc : ParsedAddress) (q : ℚ)
    (hfit : f64Enc q < 2 ^ 64) (hdec : f64Dec (f64Enc q) = q)
    (area area' : WordArea)
    (hm : area.writeFloat64 desc.byteOffset q = .ok area') :
    (area'.readFloat64 desc.byteOffset).map (fun x => JsVal.vNum x) =
      .ok (.vNum q) := by
  obtain ⟨ha', hal, hrange⟩ := writeFloat64_ok_inv _ _ _ _ hm
  obtain ⟨hslice, hlen⟩ := slice_after_listSet area area' desc.byteOffset
    8 (leBytes 8 (f64Enc q)) (leBytes_length _ _) ha' hrange
  rw [readFloat64_of area' _ hal (by omega)]
  dsimp only [Except.map]
  rw [hslice, leVal_leBytes]
  rw [Nat.mod_eq_of_lt (by norm_num; omega)]
  rw [show f64Dec (f64Enc q) = q from hdec]

/-- `checkIntRange` accepts an in-range integral rational. -/
theorem checkIntRange_of (q : ℚ) (lo hi : Int) (hden : q.den = 1)
    (hlo : lo ≤ q.num) (hhi : q.num ≤ hi) :
    PlcStateImpl.checkIntRange (.vNum q) lo hi = some q.num := by
  unfold PlcStateImpl.checkIntRange
  dsimp only
  rw [if_pos (by simp [hden, hlo, hhi])]

/-- C1: for each of the 14 scalar types, a successful typed facade write
of an in-domain value followed by the matching typed read of the same
address or symbol path returns exactly the written value (covering both
the absolute-area leg and the symbol-fallback leg of every accessor). -/
theorem C1_typed_round_trip (t : SclDataType) (s : PlcStateImpl)
    (address : String) (v : JsVal)
    (hdom : typeDomain t v = true)
    (hok : (PlcStateImpl.typedWrite t s address v).result = .ok ()) :
    PlcStateImpl.typedRead t
      ((PlcStateImpl.typedWrite t s address v).state) address = .ok v := by
  cases t with
  | BOOL =>
    cases v with
    | vBool b =>
      unfold PlcStateImpl.typedWrite PlcStateImpl.writeBool
        PlcStateImpl.writeBoolInternal at hok ⊢
      unfold PlcStateImpl.typedRead PlcStateImpl.readBool
      dsimp only at hok ⊢
      cases hp : parseBitAddress address with
      | ok desc =>
        rw [hp] at hok
        exact writeWith_ok_roundtrip_area s address desc 1 _ _ _ _ _ _
          hok (fun area area' hra hm => bool_readback desc b area area' hm)
      | error e =>
        rw [hp] at hok
        exact writeWith_ok_roundtrip_sym s address e 1 _ _ .BOOL (.vBool b)
          hok (fun desc current hd hco =>
            coerce_ok_id .BOOL (.vBool b) current desc.stringLength address
              rfl (by rw [describe_ok_type _ _ _ _ hd] at hco; exact hco))
    | vNum q => simp [typeDomain] at hdom
    | vBig i => simp [typeDomain] at hdom
    | vStr u => simp [typeDomain] at hdom
    | vUndef => simp [typeDomain] at hdom
  | BYTE =>
    cases v with
    | vNum q =>
      simp only [typeDomain, Bool.and_eq_true, decide_eq_true_eq] at hdom
      obtain ⟨⟨hden, h0⟩, hhi⟩ := hdom
      unfold PlcStateImpl.typedWrite PlcStateImpl.writeByte at hok ⊢
      unfold PlcStateImpl.typedRead PlcStateImpl.readByte
      dsimp only at hok ⊢
      simp only [checkIntRange_of q 0 255 hden h0 hhi] at hok ⊢
      unfold PlcStateImpl.writeNumeric at hok ⊢
      cases hp : parseByteAddress address
          { byteLength := 1, alignment := none } with
      | ok desc =>
        rw [hp] at hok
        exact writeWith_ok_roundtrip_area s address desc 1 _ _ _ _ _ _
          hok (fun area area' hra hm =>
            byte_readback desc q hden h0 hhi area area' hm)
      | error e =>
        rw [hp] at hok
        exact writeWith_ok_roundtrip_sym s address e 1 _ _ .BYTE (.vNum q)
          hok (fun desc current hd hco =>
            coerce_ok_id .BYTE (.vNum q) current desc.stringLength address
              (by simp only [typeDomain, Bool.and_eq_true, decide_eq_true_eq]; exact ⟨⟨hden, h0⟩, hhi⟩)
              (by rw [describe_ok_type _ _ _ _ hd] at hco; exact hco))
    | vBool b => simp [typeDomain] at hdom
    | vBig i => simp [typeDomain] at hdom
    | vStr u => simp [typeDomain] at hdom
    | vUndef => simp [typeDomain] at hdom
  | WORD =>
    cases v with
    | vNum q =>
      simp only [typeDomain, Bool.and_eq_true, decide_eq_true_eq] at hdom
      obtain ⟨⟨hden, h0⟩, hhi⟩ := hdom
      unfold PlcStateImpl.typedWrite PlcStateImpl.writeWord at hok ⊢
      unfold PlcStateImpl.typedRead PlcStateImpl.readWord
      dsimp only at hok ⊢
      simp only [checkIntRange_of q 0 65535 hden h0 hhi] at hok ⊢
      unfold PlcStateImpl.writeNumeric at hok ⊢
      cases hp : parseByteAddress address
          { byteLength := 2, alignment := some 2 } with
      | ok desc =>
        rw [hp] at hok
        exact writeWith_ok_roundtrip_area s address desc 2 _ _ _ _ _ _
          hok (fun area area' hra hm =>
            word_readback desc q hden h0 hhi area area' hm)
      | error e =>
        rw [hp] at hok
        exact writeWith_ok_roundtrip_sym s address e 2 _ _ .WORD (.vNum q)
          hok (fun desc current hd hco =>
            coerce_ok_id .WORD (.vNum q) current desc.stringLength address
              (by simp only [typeDomain, Bool.and_eq_true, decide_eq_true_eq]; exact ⟨⟨hden, h0⟩, hhi⟩)
              (by rw [describe_ok_type _ _ _ _ hd] at hco; exact hco))
    | vBool b => simp [typeDomain] at hdom
    | vBig i => simp [typeDomain] at hdom
    | vStr u => simp [typeDomain] at hdom
    | vUndef => simp [typeDomain] at hdom
  | DWORD =>
    cases v with
    | vNum q =>
      simp only [typeDomain, Bool.and_eq_true, decide_eq_true_eq] at hdom
      obtain ⟨⟨hden, h0⟩, hhi⟩ := hdom
      unfold PlcStateImpl.typedWrite PlcStateImpl.writeDWord at hok ⊢
      unfold PlcStateImpl.typedRead PlcStateImpl.readDWord
      dsimp only at hok ⊢
      simp only [checkIntRange_of q 0 4294967295 hden h0 hhi] at hok ⊢
      unfold PlcStateImpl.writeNumeric at hok ⊢
      cases hp : parseByteAddress address
          { byteLength := 4, alignment := some 4 } with
      | ok desc =>
        rw [hp] at hok
        exact writeWith_ok_roundtrip_area s address desc 4 _ _ _ _ _ _
          hok (fun area area' hra hm =>
            dword_readback desc q hden h0 hhi area area' hm)
      | error e =>
        rw [hp] at hok
        exact writeWith_ok_roundtrip_sym s address e 4 _ _ .DWORD (.vNum q)
          hok (fun desc current hd hco =>
            coerce_ok_id .DWORD (.vNum q) current desc.stringLength address
              (by simp only [typeDomain, Bool.and_eq_true, decide_eq_true_eq]; exact ⟨⟨hden, h0⟩, hhi⟩)
              (by rw [describe_ok_type _ _ _ _ hd] at hco; exact hco))
    | vBool b => simp [typeDomain] at hdom
    | vBig i => simp [typeDomain] at hdom
    | vStr u => simp [typeDomain] at hdom
    | vUndef => simp [typeDomain] at hdom
  | SINT =>
    cases v with
    | vNum q =>
      simp only [typeDomain, Bool.and_eq_true, decide_eq_true_eq] at hdom
      obtain ⟨⟨hden, hlo⟩, hhi⟩ := hdom
      unfold PlcStateImpl.typedWrite PlcStateImpl.writeSInt at hok ⊢
      unfold PlcStateImpl.typedRead PlcStateImpl.readSInt
      dsimp only at hok ⊢
      simp only [checkIntRange_of q (-128) 127 hden hlo hhi] at hok ⊢
      unfold PlcStateImpl.writeNumeric at hok ⊢
      cases hp : parseByteAddress address
          { byteLength := 1, alignment := none } with
      | ok desc =>
        rw [hp] at hok
        exact writeWith_ok_roundtrip_area s address desc 1 _ _ _ _ _ _
          hok (fun area area' hra hm =>
            sint_readback desc q hden hlo hhi area area' hm)
      | error e =>
        rw [hp] at hok
        exact writeWith_ok_roundtrip_sym s address e 1 _ _ .SINT (.vNum q)
          hok (fun desc current hd hco =>
            coerce_ok_id .SINT (.vNum q) current desc.stringLength address
              (by simp only [typeDomain, Bool.and_eq_true, decide_eq_true_eq]; exact ⟨⟨hden, hlo⟩, hhi⟩)
              (by rw [describe_ok_type _ _ _ _ hd] at hco; exact hco))
    | vBool b => simp [typeDomain] at hdom
    | vBig i => simp [typeDomain] at hdom
    | vStr u => simp [typeDomain] at hdom
    | vUndef => simp [typeDomain] at hdom
  | INT =>
    cases v with
    | vNum q =>
      simp only [typeDomain, Bool.and_eq_true, decide_eq_true_eq] at hdom
      obtain ⟨⟨hden, hlo⟩, hhi⟩ := hdom
      unfold PlcStateImpl.typedWrite PlcStateImpl.writeInt at hok ⊢
      unfold PlcStateImpl.typedRead PlcStateImpl.readInt
      dsimp only at hok ⊢
      simp only [checkIntRange_of q (-32768) 32767 hden hlo hhi] at hok ⊢
      unfold PlcStateImpl.writeNumeric at hok ⊢
      cases hp : parseByteAddress address
          { byteLength := 2, alignment := some 2 } with
      | ok desc =>
        rw [hp] at hok
        exact writeWith_ok_roundtrip_area s address desc 2 _ _ _ _ _ _
          hok (fun area area' hra hm =>
            int_readback desc q hden hlo hhi area area' hm)
      | error e =>
        rw [hp] at hok
        exact writeWith_ok_roundtrip_sym s address e 2 _ _ .INT (.vNum q)
          hok (fun desc current hd hco =>
            coerce_ok_id .INT (.vNum q) current desc.stringLength address
              (by simp only [typeDomain, Bool.and_eq_true, decide_eq_true_eq]; exact ⟨⟨hden, hlo⟩, hhi⟩)
              (by rw [describe_ok_type _ _ _ _ hd] at hco; exact hco))
    | vBool b => simp [typeDomain] at hdom
    | vBig i => simp [typeDomain] at hdom
    | vStr u => simp [typeDomain] at hdom
    | vUndef => simp [typeDomain] at hdom
  | DINT =>
    cases v with
    | vNum q =>
      simp only [typeDomain, Bool.and_eq_true, decide_eq_true_eq] at hdom
      obtain ⟨⟨hden, hlo⟩, hhi⟩ := hdom
      unfold PlcStateImpl.typedWrite PlcStateImpl.writeDInt at hok ⊢
      unfold PlcStateImpl.typedRead PlcStateImpl.readDInt
      dsimp only at hok ⊢
      simp only [checkIntRange_of q (-2147483648) 2147483647 hden hlo hhi]
        at hok ⊢
      unfold PlcStateImpl.writeNumeric at hok ⊢
      cases hp : parseByteAddress address
          { byteLength := 4, alignment := some 4 } with
      | ok desc =>
        rw [hp] at hok
        exact writeWith_ok_roundtrip_area s address desc 4 _ _ _ _ _ _
          hok (fun area area' hra hm =>
            dint_readback desc q hden hlo hhi area area' hm)
      | error e =>
        rw [hp] at hok
        exact writeWith_ok_roundtrip_sym s address e 4 _ _ .DINT (.vNum q)
          hok (fun desc current hd hco =>
            coerce_ok_id .DINT (.vNum q) current desc.stringLength address
              (by simp only [typeDomain, Bool.and_eq_true, decide_eq_true_eq]; exact ⟨⟨hden, hlo⟩, hhi⟩)
              (by rw [describe_ok_type _ _ _ _ hd] at hco; exact hco))
    | vBool b => simp [typeDomain] at hdom
    | vBig i => simp [typeDomain] at hdom
    | vStr u => simp [typeDomain] at hdom
    | vUndef => simp [typeDomain] at hdom
  | LINT =>
    cases v with
    | vBig i =>
      simp only [typeDomain, Bool.and_eq_true, decide_eq_true_eq] at hdom
      obtain ⟨hlo, hhi⟩ := hdom
      unfold PlcStateImpl.typedWrite PlcStateImpl.writeLint at hok ⊢
      unfold PlcStateImpl.typedRead PlcStateImpl.readLint
      dsimp only at hok ⊢
      unfold PlcStateImpl.writeNumeric at hok ⊢
      cases hp : parseByteAddress address
          { byteLength := 8, alignment := some 8 } with
      | ok desc =>
        rw [hp] at hok
        exact writeWith_ok_roundtrip_area s address desc 8 _ _ _ _ _ _
          hok (fun area area' hra hm =>
            lint_readback desc i hlo hhi area area' hm)
      | error e =>
        rw [hp] at hok
        exact writeWith_ok_roundtrip_sym s address e 8 _ _ .LINT (.vBig i)
          hok (fun desc current hd hco =>
            coerce_ok_id .LINT (.vBig i) current desc.stringLength address
              (by simp only [typeDomain, Bool.and_eq_true, decide_eq_true_eq]; exact ⟨hlo, hhi⟩)
              (by rw [describe_ok_type _ _ _ _ hd] at hco; exact hco))
    | vBool b => simp [typeDomain] at hdom
    | vNum q => simp [typeDomain] at hdom
    | vStr u => simp [typeDomain] at hdom
    | vUndef => simp [typeDomain] at hdom
  | REAL =>
    cases v with
    | vNum q =>
      simp only [typeDomain, Bool.and_eq_true, decide_eq_true_eq] at hdom
      obtain ⟨hfit, hdec⟩ := hdom
      unfold PlcStateImpl.typedWrite PlcStateImpl.writeReal at hok ⊢
      unfold PlcStateImpl.typedRead PlcStateImpl.readReal
      dsimp only at hok ⊢
      unfold PlcStateImpl.writeNumeric at hok ⊢
      cases hp : parseByteAddress address
          { byteLength := 4, alignment := some 4 } with
      | ok desc =>
        rw [hp] at hok
        exact writeWith_ok_roundtrip_area s address desc 4 _ _ _ _ _ _
          hok (fun area area' hra hm =>
            real_readback desc q hfit hdec area area' hm)
      | error e =>
        rw [hp] at hok
        exact writeWith_ok_roundtrip_sym s address e 4 _ _ .REAL (.vNum q)
          hok (fun desc current hd hco =>
            coerce_ok_id .REAL (.vNum q) current desc.stringLength address
              (by simp only [typeDomain, Bool.and_eq_true, decide_eq_true_eq]; exact ⟨hfit, hdec⟩)
              (by rw [describe_ok_type _ _ _ _ hd] at hco; exact hco))
    | vBool b => simp [typeDomain] at hdom
    | vBig i => simp [typeDomain] at hdom
    | vStr u => simp [typeDomain] at hdom
    | vUndef => simp [typeDomain] at hdom
  | LREAL =>
    cases v with
    | vNum q =>
      simp only [typeDomain, Bool.and_eq_true, decide_eq_true_eq] at hdom
      obtain ⟨hfit, hdec⟩ := hdom
      unfold PlcStateImpl.typedWrite PlcStateImpl.writeLReal at hok ⊢
      unfold PlcStateImpl.typedRead PlcStateImpl.readLReal
      dsimp only at hok ⊢
      unfold PlcStateImpl.writeNumeric at hok ⊢
      cases hp : parseByteAddress address
          { byteLength := 8, alignment := some 8 } with
      | ok desc =>
        rw [hp] at hok
        exact writeWith_ok_roundtrip_area s address desc 8 _ _ _ _ _ _
          hok (fun area area' hra hm =>
            lreal_readback desc q hfit hdec area area' hm)
      | error e =>
        rw [hp] at hok
        exact writeWith_ok_roundtrip_sym s address e 8 _ _ .LREAL (.vNum q)
          hok (fun desc current hd hco =>
            coerce_ok_id .LREAL (.vNum q) current desc.stringLength address
              (by simp only [typeDomain, Bool.and_eq_true, decide_eq_true_eq]; exact ⟨hfit, hdec⟩)
              (by rw [describe_ok_type _ _ _ _ hd] at hco; exact hco))
    | vBool b => simp [typeDomain] at hdom
    | vBig i => simp [typeDomain] at hdom
    | vStr u => simp [typeDomain] at hdom
    | vUndef => simp [typeDomain] at hdom
  | TIME =>
    cases v with
    | vNum q =>
      simp only [typeDomain, Bool.and_eq_true, decide_eq_true_eq] at hdom
      obtain ⟨⟨hden, hlo⟩, hhi⟩ := hdom
      unfold PlcStateImpl.typedWrite PlcStateImpl.writeTime at hok ⊢
      unfold PlcStateImpl.typedRead PlcStateImpl.readTime
      dsimp only at hok ⊢
      simp only [checkIntRange_of q (-2147483648) 2147483647 hden hlo hhi]
        at hok ⊢
      unfold PlcStateImpl.writeNumeric at hok ⊢
      cases hp : parseByteAddress address
          { byteLength := 4, alignment := some 4 } with
      | ok desc =>
        rw [hp] at hok
        exact writeWith_ok_roundtrip_area s address desc 4 _ _ _ _ _ _
          hok (fun area area' hra hm =>
            dint_readback desc q hden hlo hhi area area' hm)
      | error e =>
        rw [hp] at hok
        exact writeWith_ok_roundtrip_sym s address e 4 _ _ .TIME (.vNum q)
          hok (fun desc current hd hco =>
            coerce_ok_id .TIME (.vNum q) current desc.stringLength address
              (by simp only [typeDomain, Bool.and_eq_true, decide_eq_true_eq]; exact ⟨⟨hden, hlo⟩, hhi⟩)
              (by rw [describe_ok_type _ _ _ _ hd] at hco; exact hco))
    | vBool b => simp [typeDomain] at hdom
    | vBig i => simp [typeDomain] at hdom
    | vStr u => simp [typeDomain] at hdom
    | vUndef => simp [typeDomain] at hdom
  | DATE =>
    cases v with
    | vNum q =>
      simp only [typeDomain, Bool.and_eq_true, decide_eq_true_eq] at hdom
      obtain ⟨⟨hden, h0⟩, hhi⟩ := hdom
      unfold PlcStateImpl.typedWrite PlcStateImpl.writeDate at hok ⊢
      unfold PlcStateImpl.typedRead PlcStateImpl.readDate
      dsimp only at hok ⊢
      simp only [checkIntRange_of q 0 65535 hden h0 hhi] at hok ⊢
      unfold PlcStateImpl.writeNumeric at hok ⊢
      cases hp : parseByteAddress address
          { byteLength := 2, alignment := some 2 } with
      | ok desc =>
        rw [hp] at hok
        exact writeWith_ok_roundtrip_area s address desc 2 _ _ _ _ _ _
          hok (fun area area' hra hm =>
            word_readback desc q hden h0 hhi area area' hm)
      | error e =>
        rw [hp] at hok
        exact writeWith_ok_roundtrip_sym s address e 2 _ _ .DATE (.vNum q)
          hok (fun desc current hd hco =>
            coerce_ok_id .DATE (.vNum q) current desc.stringLength address
              (by simp only [typeDomain, Bool.and_eq_true, decide_eq_true_eq]; exact ⟨⟨hden, h0⟩, hhi⟩)
              (by rw [describe_ok_type _ _ _ _ hd] at hco; exact hco))
    | vBool b => simp [typeDomain] at hdom
    | vBig i => simp [typeDomain] at hdom
    | vStr u => simp [typeDomain] at hdom
    | vUndef => simp [typeDomain] at hdom
  | TOD =>
    cases v with
    | vNum q =>
      simp only [typeDomain, Bool.and_eq_true, decide_eq_true_eq] at hdom
      obtain ⟨⟨hden, h0⟩, hhi⟩ := hdom
      unfold PlcStateImpl.typedWrite PlcStateImpl.writeTod at hok ⊢
      unfold PlcStateImpl.typedRead PlcStateImpl.readTod
      dsimp only at hok ⊢
      simp only [checkIntRange_of q 0 4294967295 hden h0 hhi] at hok ⊢
      unfold PlcStateImpl.writeNumeric at hok ⊢
      cases hp : parseByteAddress address
          { byteLength := 4, alignment := some 4 } with
      | ok desc =>
        rw [hp] at hok
        exact writeWith_ok_roundtrip_area s address desc 4 _ _ _ _ _ _
          hok (fun area area' hra hm =>
            dword_readback desc q hden h0 hhi area area' hm)
      | error e =>
        rw [hp] at hok
        exact writeWith_ok_roundtrip_sym s address e 4 _ _ .TOD (.vNum q)
          hok (fun desc current hd hco =>
            coerce_ok_id .TOD (.vNum q) current desc.stringLength address
              (by simp only [typeDomain, Bool.and_eq_true, decide_eq_true_eq]; exact ⟨⟨hden, h0⟩, hhi⟩)
              (by rw [describe_ok_type _ _ _ _ hd] at hco; exact hco))
    | vBool b => simp [typeDomain] at hdom
    | vBig i => simp [typeDomain] at hdom
    | vStr u => simp [typeDomain] at hdom
    | vUndef => simp [typeDomain] at hdom
  | STRING =>
    cases v with
    | vStr units =>
      have hbytes : ∀ u ∈ units, u < 256 := by
        simp [typeDomain, List.all_eq_true] at hdom
        exact hdom
      unfold PlcStateImpl.typedWrite at hok ⊢
      unfold PlcStateImpl.typedRead
      dsimp only at hok ⊢
      rw [string_roundtrip s address units hbytes hok]
      rfl
    | vBool b => simp [typeDomain] at hdom
    | vNum q => simp [typeDomain] at hdom
    | vBig i => simp [typeDomain] at hdom
    | vUndef => simp [typeDomain] at hdom

/-- Two-byte flag-only state for the round-trip witness. -/
def c1S : PlcStateImpl := { flags := some ⟨[0, 0]⟩ }

/-- Witness: the BYTE round trip at `MB0` over a zeroed flag area
returns the written value 5. -/
theorem C1_typed_round_trip_witness :
    typeDomain .BYTE (.vNum 5) = true ∧
    (PlcStateImpl.typedWrite .BYTE c1S "MB0" (.vNum 5)).result = .ok () ∧
    PlcStateImpl.typedRead .BYTE
      ((PlcStateImpl.typedWrite .BYTE c1S "MB0" (.vNum 5)).state) "MB0" =
      .ok (.vNum 5) :=
  ⟨by decide, rfl,
    C1_typed_round_trip .BYTE c1S "MB0" (.vNum 5) (by decide) rfl⟩

end SclEmu
